import Mathlib

/-!
# OLED shooting-gallery demo: game-object update loop

Shallow embedding of `nisc2021-challenge01-oled-display/main.c`.

* The three statically allocated `GameObject`s (`player`, `bullet`, `enemy`) live in the
  `World`; a `GameObject *` is an `ObjRef` naming one of them, and `gameObjects` is the
  list of the seven registry slots (`none` is `NULL`).
* `int32_t` / `int` values are integers of `Int`, and every addition, subtraction and
  negation the source performs on them is reduced to the `int32_t` range modulo `2 ^ 32`
  (`add32`, `sub32`, `neg32`): C leaves signed overflow undefined, and two's-complement
  wrap-around is what the 32-bit target computes. The constant expressions of the source
  (`PLAYER_RADIUS * 2`, `PLAYER_RADIUS / 2`, ...) are far from the bounds.
  `nEnemyLivesLeft` is a `uint8_t`; its decrement is computed modulo `2 ^ 8`.
* Calls into the display driver are recorded, in call order, in `World.display`.
* Each thread body is embedded as the function performing one iteration of its `while` loop.
  A run is a list of such iterations; `run` accepts them in any order, which covers every
  schedule of the program and more. `Spaced` singles out the runs in which two spawner
  iterations are at least twelve render ticks apart, as the sleeps of the two threads
  (2000 ms against 20 ms) make them.
-/

namespace Oled

/-! ## Constants -/

def PLAYER_X_START : Int := 32
def PLAYER_Y_START : Int := 7
def PLAYER_X_STEP : Int := 3
def PLAYER_RADIUS : Int := 5
def BULLET_WIDTH : Int := 1
def BULLET_HEIGHT : Int := 4
def BULLET_Y_STEP : Int := 5
def ENEMY_X_START : Int := 32
def ENEMY_Y_START : Int := 40
def ENEMY_STEP : Int := 4
def ENEMY_WIDTH : Int := 20
def ENEMY_HEIGHT : Int := 20
def ENEMY_X_MIN : Int := 15
def ENEMY_X_MAX : Int := 116
def SCREEN_X_MIN : Int := 8
def SCREEN_X_MAX : Int := 127
def SCREEN_Y_MAX : Int := 63
def SCREEN_MS_REFRESH_RATE : Nat := 20
def N_MAX_GAME_OBJECTS : Nat := 7

/-! ## Arithmetic of `int32_t` -/

/-- Least value of `int32_t`. -/
def INT32_MIN : Int := -2147483648

/-- Greatest value of `int32_t`. -/
def INT32_MAX : Int := 2147483647

/-- The `int32_t` value congruent to `z` modulo `2 ^ 32`. -/
def wrap32 (z : Int) : Int := (z + 2147483648) % 4294967296 - 2147483648

/-- Operator `+` on `int32_t` operands. -/
def add32 (a b : Int) : Int := wrap32 (a + b)

/-- Operator `-` on `int32_t` operands. -/
def sub32 (a b : Int) : Int := wrap32 (a - b)

/-- Unary `-` on an `int32_t` operand. -/
def neg32 (a : Int) : Int := wrap32 (-a)

/-- Macro `STEP_TOWARDS_MAX(step)`: `step > 0 ? step : -step`. -/
def STEP_TOWARDS_MAX (step : Int) : Int := if step > 0 then step else neg32 step

/-- Macro `STEP_TOWARDS_MIN(step)`: `step < 0 ? step : -step`. -/
def STEP_TOWARDS_MIN (step : Int) : Int := if step < 0 then step else neg32 step

/-! ## Data model -/

/-- The two colours of the panel (`ssd1306_color_t`). -/
inductive ssd1306_color_t where
  | SSD1306_COLOR_BLACK
  | SSD1306_COLOR_WHITE
  deriving DecidableEq, Repr

/-- The functions a `cbOutOfBoundaries` field can point to. -/
inductive BoundaryFn where
  | cbPlayerOutOfBoundaries
  | cbBulletOutOfBoundaries
  | cbEnemyOutOfBoundaries
  deriving DecidableEq, Repr

/-- The functions an `fnDraw` field can point to. -/
inductive DrawFn where
  | fnDrawPlayer
  | fnDrawBullet
  | fnDrawEnemy
  deriving DecidableEq, Repr

/-- The record `struct GameObject`. -/
structure GameObject where
  xCurrent : Int
  yCurrent : Int
  xStep : Int
  yStep : Int
  horizontal : Bool
  vertical : Bool
  cbOutOfBoundaries : BoundaryFn
  fnDraw : DrawFn
  deriving DecidableEq, Repr

/-- Addresses of the three static game objects: `&player`, `&bullet`, `&enemy`. -/
inductive ObjRef where
  | player
  | bullet
  | enemy
  deriving DecidableEq, Repr

/-- One call into the display driver, with its arguments. The threads embedded here call
`ssd1306Puts` only with the status line `"Enemy Lives: %u "` in the 7x10 font; the call is
recorded with the number printed. (The victory message printed by the loop of `main` is not
part of the embedding.) -/
inductive DisplayCall where
  | ssd1306FillScreen (color : ssd1306_color_t)
  | ssd1306GotoXy (x y : Int)
  | ssd1306Puts (lives : Nat) (color : ssd1306_color_t)
  | ssd1306DrawCircleFill (x y r : Int) (color : ssd1306_color_t)
  | ssd1306DrawRectangleFill (x y w h : Int) (color : ssd1306_color_t)
  | ssd1306UpdateScreen
  deriving DecidableEq, Repr

/-- The mutable globals of the program together with the log of display calls. -/
structure World where
  player : GameObject
  bullet : GameObject
  enemy : GameObject
  gameObjects : List (Option ObjRef)
  enemyHit : Bool
  nEnemyLivesLeft : Nat
  enemyColor : ssd1306_color_t
  display : List DisplayCall
  deriving DecidableEq, Repr

/-- Dereference a `GameObject *`. -/
def World.obj (w : World) : ObjRef → GameObject
  | .player => w.player
  | .bullet => w.bullet
  | .enemy => w.enemy

/-- Store through a `GameObject *`. -/
def World.setObj (w : World) (r : ObjRef) (o : GameObject) : World :=
  match r with
  | .player => { w with player := o }
  | .bullet => { w with bullet := o }
  | .enemy => { w with enemy := o }

/-- Read `gameObjects[i]`. -/
def slot (g : List (Option ObjRef)) (i : Nat) : Option ObjRef := g.getD i none

/-- Record one display-driver call. -/
def World.emit (w : World) (c : DisplayCall) : World :=
  { w with display := w.display ++ [c] }

/-! ## Boundary handlers -/

/-- Function `restoreOnHorizontalBounds`: the two `if` statements run one after the other. -/
def restoreOnHorizontalBounds (obj : GameObject) (xMin xMax width : Int) : GameObject :=
  let obj1 :=
    if obj.xCurrent ≤ xMin then
      { obj with xCurrent := add32 xMin 1, xStep := STEP_TOWARDS_MAX obj.xStep }
    else obj
  if add32 obj1.xCurrent width > xMax then
    { obj1 with xCurrent := sub32 (sub32 xMax width) 1, xStep := STEP_TOWARDS_MIN obj1.xStep }
  else obj1

/-- Function `cbPlayerOutOfBoundaries`: the object as left by the call, and the result. -/
def cbPlayerOutOfBoundaries (player : GameObject) : GameObject × Bool :=
  (restoreOnHorizontalBounds player SCREEN_X_MIN SCREEN_X_MAX (PLAYER_RADIUS * 2), false)

/-- Function `cbEnemyOutOfBoundaries`: the object as left by the call, and the result. -/
def cbEnemyOutOfBoundaries (enemy : GameObject) : GameObject × Bool :=
  (restoreOnHorizontalBounds enemy ENEMY_X_MIN ENEMY_X_MAX ENEMY_WIDTH, false)

/-- The local `overlapsWithEnemy` of `cbBulletOutOfBoundaries`, computed against the global
`enemy`. -/
def overlapsWithEnemy (enemy bullet : GameObject) : Bool :=
  decide (bullet.xCurrent > add32 enemy.xCurrent 2)
    && decide (bullet.xCurrent < sub32 (add32 enemy.xCurrent ENEMY_WIDTH) 2)
    && decide (bullet.yCurrent > sub32 enemy.yCurrent ENEMY_HEIGHT)
    && decide (bullet.yCurrent < enemy.yCurrent)

/-- Function `cbBulletOutOfBoundaries`: the globals after the call, and the result.
The `uint8_t` decrement wraps modulo 256. -/
def cbBulletOutOfBoundaries (w : World) (bullet : GameObject) : World × Bool :=
  if overlapsWithEnemy w.enemy bullet then
    ({ w with enemyHit := true, nEnemyLivesLeft := (w.nEnemyLivesLeft + 255) % 256 }, true)
  else
    (w, decide (SCREEN_Y_MAX < sub32 bullet.yCurrent (BULLET_HEIGHT / 2)))

/-- The indirect call `thisGO->cbOutOfBoundaries(thisGO)`. -/
def callOutOfBoundaries (w : World) (r : ObjRef) : World × Bool :=
  match (w.obj r).cbOutOfBoundaries with
  | .cbPlayerOutOfBoundaries =>
      let res := cbPlayerOutOfBoundaries (w.obj r)
      (w.setObj r res.1, res.2)
  | .cbEnemyOutOfBoundaries =>
      let res := cbEnemyOutOfBoundaries (w.obj r)
      (w.setObj r res.1, res.2)
  | .cbBulletOutOfBoundaries => cbBulletOutOfBoundaries w (w.obj r)

/-! ## Draw functions -/

/-- Function `fnDrawPlayer`. -/
def fnDrawPlayer (w : World) (player : GameObject) : World :=
  w.emit (.ssd1306DrawCircleFill player.xCurrent player.yCurrent PLAYER_RADIUS
    .SSD1306_COLOR_WHITE)

/-- Function `fnDrawBullet`. -/
def fnDrawBullet (w : World) (bullet : GameObject) : World :=
  w.emit (.ssd1306DrawRectangleFill bullet.xCurrent bullet.yCurrent BULLET_WIDTH BULLET_HEIGHT
    .SSD1306_COLOR_WHITE)

/-- Function `fnDrawEnemy`: drawn in the current `enemyColor`. -/
def fnDrawEnemy (w : World) (enemy : GameObject) : World :=
  w.emit (.ssd1306DrawRectangleFill enemy.xCurrent enemy.yCurrent ENEMY_WIDTH ENEMY_HEIGHT
    w.enemyColor)

/-- The indirect call `thisGO->fnDraw(thisGO)`. -/
def callDraw (w : World) (r : ObjRef) : World :=
  match (w.obj r).fnDraw with
  | .fnDrawPlayer => fnDrawPlayer w (w.obj r)
  | .fnDrawBullet => fnDrawBullet w (w.obj r)
  | .fnDrawEnemy => fnDrawEnemy w (w.obj r)

/-! ## Registry -/

/-- The `for` loop of `addToRenderable` started at index `i` with `k` iterations left. -/
def addToRenderableLoop (obj : ObjRef) :
    Nat → Nat → List (Option ObjRef) → List (Option ObjRef) × Bool
  | _, 0, g => (g, false)
  | i, k + 1, g =>
      if slot g i = none then (g.set i (some obj), true)
      else addToRenderableLoop obj (i + 1) k g

/-- Function `addToRenderable`: the registry after the call, and the result `added`. -/
def addToRenderable (g : List (Option ObjRef)) (obj : ObjRef) :
    List (Option ObjRef) × Bool :=
  addToRenderableLoop obj 0 N_MAX_GAME_OBJECTS g

/-! ## Threads -/

/-- One iteration of the `while` loop of `ThreadBulletSpawner` (the 2000 ms sleep that ends
it has no effect on the globals). The divisions have positive operands, where the rounding
of `/` in `Int` and in C agree. -/
def ThreadBulletSpawner (w : World) : World :=
  let w1 := { w with bullet := { w.bullet with
    xCurrent := sub32 (add32 w.player.xCurrent (PLAYER_RADIUS / 2)) (BULLET_WIDTH / 2) } }
  let w2 := { w1 with bullet := { w1.bullet with
    yCurrent := add32 (add32 w1.player.yCurrent (PLAYER_RADIUS / 2)) (BULLET_HEIGHT / 2) } }
  { w2 with gameObjects := (addToRenderable w2.gameObjects .bullet).1 }

/-- The two position updates of the loop body of `ThreadRenderer`, made through the
pointer `gameObjects[i]`: `yCurrent += yStep` if `vertical`, then `xCurrent += xStep` if
`horizontal`. -/
def applySteps (w : World) (r : ObjRef) : World :=
  let w1 :=
    if (w.obj r).vertical then
      w.setObj r { w.obj r with yCurrent := add32 (w.obj r).yCurrent (w.obj r).yStep }
    else w
  if (w1.obj r).horizontal then
    w1.setObj r { w1.obj r with xCurrent := add32 (w1.obj r).xCurrent (w1.obj r).xStep }
  else w1

/-- Body of the `for` loop of `ThreadRenderer` for index `i`. -/
def renderSlot (w : World) (i : Nat) : World :=
  match slot w.gameObjects i with
  | none => w
  | some r =>
      let res := callOutOfBoundaries w r
      if res.2 then
        { res.1 with gameObjects := res.1.gameObjects.set i none }
      else
        callDraw (applySteps res.1 r) r

/-- The `for` loop of `ThreadRenderer` started at index `i` with `k` iterations left. -/
def renderLoop : Nat → Nat → World → World
  | _, 0, w => w
  | i, k + 1, w => renderLoop (i + 1) k (renderSlot w i)

/-- One iteration of the `while` loop of `ThreadRenderer`. When `nEnemyLivesLeft <= 0` the
thread parks itself in `chThdSuspendS` and nothing resumes it: the iteration has no effect. -/
def ThreadRenderer (w : World) : World :=
  if w.nEnemyLivesLeft ≤ 0 then w
  else
    let w1 := w.emit (.ssd1306FillScreen .SSD1306_COLOR_BLACK)
    let w2 := w1.emit (.ssd1306GotoXy 0 25)
    let w3 := w2.emit (.ssd1306Puts w2.nEnemyLivesLeft .SSD1306_COLOR_WHITE)
    let w4 := renderLoop 0 N_MAX_GAME_OBJECTS w3
    w4.emit .ssd1306UpdateScreen

/-- What `ThreadEnemyBlinker` does, in order: assignments to `enemyColor` and sleeps. -/
inductive BlinkerEvent where
  | setEnemyColor (color : ssd1306_color_t)
  | sleepMilliseconds (ms : Nat)
  deriving DecidableEq, Repr

/-- The `for` loop of `ThreadEnemyBlinker` started at index `i` with `k` iterations left.
The other threads run while the blinker sleeps: `env n` is what they do to the globals
during the `n`-th sleep of the pass. -/
def blinkLoop (env : Nat → World → World) :
    Nat → Nat → World × List BlinkerEvent → World × List BlinkerEvent
  | _, 0, s => s
  | i, k + 1, s =>
      let w1 := { s.1 with enemyColor := .SSD1306_COLOR_BLACK }
      let w2 := env (2 * i + 1) w1
      let w3 := { w2 with enemyColor := .SSD1306_COLOR_WHITE }
      let w4 := env (2 * i + 2) w3
      blinkLoop env (i + 1) k
        (w4, s.2 ++ [.setEnemyColor .SSD1306_COLOR_BLACK, .sleepMilliseconds 100,
                     .setEnemyColor .SSD1306_COLOR_WHITE, .sleepMilliseconds 70])

/-- One iteration of the `while` loop of `ThreadEnemyBlinker`, with the events it performs.
`env 0` is what the other threads do between the test of `enemyHit` and the `for` loop. -/
def ThreadEnemyBlinker (env : Nat → World → World) (w : World) : World × List BlinkerEvent :=
  if !w.enemyHit then (w, [])
  else
    let s := blinkLoop env 0 10 (env 0 w, [])
    ({ s.1 with enemyHit := false }, s.2)

/-- A blinker pass during which no other thread runs. -/
def idle : Nat → World → World := fun _ w => w

/-! ## Initial state and runs -/

/-- Static initialiser of `player`. -/
def playerInit : GameObject :=
  { xCurrent := PLAYER_X_START, yCurrent := PLAYER_Y_START, xStep := PLAYER_X_STEP, yStep := -1,
    horizontal := true, vertical := false,
    cbOutOfBoundaries := .cbPlayerOutOfBoundaries, fnDraw := .fnDrawPlayer }

/-- Static initialiser of `bullet`. -/
def bulletInit : GameObject :=
  { xCurrent := 0, yCurrent := 0, xStep := -1, yStep := BULLET_Y_STEP,
    horizontal := false, vertical := true,
    cbOutOfBoundaries := .cbBulletOutOfBoundaries, fnDraw := .fnDrawBullet }

/-- Static initialiser of `enemy` (`yStep` is not listed, so it is zero). -/
def enemyInit : GameObject :=
  { xCurrent := ENEMY_X_START, yCurrent := ENEMY_Y_START, xStep := ENEMY_STEP, yStep := 0,
    horizontal := true, vertical := false,
    cbOutOfBoundaries := .cbEnemyOutOfBoundaries, fnDraw := .fnDrawEnemy }

/-- The globals at program start: empty registry, three lives, white enemy. -/
def initWorld : World :=
  { player := playerInit, bullet := bulletInit, enemy := enemyInit,
    gameObjects := List.replicate N_MAX_GAME_OBJECTS none,
    enemyHit := false, nEnemyLivesLeft := 3, enemyColor := .SSD1306_COLOR_WHITE,
    display := [] }

/-- The atomic steps of a run: the two registrations made by `main`, one spawner iteration,
one renderer iteration. `main` makes its two registrations one right after the other
(`startWorld`); the iterations of the two threads follow. -/
inductive Step where
  | registerPlayer
  | registerEnemy
  | spawner
  | render
  deriving DecidableEq, Repr

/-- Effect of one step on the globals. -/
def step (w : World) : Step → World
  | .registerPlayer => { w with gameObjects := (addToRenderable w.gameObjects .player).1 }
  | .registerEnemy => { w with gameObjects := (addToRenderable w.gameObjects .enemy).1 }
  | .spawner => ThreadBulletSpawner w
  | .render => ThreadRenderer w

/-- Effect of a sequence of steps. Any order of steps is accepted, which covers every
schedule of the program and more; see `startWorld` and `Spaced`. -/
def run (w : World) (steps : List Step) : World := steps.foldl step w

/-- The globals once `main` has registered the player and the enemy. -/
def startWorld : World := run initWorld [.registerPlayer, .registerEnemy]

/-! ## Predicates used in the statements -/

/-- Every object occupies at most one registry slot. -/
def SingleSlot (g : List (Option ObjRef)) : Prop :=
  ∀ i j r, slot g i = some r → slot g j = some r → i = j

/-- The display call made by `callDraw` for object `o` when the enemy colour is `c`. -/
def drawCall (c : ssd1306_color_t) (o : GameObject) : DisplayCall :=
  match o.fnDraw with
  | .fnDrawPlayer =>
      .ssd1306DrawCircleFill o.xCurrent o.yCurrent PLAYER_RADIUS .SSD1306_COLOR_WHITE
  | .fnDrawBullet =>
      .ssd1306DrawRectangleFill o.xCurrent o.yCurrent BULLET_WIDTH BULLET_HEIGHT
        .SSD1306_COLOR_WHITE
  | .fnDrawEnemy =>
      .ssd1306DrawRectangleFill o.xCurrent o.yCurrent ENEMY_WIDTH ENEMY_HEIGHT c

/-- The object `o` displaced along its enabled axes as `ThreadRenderer` does it, with the
`+=` of `int32_t`. -/
def moved (o : GameObject) : GameObject :=
  { o with
    xCurrent := if o.horizontal then add32 o.xCurrent o.xStep else o.xCurrent,
    yCurrent := if o.vertical then add32 o.yCurrent o.yStep else o.yCurrent }

/-- The object `o` with `xStep` added to its x if `horizontal` and `yStep` added to its y if
`vertical`, the sums being those of the integers. -/
def shifted (o : GameObject) : GameObject :=
  { o with
    xCurrent := if o.horizontal then o.xCurrent + o.xStep else o.xCurrent,
    yCurrent := if o.vertical then o.yCurrent + o.yStep else o.yCurrent }

/-- The sums made when `o` is displaced along its enabled axes fit in `int32_t`. -/
def StepsFit (o : GameObject) : Prop :=
  (o.horizontal = true →
    INT32_MIN ≤ o.xCurrent + o.xStep ∧ o.xCurrent + o.xStep ≤ INT32_MAX) ∧
  (o.vertical = true →
    INT32_MIN ≤ o.yCurrent + o.yStep ∧ o.yCurrent + o.yStep ≤ INT32_MAX)

instance (o : GameObject) : Decidable (StepsFit o) := by
  unfold StepsFit
  infer_instance

/-- The sums `ex + 2`, `ex + ENEMY_WIDTH - 2` and `ey - ENEMY_HEIGHT` of the hit test fit in
`int32_t` for the enemy `e`. -/
def HitTestFits (e : GameObject) : Prop :=
  INT32_MIN ≤ e.xCurrent ∧ e.xCurrent + 20 ≤ INT32_MAX ∧
  INT32_MIN ≤ e.yCurrent - 20 ∧ e.yCurrent ≤ INT32_MAX

instance (e : GameObject) : Decidable (HitTestFits e) := by
  unfold HitTestFits
  infer_instance

/-- Object `r` occupies no registry slot other than slot `i`. -/
def OnlyIn (g : List (Option ObjRef)) (r : ObjRef) (i : Nat) : Prop :=
  ∀ j, slot g j = some r → j = i

/-- The globals when the `for` loop of `ThreadRenderer` is entered: the frame buffer has
been cleared and the status line printed. -/
def frameStart (w : World) : World :=
  ((w.emit (.ssd1306FillScreen .SSD1306_COLOR_BLACK)).emit (.ssd1306GotoXy 0 25)).emit
    (.ssd1306Puts w.nEnemyLivesLeft .SSD1306_COLOR_WHITE)

/-- The display calls made while the `for` loop of `ThreadRenderer` handles slot `i` in
the globals `w`: one draw of the moved object, or nothing for an empty slot and for an
object whose handler reports removal. -/
def slotDraws (w : World) (i : Nat) : List DisplayCall :=
  match slot w.gameObjects i with
  | none => []
  | some r =>
      if (callOutOfBoundaries w r).2 then []
      else [drawCall w.enemyColor (moved ((callOutOfBoundaries w r).1.obj r))]

/-- The globals when the `for` loop of `ThreadRenderer` reaches index `i`: slots `0` to
`i - 1` have been handled, in this order. -/
def beforeSlot (w : World) (i : Nat) : World := renderLoop 0 i (frameStart w)

/-- The fields of `bullet` that no statement of the program assigns, as initialised. -/
def IsBullet (o : GameObject) : Prop :=
  o.yStep = BULLET_Y_STEP ∧ o.horizontal = false ∧ o.vertical = true ∧
  o.cbOutOfBoundaries = .cbBulletOutOfBoundaries ∧ o.fnDraw = .fnDrawBullet

/-- Ten rounds of the blink pattern: black, 100 ms, white, 70 ms. -/
def blinkPattern : List BlinkerEvent :=
  (List.replicate 10
    [.setEnemyColor .SSD1306_COLOR_BLACK, .sleepMilliseconds 100,
     .setEnemyColor .SSD1306_COLOR_WHITE, .sleepMilliseconds 70]).flatten

/-- Other threads raising `enemyHit` during every sleep of a blinker pass. -/
def hitAgain : Nat → World → World := fun _ w => { w with enemyHit := true }

/-! ## The two tests of the reflection -/

/-- The test of the first `if` of `restoreOnHorizontalBounds` (lower edge). -/
def lowerEdgeFires (obj : GameObject) (xMin : Int) : Bool := decide (obj.xCurrent ≤ xMin)

/-- The object after the first `if` of `restoreOnHorizontalBounds`. -/
def afterLowerEdge (obj : GameObject) (xMin : Int) : GameObject :=
  if obj.xCurrent ≤ xMin then
    { obj with xCurrent := add32 xMin 1, xStep := STEP_TOWARDS_MAX obj.xStep }
  else obj

/-- The test of the second `if` of `restoreOnHorizontalBounds` (upper edge), evaluated as
the function does, on the object left by the first `if`. -/
def upperEdgeFires (obj : GameObject) (xMin xMax width : Int) : Bool :=
  decide (add32 (afterLowerEdge obj xMin).xCurrent width > xMax)

/-! ## Runs and their invariant -/

/-- The globals met along a run: before the first step and after each step. -/
def states (w : World) : List Step → List World
  | [] => [w]
  | s :: rest => w :: states (step w s) rest

/-- Each object occurs at most once in the registry. -/
def AtMostOnce (g : List (Option ObjRef)) : Prop :=
  ∀ r ∈ [ObjRef.player, ObjRef.bullet, ObjRef.enemy], g.count (some r) ≤ 1

instance (g : List (Option ObjRef)) : Decidable (AtMostOnce g) := by
  unfold AtMostOnce
  infer_instance

/-- What the display calls made for the three kinds of object look like in a run: the
circle of the player and the 20 x 20 rectangle of the enemy lie on the 128 x 64 screen, and
the 1 x 4 rectangle of the bullet has its top row between 16 and 66. -/
def GoodDraw : DisplayCall → Prop
  | .ssd1306DrawCircleFill x y r _ =>
      r = 5 ∧ 0 ≤ x - 5 ∧ x + 5 ≤ 127 ∧ 0 ≤ y - 5 ∧ y + 5 ≤ 63
  | .ssd1306DrawRectangleFill x y w h _ =>
      (w = 20 ∧ h = 20 ∧ 0 ≤ x ∧ x + 20 ≤ 128 ∧ 0 ≤ y ∧ y + 20 ≤ 64) ∨
      (w = 1 ∧ h = 4 ∧ 16 ≤ y ∧ y ≤ 66)
  | _ => True

/-- Facts that hold of the globals throughout every run from `initWorld`. -/
structure Inv (w : World) : Prop where
  playerY : w.player.yCurrent = 7
  playerStep : w.player.xStep = 3 ∨ w.player.xStep = -3
  playerH : w.player.horizontal = true
  playerV : w.player.vertical = false
  playerCb : w.player.cbOutOfBoundaries = .cbPlayerOutOfBoundaries
  playerDraw : w.player.fnDraw = .fnDrawPlayer
  enemyY : w.enemy.yCurrent = 40
  enemyStep : w.enemy.xStep = 4 ∨ w.enemy.xStep = -4
  enemyH : w.enemy.horizontal = true
  enemyV : w.enemy.vertical = false
  enemyCb : w.enemy.cbOutOfBoundaries = .cbEnemyOutOfBoundaries
  enemyDraw : w.enemy.fnDraw = .fnDrawEnemy
  bulletShape : IsBullet w.bullet
  bulletY : (∀ i, slot w.gameObjects i ≠ some .bullet) ∨
    (11 ≤ w.bullet.yCurrent ∧ w.bullet.yCurrent ≤ 66 ∧ w.bullet.yCurrent % 5 = 1)
  slots : w.gameObjects.length = 7
  draws : ∀ c ∈ w.display, GoodDraw c
  playerX : 6 ≤ w.player.xCurrent ∧ w.player.xCurrent ≤ 120
  enemyX : 12 ≤ w.enemy.xCurrent ∧ w.enemy.xCurrent ≤ 100

/-- The registry as `main` sets it up and as spawner steps and render ticks keep it: the
player in slot 0, the enemy in slot 1, every other slot empty or holding the bullet. -/
def MainLayout (g : List (Option ObjRef)) : Prop :=
  slot g 0 = some .player ∧ slot g 1 = some .enemy ∧
  ∀ j, 2 ≤ j → slot g j = none ∨ slot g j = some .bullet

/-- The bullet occupies at most one registry slot. -/
def BulletOnce (g : List (Option ObjRef)) : Prop :=
  ∀ i j, slot g i = some .bullet → slot g j = some .bullet → i = j

/-- What holds of the globals `c` render ticks after the last spawner iteration: the life
counter is at most 3 and, unless it is 0, the bullet occupies at most one slot and, if it
occupies one, has flown at least `c` steps of 5 from its spawning height 11. -/
def Flight (c : Nat) (w : World) : Prop :=
  w.nEnemyLivesLeft ≤ 3 ∧
  (w.nEnemyLivesLeft = 0 ∨
    (BulletOnce w.gameObjects ∧
      ∀ i, slot w.gameObjects i = some .bullet → 11 + 5 * (c : Int) ≤ w.bullet.yCurrent))

/-! ## Schedules of the program -/

/-- Whether a list of steps consists of spawner iterations and render ticks only, each
spawner iteration coming at least `gap` render ticks after the one before it; `c` is the
number of render ticks made since the last spawner iteration. -/
def spacedFrom (gap : Nat) : Nat → List Step → Bool
  | _, [] => true
  | c, .render :: rest => spacedFrom gap (c + 1) rest
  | c, .spawner :: rest => decide (gap ≤ c) && spacedFrom gap 0 rest
  | _, .registerPlayer :: _ => false
  | _, .registerEnemy :: _ => false

/-- The runs the two threads can make once `main` has registered the player and the enemy:
`ThreadBulletSpawner` sleeps 2000 ms after each iteration while `ThreadRenderer` sleeps
20 ms after each tick, so that at least twelve render ticks lie between two spawner
iterations. (A tick of the parked renderer is a step without effect: a run in which the
renderer no longer ticks is the run with such steps added.) -/
def Spaced (steps : List Step) : Prop := spacedFrom 12 12 steps = true

instance (steps : List Step) : Decidable (Spaced steps) := by
  unfold Spaced
  infer_instance

/-! ## Concrete inputs -/

/-- An object at rest (`xStep = 0`) left of both lower bounds. -/
def restingLow : GameObject :=
  { xCurrent := 0, yCurrent := 7, xStep := 0, yStep := 0, horizontal := true, vertical := false,
    cbOutOfBoundaries := .cbPlayerOutOfBoundaries, fnDraw := .fnDrawPlayer }

/-- An object at rest (`xStep = 0`) right of both upper bounds. -/
def restingHigh : GameObject :=
  { restingLow with xCurrent := 200 }

/-- An object moving left, left of both lower bounds. -/
def leftwardLow : GameObject :=
  { restingLow with xStep := -3 }

/-- An object moving right, right of both upper bounds. -/
def rightwardHigh : GameObject :=
  { restingLow with xCurrent := 200, xStep := 3 }

/-- A registry whose seven slots are all occupied. -/
def fullRegistry : List (Option ObjRef) :=
  [some .player, some .enemy, some .bullet, some .bullet, some .bullet, some .bullet,
   some .bullet]

/-- A registry whose first empty slot is slot 2. -/
def gappedRegistry : List (Option ObjRef) :=
  [some .player, some .enemy, none, some .bullet, none, none, none]

/-- A bullet at `(ex + 3, ey - 1)` of the starting enemy. -/
def bulletInside : GameObject :=
  { bulletInit with xCurrent := ENEMY_X_START + 3, yCurrent := ENEMY_Y_START - 1 }

/-- A bullet that has flown past the enemy and below the last screen row. -/
def bulletBelow : GameObject :=
  { bulletInit with xCurrent := 34, yCurrent := 66 }

/-- The starting globals with the player in slot 0, the enemy in slot 2 and, in slot 3, a
bullet below the last screen row. -/
def tickWorld : World :=
  { startWorld with
    gameObjects := [some .player, none, some .enemy, some .bullet, none, none, none],
    bullet := { bulletInit with xCurrent := 34, yCurrent := 66 } }

/-- An object at the greatest `int32_t` position, moving right. -/
def farRight : GameObject :=
  { restingLow with xCurrent := 2147483647, xStep := 3 }

/-- An object left of both lower bounds whose `xStep` is the least `int32_t` value. -/
def steepLow : GameObject :=
  { restingLow with xStep := -2147483648 }

/-- An enemy two columns from the greatest `int32_t` position, at the starting height. -/
def enemyFarRight : GameObject :=
  { enemyInit with xCurrent := 2147483646 }

/-- A bullet near the least `int32_t` position, one row above `enemyFarRight`. -/
def bulletFarLeft : GameObject :=
  { bulletInit with xCurrent := -2147483643, yCurrent := 39 }

/-- An enemy ten columns from the greatest `int32_t` position, at the starting height. -/
def enemyNearRight : GameObject :=
  { enemyInit with xCurrent := 2147483637 }

/-- The bullet at `(ex + 3, ey - 1)` of `enemyNearRight`. -/
def bulletNearRight : GameObject :=
  { bulletInit with xCurrent := 2147483640, yCurrent := 39 }

/-- A bullet at the least `int32_t` height. -/
def bulletTop : GameObject :=
  { bulletInit with xCurrent := 34, yCurrent := -2147483648 }

/-- The starting globals with the player at x = 100 and the greatest `int32_t` step. -/
def overflowWorld : World :=
  { startWorld with player := { playerInit with xCurrent := 100, xStep := 2147483647 } }

/-- The starting globals with the player at the greatest `int32_t` position. -/
def edgeWorld : World :=
  { startWorld with player := { playerInit with xCurrent := 2147483647 } }

/-- A run of spawner steps and render ticks with three hits, one by each of three bullets;
no spawner step is made while a bullet is registered. -/
def winningRun : List Step :=
  List.replicate 16 .render ++ [.spawner] ++ List.replicate 27 .render ++ [.spawner] ++
  List.replicate 30 .render ++ [.spawner] ++ List.replicate 3 .render

/-- The globals of `winningRun` just before the tick of its first hit. -/
def firstHitWorld : World := run startWorld (winningRun.take 21)

/-! ## Lemmas on registry slots -/

theorem slot_set_self (g : List (Option ObjRef)) (i : Nat) (v : Option ObjRef)
    (h : i < g.length) : slot (g.set i v) i = v := by
  simp [slot, List.getD_eq_getElem?_getD, List.getElem?_set, h]

theorem slot_set_other (g : List (Option ObjRef)) (i j : Nat) (v : Option ObjRef)
    (h : i ≠ j) : slot (g.set i v) j = slot g j := by
  simp [slot, List.getD_eq_getElem?_getD, List.getElem?_set, h]

theorem slot_of_length_le (g : List (Option ObjRef)) (i : Nat) (h : g.length ≤ i) :
    slot g i = none := by
  simp [slot, List.getD_eq_getElem?_getD, List.getElem?_eq_none h]

/-- A loop that meets only occupied slots adds nothing. -/
theorem addToRenderableLoop_full (obj : ObjRef) (g : List (Option ObjRef)) :
    ∀ (k i : Nat), (∀ j, i ≤ j → j < i + k → slot g j ≠ none) →
      addToRenderableLoop obj i k g = (g, false) := by
  intro k
  induction k with
  | zero => intro i _; rfl
  | succ k ih =>
    intro i h
    have hi : slot g i ≠ none := h i (Nat.le_refl i) (by omega)
    simp only [addToRenderableLoop, hi, if_false]
    exact ih (i + 1) (fun j h1 h2 => h j (by omega) (by omega))

/-- A loop that meets an empty slot stores the object in the first one it meets. -/
theorem addToRenderableLoop_first (obj : ObjRef) (g : List (Option ObjRef)) :
    ∀ (k i : Nat), (∃ j, i ≤ j ∧ j < i + k ∧ slot g j = none) →
      ∃ m, i ≤ m ∧ m < i + k ∧ slot g m = none ∧ (∀ j, i ≤ j → j < m → slot g j ≠ none) ∧
        addToRenderableLoop obj i k g = (g.set m (some obj), true) := by
  intro k
  induction k with
  | zero => rintro i ⟨j, h1, h2, _⟩; omega
  | succ k ih =>
    rintro i ⟨j, h1, h2, h3⟩
    by_cases hi : slot g i = none
    · refine ⟨i, Nat.le_refl i, by omega, hi, fun j h4 h5 => by omega, ?_⟩
      simp [addToRenderableLoop, hi]
    · have hij : i ≠ j := fun e => hi (e ▸ h3)
      obtain ⟨m, m1, m2, m3, m4, m5⟩ := ih (i + 1) ⟨j, by omega, by omega, h3⟩
      refine ⟨m, by omega, by omega, m3, ?_, ?_⟩
      · intro j' h4 h5
        by_cases e : j' = i
        · exact e ▸ hi
        · exact m4 j' (by omega) h5
      · simp only [addToRenderableLoop, hi, if_false]
        exact m5

theorem addToRenderable_length (g : List (Option ObjRef)) (obj : ObjRef) :
    (addToRenderable g obj).1.length = g.length := by
  have key : ∀ (k i : Nat), (addToRenderableLoop obj i k g).1.length = g.length := by
    intro k
    induction k with
    | zero => intro i; rfl
    | succ k ih =>
      intro i
      by_cases hi : slot g i = none
      · simp [addToRenderableLoop, hi]
      · simp only [addToRenderableLoop, hi, if_false]
        exact ih (i + 1)
  exact key _ _

theorem addToRenderable_first_slot (g : List (Option ObjRef)) (obj : ObjRef)
    (hlen : g.length = 7) (hempty : ∃ i, i < 7 ∧ slot g i = none) :
    ∃ m, m < 7 ∧ slot g m = none ∧ (∀ j, j < m → slot g j ≠ none) ∧
      (addToRenderable g obj).2 = true ∧
      (addToRenderable g obj).1 = g.set m (some obj) ∧
      slot (addToRenderable g obj).1 m = some obj ∧
      (∀ j, j ≠ m → slot (addToRenderable g obj).1 j = slot g j) := by
  obtain ⟨i, hi, hs⟩ := hempty
  obtain ⟨m, _, m2, m3, m4, m5⟩ := addToRenderableLoop_first obj g N_MAX_GAME_OBJECTS 0
    ⟨i, Nat.zero_le i, by simpa [N_MAX_GAME_OBJECTS] using hi, hs⟩
  have hm : m < 7 := by simpa [N_MAX_GAME_OBJECTS] using m2
  have h : addToRenderable g obj = (g.set m (some obj), true) := m5
  refine ⟨m, hm, m3, fun j hj => m4 j (Nat.zero_le j) hj, by rw [h], by rw [h], ?_, ?_⟩
  · rw [h]; exact slot_set_self g m (some obj) (by omega)
  · intro j hj
    rw [h]; exact slot_set_other g m j (some obj) (fun e => hj e.symm)

/-! ## Lemmas on `int32_t` arithmetic -/

theorem wrap32_of_fits (z : Int) (h1 : INT32_MIN ≤ z) (h2 : z ≤ INT32_MAX) : wrap32 z = z := by
  unfold wrap32
  unfold INT32_MIN at h1
  unfold INT32_MAX at h2
  omega

theorem add32_of_fits (a b : Int) (h1 : INT32_MIN ≤ a + b) (h2 : a + b ≤ INT32_MAX) :
    add32 a b = a + b := wrap32_of_fits _ h1 h2

theorem sub32_of_fits (a b : Int) (h1 : INT32_MIN ≤ a - b) (h2 : a - b ≤ INT32_MAX) :
    sub32 a b = a - b := wrap32_of_fits _ h1 h2

theorem neg32_of_fits (a : Int) (h1 : INT32_MIN ≤ -a) (h2 : -a ≤ INT32_MAX) :
    neg32 a = -a := wrap32_of_fits _ h1 h2

theorem moved_eq_shifted (o : GameObject) (h : StepsFit o) : moved o = shifted o := by
  obtain ⟨hx, hy⟩ := h
  unfold moved shifted
  cases hh : o.horizontal <;> cases hv : o.vertical <;>
    simp only [Bool.false_eq_true, if_false, if_true]
  · rw [add32_of_fits _ _ (hy hv).1 (hy hv).2]
  · rw [add32_of_fits _ _ (hx hh).1 (hx hh).2]
  · rw [add32_of_fits _ _ (hx hh).1 (hx hh).2, add32_of_fits _ _ (hy hv).1 (hy hv).2]

theorem STEP_TOWARDS_MAX_abs (s : Int) (h : INT32_MIN < s) : STEP_TOWARDS_MAX s = |s| := by
  unfold STEP_TOWARDS_MAX
  unfold INT32_MIN at h
  split_ifs with hs
  · exact (abs_of_pos hs).symm
  · rw [neg32_of_fits s (by unfold INT32_MIN; omega) (by unfold INT32_MAX; omega),
      abs_of_nonpos (by omega)]

theorem STEP_TOWARDS_MIN_abs (s : Int) (h : s ≤ INT32_MAX) : STEP_TOWARDS_MIN s = -|s| := by
  unfold STEP_TOWARDS_MIN
  unfold INT32_MAX at h
  split_ifs with hs
  · rw [abs_of_neg hs]; omega
  · rw [neg32_of_fits s (by unfold INT32_MIN; omega) (by unfold INT32_MAX; omega),
      abs_of_nonneg (by omega)]

/-! ## Reflection at the horizontal bounds -/

/-- The reflection with the bounds of the player. -/
theorem restore_player (o : GameObject) :
    restoreOnHorizontalBounds o 8 127 10 =
      if o.xCurrent ≤ 8 then { o with xCurrent := 9, xStep := STEP_TOWARDS_MAX o.xStep }
      else if add32 o.xCurrent 10 > 127 then
        { o with xCurrent := 116, xStep := STEP_TOWARDS_MIN o.xStep }
      else o := by
  unfold restoreOnHorizontalBounds
  by_cases h1 : o.xCurrent ≤ 8
  · have e1 : add32 8 1 = 9 := by decide
    have e2 : ¬ (add32 9 10 > 127) := by decide
    simp only [h1, if_true, e1, e2, if_false]
  · have e3 : sub32 (sub32 127 10) 1 = 116 := by decide
    simp only [h1, if_false, e3]

/-- The reflection with the bounds of the enemy. -/
theorem restore_enemy (o : GameObject) :
    restoreOnHorizontalBounds o 15 116 20 =
      if o.xCurrent ≤ 15 then { o with xCurrent := 16, xStep := STEP_TOWARDS_MAX o.xStep }
      else if add32 o.xCurrent 20 > 116 then
        { o with xCurrent := 95, xStep := STEP_TOWARDS_MIN o.xStep }
      else o := by
  unfold restoreOnHorizontalBounds
  by_cases h1 : o.xCurrent ≤ 15
  · have e1 : add32 15 1 = 16 := by decide
    have e2 : ¬ (add32 16 20 > 116) := by decide
    simp only [h1, if_true, e1, e2, if_false]
  · have e3 : sub32 (sub32 116 20) 1 = 95 := by decide
    simp only [h1, if_false, e3]

theorem cbPlayer_within (o : GameObject) (hx : o.xCurrent + 10 ≤ INT32_MAX) :
    8 < (cbPlayerOutOfBoundaries o).1.xCurrent ∧
      (cbPlayerOutOfBoundaries o).1.xCurrent + 10 ≤ 127 := by
  have e : (cbPlayerOutOfBoundaries o).1 = restoreOnHorizontalBounds o 8 127 10 := rfl
  rw [e, restore_player]
  unfold INT32_MAX at hx
  split_ifs with h1 h2
  · exact ⟨show (8 : Int) < 9 by decide, show (9 : Int) + 10 ≤ 127 by decide⟩
  · exact ⟨show (8 : Int) < 116 by decide, show (116 : Int) + 10 ≤ 127 by decide⟩
  · simp only [add32, wrap32] at h2
    constructor <;> omega

theorem cbEnemy_within (o : GameObject) (hx : o.xCurrent + 20 ≤ INT32_MAX) :
    15 < (cbEnemyOutOfBoundaries o).1.xCurrent ∧
      (cbEnemyOutOfBoundaries o).1.xCurrent + 20 ≤ 116 := by
  have e : (cbEnemyOutOfBoundaries o).1 = restoreOnHorizontalBounds o 15 116 20 := rfl
  rw [e, restore_enemy]
  unfold INT32_MAX at hx
  split_ifs with h1 h2
  · exact ⟨show (15 : Int) < 16 by decide, show (16 : Int) + 20 ≤ 116 by decide⟩
  · exact ⟨show (15 : Int) < 95 by decide, show (95 : Int) + 20 ≤ 116 by decide⟩
  · simp only [add32, wrap32] at h2
    constructor <;> omega

/-- C1, as stated, fails at the top of the `int32_t` range: for an object at
x = 2147483647 the sum `x + width` of the upper-edge test wraps to a negative value, the
test fails and both handlers leave the object where it is, outside the band. -/
theorem far_right_object_stays_outside_bounds :
    (cbPlayerOutOfBoundaries farRight).1.xCurrent = 2147483647 ∧
    ¬ ((cbPlayerOutOfBoundaries farRight).1.xCurrent + 10 ≤ 127) ∧
    (cbEnemyOutOfBoundaries farRight).1.xCurrent = 2147483647 ∧
    ¬ ((cbEnemyOutOfBoundaries farRight).1.xCurrent + 20 ≤ 116) := by
  decide

/-- C1 (amended): for every game object whose x satisfies `x + 10 ≤ INT32_MAX`, after
`cbPlayerOutOfBoundaries` its x satisfies `8 < x` and `x + 10 ≤ 127`; for every game object
whose x satisfies `x + 20 ≤ INT32_MAX`, after `cbEnemyOutOfBoundaries` its x satisfies
`15 < x` and `x + 20 ≤ 116`. The velocity is arbitrary. -/
theorem handlers_leave_object_within_bounds (o : GameObject) :
    (o.xCurrent + 10 ≤ INT32_MAX →
      8 < (cbPlayerOutOfBoundaries o).1.xCurrent ∧
      (cbPlayerOutOfBoundaries o).1.xCurrent + 10 ≤ 127) ∧
    (o.xCurrent + 20 ≤ INT32_MAX →
      15 < (cbEnemyOutOfBoundaries o).1.xCurrent ∧
      (cbEnemyOutOfBoundaries o).1.xCurrent + 20 ≤ 116) :=
  ⟨cbPlayer_within o, cbEnemy_within o⟩

/-- Witness for C1 (amended): an object at x = 200, right of both bands, is brought back
into each of them. -/
theorem handlers_leave_object_within_bounds_witness :
    rightwardHigh.xCurrent + 10 ≤ INT32_MAX ∧ rightwardHigh.xCurrent + 20 ≤ INT32_MAX ∧
    (cbPlayerOutOfBoundaries rightwardHigh).1.xCurrent = 116 ∧
    (8 < (cbPlayerOutOfBoundaries rightwardHigh).1.xCurrent ∧
      (cbPlayerOutOfBoundaries rightwardHigh).1.xCurrent + 10 ≤ 127) ∧
    (15 < (cbEnemyOutOfBoundaries rightwardHigh).1.xCurrent ∧
      (cbEnemyOutOfBoundaries rightwardHigh).1.xCurrent + 20 ≤ 116) :=
  ⟨by decide, by decide, by decide,
    (handlers_leave_object_within_bounds rightwardHigh).1 (by decide),
    (handlers_leave_object_within_bounds rightwardHigh).2 (by decide)⟩

/-- C2, as stated, fails in three ways. For an object at rest (`xStep = 0`) the object is
repositioned at either edge but its `xStep` stays `0`, neither strictly positive nor
strictly negative. For `xStep = INT32_MIN` the negation of the macro wraps, and after the
reflection at the lower edge `xStep` is still `INT32_MIN`, negative. For x = 2147483647 the
sum of the upper-edge test wraps and the object is not repositioned. -/
theorem reflection_not_always_away_from_edge :
    (restingLow.xCurrent ≤ 8 ∧ ¬ 0 < (restoreOnHorizontalBounds restingLow 8 127 10).xStep) ∧
    (restingHigh.xCurrent + 20 > 116 ∧
      ¬ (restoreOnHorizontalBounds restingHigh 15 116 20).xStep < 0) ∧
    (steepLow.xCurrent ≤ 8 ∧
      (restoreOnHorizontalBounds steepLow 8 127 10).xStep = -2147483648 ∧
      ¬ 0 < (restoreOnHorizontalBounds steepLow 8 127 10).xStep) ∧
    (farRight.xCurrent + 10 > 127 ∧
      (restoreOnHorizontalBounds farRight 8 127 10).xCurrent = 2147483647 ∧
      ¬ (restoreOnHorizontalBounds farRight 8 127 10).xCurrent = 127 - 10 - 1) := by
  decide

/-- C2 (amended): with the player bounds (8, 127, width 10) or the enemy bounds
(15, 116, width 20). If `x ≤ xMin` on entry and the entry `xStep` is above `INT32_MIN`, then
on exit `x = xMin + 1` and `xStep` is the absolute value of the entry `xStep` (non-negative,
strictly positive when the entry `xStep` is not zero). If `x + width > xMax` on entry, with
`x + width ≤ INT32_MAX` and the entry `xStep` at most `INT32_MAX`, then on exit
`x = xMax - width - 1` and `xStep` is minus the absolute value of the entry `xStep`
(non-positive, strictly negative when the entry `xStep` is not zero). -/
theorem reflection_away_from_violated_edge (o : GameObject) (xMin xMax width : Int)
    (hb : (xMin = 8 ∧ xMax = 127 ∧ width = 10) ∨ (xMin = 15 ∧ xMax = 116 ∧ width = 20)) :
    (o.xCurrent ≤ xMin → INT32_MIN < o.xStep →
      (restoreOnHorizontalBounds o xMin xMax width).xCurrent = xMin + 1 ∧
      (restoreOnHorizontalBounds o xMin xMax width).xStep = |o.xStep| ∧
      0 ≤ (restoreOnHorizontalBounds o xMin xMax width).xStep ∧
      (o.xStep ≠ 0 → 0 < (restoreOnHorizontalBounds o xMin xMax width).xStep)) ∧
    (o.xCurrent + width > xMax → o.xCurrent + width ≤ INT32_MAX → o.xStep ≤ INT32_MAX →
      (restoreOnHorizontalBounds o xMin xMax width).xCurrent = xMax - width - 1 ∧
      (restoreOnHorizontalBounds o xMin xMax width).xStep = -|o.xStep| ∧
      (restoreOnHorizontalBounds o xMin xMax width).xStep ≤ 0 ∧
      (o.xStep ≠ 0 → (restoreOnHorizontalBounds o xMin xMax width).xStep < 0)) := by
  have hpos : o.xStep ≠ 0 → 0 < |o.xStep| := fun h => abs_pos.mpr h
  have hnn : 0 ≤ |o.xStep| := abs_nonneg _
  rcases hb with ⟨a, b, c⟩ | ⟨a, b, c⟩ <;> subst a b c
  · rw [restore_player]
    constructor
    · intro hlow hs
      rw [if_pos hlow]
      refine ⟨rfl, STEP_TOWARDS_MAX_abs _ hs, ?_, ?_⟩
      · show 0 ≤ STEP_TOWARDS_MAX o.xStep
        rw [STEP_TOWARDS_MAX_abs _ hs]; exact hnn
      · intro h0
        show 0 < STEP_TOWARDS_MAX o.xStep
        rw [STEP_TOWARDS_MAX_abs _ hs]; exact hpos h0
    · intro hhigh hfit hs
      have h1 : ¬ (o.xCurrent ≤ 8) := by omega
      have h2 : add32 o.xCurrent 10 > 127 := by
        rw [add32_of_fits _ _ (by unfold INT32_MIN; omega) hfit]; exact hhigh
      rw [if_neg h1, if_pos h2]
      refine ⟨rfl, STEP_TOWARDS_MIN_abs _ hs, ?_, ?_⟩
      · show STEP_TOWARDS_MIN o.xStep ≤ 0
        rw [STEP_TOWARDS_MIN_abs _ hs]; omega
      · intro h0
        show STEP_TOWARDS_MIN o.xStep < 0
        rw [STEP_TOWARDS_MIN_abs _ hs]
        have := hpos h0
        omega
  · rw [restore_enemy]
    constructor
    · intro hlow hs
      rw [if_pos hlow]
      refine ⟨rfl, STEP_TOWARDS_MAX_abs _ hs, ?_, ?_⟩
      · show 0 ≤ STEP_TOWARDS_MAX o.xStep
        rw [STEP_TOWARDS_MAX_abs _ hs]; exact hnn
      · intro h0
        show 0 < STEP_TOWARDS_MAX o.xStep
        rw [STEP_TOWARDS_MAX_abs _ hs]; exact hpos h0
    · intro hhigh hfit hs
      have h1 : ¬ (o.xCurrent ≤ 15) := by omega
      have h2 : add32 o.xCurrent 20 > 116 := by
        rw [add32_of_fits _ _ (by unfold INT32_MIN; omega) hfit]; exact hhigh
      rw [if_neg h1, if_pos h2]
      refine ⟨rfl, STEP_TOWARDS_MIN_abs _ hs, ?_, ?_⟩
      · show STEP_TOWARDS_MIN o.xStep ≤ 0
        rw [STEP_TOWARDS_MIN_abs _ hs]; omega
      · intro h0
        show STEP_TOWARDS_MIN o.xStep < 0
        rw [STEP_TOWARDS_MIN_abs _ hs]
        have := hpos h0
        omega

/-- Witness for C2 (amended): the player bounds applied to an object moving left at x = 0,
and the enemy bounds applied to an object moving right at x = 200. -/
theorem reflection_away_from_violated_edge_witness :
    (leftwardLow.xCurrent ≤ 8 ∧ INT32_MIN < leftwardLow.xStep ∧
      (restoreOnHorizontalBounds leftwardLow 8 127 10).xCurrent = 8 + 1 ∧
      (restoreOnHorizontalBounds leftwardLow 8 127 10).xStep = |leftwardLow.xStep| ∧
      0 < (restoreOnHorizontalBounds leftwardLow 8 127 10).xStep) ∧
    (rightwardHigh.xCurrent + 20 > 116 ∧ rightwardHigh.xCurrent + 20 ≤ INT32_MAX ∧
      rightwardHigh.xStep ≤ INT32_MAX ∧
      (restoreOnHorizontalBounds rightwardHigh 15 116 20).xCurrent = 116 - 20 - 1 ∧
      (restoreOnHorizontalBounds rightwardHigh 15 116 20).xStep = -|rightwardHigh.xStep| ∧
      (restoreOnHorizontalBounds rightwardHigh 15 116 20).xStep < 0) :=
  have h := (reflection_away_from_violated_edge leftwardLow 8 127 10
    (Or.inl ⟨rfl, rfl, rfl⟩)).1 (by decide) (by decide)
  have k := (reflection_away_from_violated_edge rightwardHigh 15 116 20
    (Or.inr ⟨rfl, rfl, rfl⟩)).2 (by decide) (by decide) (by decide)
  ⟨⟨by decide, by decide, h.1, h.2.1, h.2.2.2 (by decide)⟩,
    ⟨by decide, by decide, by decide, k.1, k.2.1, k.2.2.2 (by decide)⟩⟩

/-! ## Registry insertion -/

/-- C3: on a registry whose 7 slots are all occupied, `addToRenderable` returns false and
leaves each of the 7 slots as it was; the registry still holds at most 7 references. -/
theorem addToRenderable_full (g : List (Option ObjRef)) (obj : ObjRef)
    (hlen : g.length = 7) (hfull : ∀ i, i < 7 → slot g i ≠ none) :
    (addToRenderable g obj).2 = false ∧
    (addToRenderable g obj).1 = g ∧
    (∀ i, i < 7 → slot (addToRenderable g obj).1 i = slot g i) ∧
    (addToRenderable g obj).1.countP (fun s => s.isSome) ≤ 7 := by
  have h : addToRenderable g obj = (g, false) :=
    addToRenderableLoop_full obj g N_MAX_GAME_OBJECTS 0
      (fun j _ h2 => hfull j (by simpa [N_MAX_GAME_OBJECTS] using h2))
  rw [h]
  refine ⟨rfl, rfl, fun _ _ => rfl, ?_⟩
  calc g.countP (fun s => s.isSome) ≤ g.length := List.countP_le_length _
    _ = 7 := hlen

/-- Witness for C3: the bullet offered to a full registry. -/
theorem addToRenderable_full_witness :
    fullRegistry.length = 7 ∧ (∀ i, i < 7 → slot fullRegistry i ≠ none) ∧
    (addToRenderable fullRegistry .bullet).2 = false ∧
    (addToRenderable fullRegistry .bullet).1 = fullRegistry :=
  have hfull : ∀ i, i < 7 → slot fullRegistry i ≠ none := by decide
  have h := addToRenderable_full fullRegistry .bullet rfl hfull
  ⟨rfl, hfull, h.1, h.2.1⟩

/-- C4: on a registry with at least one empty slot, `addToRenderable` returns true, stores
the object in the empty slot of smallest index and leaves every other slot unchanged. -/
theorem addToRenderable_first_empty (g : List (Option ObjRef)) (obj : ObjRef)
    (hlen : g.length = 7) (hempty : ∃ i, i < 7 ∧ slot g i = none) :
    ∃ m, m < 7 ∧ slot g m = none ∧ (∀ j, j < m → slot g j ≠ none) ∧
      (addToRenderable g obj).2 = true ∧
      (addToRenderable g obj).1 = g.set m (some obj) ∧
      slot (addToRenderable g obj).1 m = some obj ∧
      (∀ j, j ≠ m → slot (addToRenderable g obj).1 j = slot g j) := by
  obtain ⟨i, hi, hs⟩ := hempty
  obtain ⟨m, _, m2, m3, m4, m5⟩ := addToRenderableLoop_first obj g N_MAX_GAME_OBJECTS 0
    ⟨i, Nat.zero_le i, by simpa [N_MAX_GAME_OBJECTS] using hi, hs⟩
  have hm : m < 7 := by simpa [N_MAX_GAME_OBJECTS] using m2
  have h : addToRenderable g obj = (g.set m (some obj), true) := m5
  rw [h]
  refine ⟨m, hm, m3, fun j hj => m4 j (Nat.zero_le j) hj, rfl, rfl, ?_, ?_⟩
  · exact slot_set_self g m (some obj) (by omega)
  · intro j hj
    exact slot_set_other g m j (some obj) (fun e => hj e.symm)

/-- Witness for C4: the bullet goes to slot 2 of a registry whose slots 0 and 1 are taken. -/
theorem addToRenderable_first_empty_witness :
    gappedRegistry.length = 7 ∧ (∃ i, i < 7 ∧ slot gappedRegistry i = none) ∧
    ∃ m, m < 7 ∧ slot gappedRegistry m = none ∧ (∀ j, j < m → slot gappedRegistry j ≠ none) ∧
      (addToRenderable gappedRegistry .bullet).2 = true ∧
      (addToRenderable gappedRegistry .bullet).1 = gappedRegistry.set m (some .bullet) ∧
      slot (addToRenderable gappedRegistry .bullet).1 m = some .bullet ∧
      (∀ j, j ≠ m → slot (addToRenderable gappedRegistry .bullet).1 j = slot gappedRegistry j) :=
  have hempty : ∃ i, i < 7 ∧ slot gappedRegistry i = none := ⟨2, by decide, by decide⟩
  ⟨rfl, hempty, addToRenderable_first_empty gappedRegistry .bullet rfl hempty⟩

/-! ## The bullet handler -/

/-- The overlap test of `cbBulletOutOfBoundaries` as a proposition, for an enemy position at
which the sums of the test fit in `int32_t`. -/
theorem overlapsWithEnemy_iff (e b : GameObject) (hf : HitTestFits e) :
    overlapsWithEnemy e b = true ↔
      (e.xCurrent + 2 < b.xCurrent ∧ b.xCurrent < e.xCurrent + 20 - 2) ∧
      (e.yCurrent - 20 < b.yCurrent ∧ b.yCurrent < e.yCurrent) := by
  obtain ⟨h1, h2, h3, h4⟩ := hf
  unfold INT32_MIN at h1 h3
  unfold INT32_MAX at h2 h4
  have e1 : add32 e.xCurrent 2 = e.xCurrent + 2 := by
    simp only [add32, wrap32]; omega
  have e2 : sub32 (add32 e.xCurrent 20) 2 = e.xCurrent + 20 - 2 := by
    simp only [add32, sub32, wrap32]; omega
  have e3 : sub32 e.yCurrent 20 = e.yCurrent - 20 := by
    simp only [sub32, wrap32]; omega
  simp only [overlapsWithEnemy, ENEMY_WIDTH, ENEMY_HEIGHT, Bool.and_eq_true, decide_eq_true_eq,
    gt_iff_lt, e1, e2, e3]
  tauto

/-- A detected hit has the bullet strictly above the enemy's y, whatever the positions. -/
theorem overlapsWithEnemy_above (e b : GameObject) (h : overlapsWithEnemy e b = true) :
    b.yCurrent < e.yCurrent := by
  simp only [overlapsWithEnemy, Bool.and_eq_true, decide_eq_true_eq] at h
  exact h.2

/-- C5, as stated, fails at the top of the `int32_t` range. With the enemy at
x = 2147483646 the sums `ex + 2` and `ex + 20 - 2` wrap, and a bullet at x = -2147483643,
far from `ex + 2 < bx`, is a hit. With the enemy at x = 2147483637 the sum `ex + 20` wraps,
and the bullet at `(ex + 3, ey - 1)` is not a hit. -/
theorem hit_test_wraps_at_int32_max :
    (overlapsWithEnemy enemyFarRight bulletFarLeft = true ∧
      ¬ (enemyFarRight.xCurrent + 2 < bulletFarLeft.xCurrent)) ∧
    (bulletNearRight.xCurrent = enemyNearRight.xCurrent + 3 ∧
      bulletNearRight.yCurrent = enemyNearRight.yCurrent - 1 ∧
      overlapsWithEnemy enemyNearRight bulletNearRight = false) := by
  decide

/-- C5 (amended): for every bullet position `(bx, by)` and every enemy position `(ex, ey)`
with `INT32_MIN ≤ ex`, `ex + 20 ≤ INT32_MAX`, `INT32_MIN ≤ ey - 20` and `ey ≤ INT32_MAX`,
`cbBulletOutOfBoundaries` detects a hit exactly when `ex + 2 < bx < ex + 20 - 2` and
`ey - 20 < by < ey`; a bullet at `(ex + 3, ey - 1)` is a hit, a bullet at `x = ex + 1` is
not, whatever its y. On a hit, at any position, it sets `enemyHit`, reports removal and,
when the life counter is positive, decrements it by exactly one. -/
theorem bullet_hit_detection (w : World) (b : GameObject) :
    (HitTestFits w.enemy →
      (overlapsWithEnemy w.enemy b = true ↔
        (w.enemy.xCurrent + 2 < b.xCurrent ∧ b.xCurrent < w.enemy.xCurrent + 20 - 2) ∧
        (w.enemy.yCurrent - 20 < b.yCurrent ∧ b.yCurrent < w.enemy.yCurrent)) ∧
      (b.xCurrent = w.enemy.xCurrent + 3 → b.yCurrent = w.enemy.yCurrent - 1 →
        overlapsWithEnemy w.enemy b = true) ∧
      (b.xCurrent = w.enemy.xCurrent + 1 → overlapsWithEnemy w.enemy b = false)) ∧
    (overlapsWithEnemy w.enemy b = true →
      (cbBulletOutOfBoundaries w b).1.enemyHit = true ∧
      (cbBulletOutOfBoundaries w b).2 = true ∧
      (0 < w.nEnemyLivesLeft → w.nEnemyLivesLeft < 256 →
        (cbBulletOutOfBoundaries w b).1.nEnemyLivesLeft = w.nEnemyLivesLeft - 1)) ∧
    (overlapsWithEnemy w.enemy b = false →
      (cbBulletOutOfBoundaries w b).1.enemyHit = w.enemyHit ∧
      (cbBulletOutOfBoundaries w b).1.nEnemyLivesLeft = w.nEnemyLivesLeft) := by
  refine ⟨?_, ?_, ?_⟩
  · intro hf
    refine ⟨overlapsWithEnemy_iff w.enemy b hf, ?_, ?_⟩
    · intro hx hy
      rw [overlapsWithEnemy_iff _ _ hf]
      omega
    · intro hx
      rw [← Bool.not_eq_true, overlapsWithEnemy_iff _ _ hf]
      omega
  · intro h
    simp only [cbBulletOutOfBoundaries, h, if_true]
    refine ⟨trivial, trivial, ?_⟩
    intro h0 h1
    omega
  · intro h
    simp [cbBulletOutOfBoundaries, h]

/-- Witness for C5 (amended): a bullet at `(ex + 3, ey - 1)` of the starting enemy, three
lives left. -/
theorem bullet_hit_detection_witness :
    HitTestFits startWorld.enemy ∧
    bulletInside.xCurrent = startWorld.enemy.xCurrent + 3 ∧
    bulletInside.yCurrent = startWorld.enemy.yCurrent - 1 ∧
    overlapsWithEnemy startWorld.enemy bulletInside = true ∧
    0 < startWorld.nEnemyLivesLeft ∧ startWorld.nEnemyLivesLeft < 256 ∧
    (cbBulletOutOfBoundaries startWorld bulletInside).1.enemyHit = true ∧
    (cbBulletOutOfBoundaries startWorld bulletInside).2 = true ∧
    (cbBulletOutOfBoundaries startWorld bulletInside).1.nEnemyLivesLeft = 2 :=
  have hf : HitTestFits startWorld.enemy := by decide
  have hit : overlapsWithEnemy startWorld.enemy bulletInside = true :=
    ((bullet_hit_detection startWorld bulletInside).1 hf).2.1 (by decide) (by decide)
  have h := (bullet_hit_detection startWorld bulletInside).2.1 hit
  ⟨hf, by decide, by decide, hit, by decide, by decide, h.1, h.2.1,
    h.2.2 (by decide) (by decide)⟩

/-- C6, as stated, fails at the bottom of the `int32_t` range: for a bullet at
y = INT32_MIN, which does not overlap the enemy, the difference `by - 2` wraps to a large
positive value and the handler reports removal although `by - 2 > 63` is false. -/
theorem bullet_at_int32_min_reported_removed :
    overlapsWithEnemy startWorld.enemy bulletTop = false ∧
    (cbBulletOutOfBoundaries startWorld bulletTop).2 = true ∧
    ¬ (bulletTop.yCurrent - 2 > 63) := by
  decide

/-- C6 (amended): when `cbBulletOutOfBoundaries` detects no hit it leaves all globals as
they were and, for a bullet whose `by - 2` fits in `int32_t`, reports removal if and only if
`by - BULLET_HEIGHT / 2 > SCREEN_Y_MAX`, that is `by - 2 > 63`; on a hit as on a miss the
three game objects, the bullet among them, keep their position and velocity. -/
theorem bullet_miss_reports_offscreen (w : World) (b : GameObject) :
    (overlapsWithEnemy w.enemy b = false →
      (cbBulletOutOfBoundaries w b).1 = w ∧
      (INT32_MIN ≤ b.yCurrent - 2 → b.yCurrent - 2 ≤ INT32_MAX →
        ((cbBulletOutOfBoundaries w b).2 = true ↔
          b.yCurrent - BULLET_HEIGHT / 2 > SCREEN_Y_MAX) ∧
        ((cbBulletOutOfBoundaries w b).2 = true ↔ b.yCurrent - 2 > 63))) ∧
    ((cbBulletOutOfBoundaries w b).1.player = w.player ∧
      (cbBulletOutOfBoundaries w b).1.bullet = w.bullet ∧
      (cbBulletOutOfBoundaries w b).1.enemy = w.enemy) := by
  constructor
  · intro h
    have e : cbBulletOutOfBoundaries w b =
        (w, decide (SCREEN_Y_MAX < sub32 b.yCurrent (BULLET_HEIGHT / 2))) := by
      simp only [cbBulletOutOfBoundaries, h, Bool.false_eq_true, if_false]
    rw [e]
    refine ⟨rfl, ?_⟩
    intro h1 h2
    have e2 : sub32 b.yCurrent (BULLET_HEIGHT / 2) = b.yCurrent - 2 :=
      sub32_of_fits b.yCurrent 2 h1 h2
    have e3 : b.yCurrent - BULLET_HEIGHT / 2 = b.yCurrent - 2 := rfl
    simp only [e2, e3, SCREEN_Y_MAX, decide_eq_true_eq, gt_iff_lt, and_self]
  · unfold cbBulletOutOfBoundaries
    split_ifs <;> exact ⟨rfl, rfl, rfl⟩

/-- Witness for C6 (amended): a bullet at y = 66, below the starting enemy, is reported
removed. -/
theorem bullet_miss_reports_offscreen_witness :
    overlapsWithEnemy startWorld.enemy bulletBelow = false ∧
    INT32_MIN ≤ bulletBelow.yCurrent - 2 ∧ bulletBelow.yCurrent - 2 ≤ INT32_MAX ∧
    (cbBulletOutOfBoundaries startWorld bulletBelow).2 = true ∧
    (cbBulletOutOfBoundaries startWorld bulletBelow).1 = startWorld :=
  have miss : overlapsWithEnemy startWorld.enemy bulletBelow = false := by decide
  have h := (bullet_miss_reports_offscreen startWorld bulletBelow).1 miss
  ⟨miss, by decide, by decide, (h.2 (by decide) (by decide)).2.2 (by decide), h.1⟩

/-- A bullet with an `int32_t` y that the handler keeps is at `y ≤ 65`. -/
theorem kept_bullet_below (w : World) (b : GameObject) (hlo : INT32_MIN ≤ b.yCurrent)
    (hhi : b.yCurrent ≤ INT32_MAX) (hr : (cbBulletOutOfBoundaries w b).2 = false) :
    b.yCurrent ≤ 65 := by
  unfold INT32_MIN at hlo
  unfold INT32_MAX at hhi
  unfold cbBulletOutOfBoundaries at hr
  by_cases ho : overlapsWithEnemy w.enemy b = true
  · rw [if_pos ho] at hr; exact absurd hr (by simp)
  · rw [if_neg ho] at hr
    have h := of_decide_eq_false hr
    have e : BULLET_HEIGHT / 2 = 2 := rfl
    rw [e] at h
    simp only [SCREEN_Y_MAX, sub32, wrap32] at h
    omega

/-! ## Lemmas on the globals -/

@[simp] theorem obj_setObj_self (w : World) (r : ObjRef) (o : GameObject) :
    (w.setObj r o).obj r = o := by
  cases r <;> rfl

theorem obj_setObj_other (w : World) (r r' : ObjRef) (o : GameObject) (h : r' ≠ r) :
    (w.setObj r o).obj r' = w.obj r' := by
  cases r <;> cases r' <;> first | rfl | exact absurd rfl h

@[simp] theorem setObj_gameObjects (w : World) (r : ObjRef) (o : GameObject) :
    (w.setObj r o).gameObjects = w.gameObjects := by
  cases r <;> rfl

@[simp] theorem setObj_display (w : World) (r : ObjRef) (o : GameObject) :
    (w.setObj r o).display = w.display := by
  cases r <;> rfl

@[simp] theorem setObj_enemyColor (w : World) (r : ObjRef) (o : GameObject) :
    (w.setObj r o).enemyColor = w.enemyColor := by
  cases r <;> rfl

@[simp] theorem setObj_nEnemyLivesLeft (w : World) (r : ObjRef) (o : GameObject) :
    (w.setObj r o).nEnemyLivesLeft = w.nEnemyLivesLeft := by
  cases r <;> rfl

@[simp] theorem setObj_enemyHit (w : World) (r : ObjRef) (o : GameObject) :
    (w.setObj r o).enemyHit = w.enemyHit := by
  cases r <;> rfl

@[simp] theorem emit_obj (w : World) (c : DisplayCall) (r : ObjRef) :
    (w.emit c).obj r = w.obj r := by
  cases r <;> rfl

@[simp] theorem emit_gameObjects (w : World) (c : DisplayCall) :
    (w.emit c).gameObjects = w.gameObjects := rfl

@[simp] theorem emit_display (w : World) (c : DisplayCall) :
    (w.emit c).display = w.display ++ [c] := rfl

@[simp] theorem emit_enemyColor (w : World) (c : DisplayCall) :
    (w.emit c).enemyColor = w.enemyColor := rfl

@[simp] theorem emit_nEnemyLivesLeft (w : World) (c : DisplayCall) :
    (w.emit c).nEnemyLivesLeft = w.nEnemyLivesLeft := rfl

theorem callDraw_eq (w : World) (r : ObjRef) :
    callDraw w r = w.emit (drawCall w.enemyColor (w.obj r)) := by
  unfold callDraw drawCall fnDrawPlayer fnDrawBullet fnDrawEnemy
  cases (w.obj r).fnDraw <;> rfl

/-! ## Lemmas on the boundary call -/

theorem callOutOfBoundaries_gameObjects (w : World) (r : ObjRef) :
    (callOutOfBoundaries w r).1.gameObjects = w.gameObjects := by
  unfold callOutOfBoundaries cbBulletOutOfBoundaries
  cases (w.obj r).cbOutOfBoundaries <;> simp only [setObj_gameObjects]
  split_ifs <;> rfl

theorem callOutOfBoundaries_display (w : World) (r : ObjRef) :
    (callOutOfBoundaries w r).1.display = w.display := by
  unfold callOutOfBoundaries cbBulletOutOfBoundaries
  cases (w.obj r).cbOutOfBoundaries <;> simp only [setObj_display]
  split_ifs <;> rfl

theorem callOutOfBoundaries_enemyColor (w : World) (r : ObjRef) :
    (callOutOfBoundaries w r).1.enemyColor = w.enemyColor := by
  unfold callOutOfBoundaries cbBulletOutOfBoundaries
  cases (w.obj r).cbOutOfBoundaries <;> simp only [setObj_enemyColor]
  split_ifs <;> rfl

theorem callOutOfBoundaries_obj_other (w : World) (r r' : ObjRef) (h : r' ≠ r) :
    (callOutOfBoundaries w r).1.obj r' = w.obj r' := by
  unfold callOutOfBoundaries cbBulletOutOfBoundaries
  cases (w.obj r).cbOutOfBoundaries
  · exact obj_setObj_other w r r' _ h
  · dsimp only
    split_ifs <;> cases r' <;> rfl
  · exact obj_setObj_other w r r' _ h

/-! ## One slot of the render loop -/

theorem setObj_setObj (w : World) (r : ObjRef) (a b : GameObject) :
    (w.setObj r a).setObj r b = w.setObj r b := by
  cases r <;> rfl

theorem setObj_obj (w : World) (r : ObjRef) : w.setObj r (w.obj r) = w := by
  cases r <;> rfl

theorem applySteps_eq (w : World) (r : ObjRef) :
    applySteps w r = w.setObj r (moved (w.obj r)) := by
  unfold applySteps
  rcases hobj : w.obj r with ⟨x, y, xs, ys, hz, vt, cb, fd⟩
  cases hz <;> cases vt <;>
    simp only [moved, obj_setObj_self, setObj_setObj, if_true, if_false, Bool.false_eq_true,
      hobj]
  exact (hobj ▸ setObj_obj w r).symm

theorem renderSlot_empty (w : World) (i : Nat) (h : slot w.gameObjects i = none) :
    renderSlot w i = w := by
  unfold renderSlot
  simp only [h]

theorem renderSlot_removed (w : World) (i : Nat) (r : ObjRef)
    (h : slot w.gameObjects i = some r) (hr : (callOutOfBoundaries w r).2 = true) :
    renderSlot w i =
      { (callOutOfBoundaries w r).1 with gameObjects := w.gameObjects.set i none } := by
  unfold renderSlot
  simp only [h, hr, if_true, callOutOfBoundaries_gameObjects]

theorem renderSlot_kept (w : World) (i : Nat) (r : ObjRef)
    (h : slot w.gameObjects i = some r) (hr : (callOutOfBoundaries w r).2 = false) :
    renderSlot w i =
      (((callOutOfBoundaries w r).1.setObj r (moved ((callOutOfBoundaries w r).1.obj r))).emit
        (drawCall w.enemyColor (moved ((callOutOfBoundaries w r).1.obj r)))) := by
  unfold renderSlot
  simp only [h, hr, Bool.false_eq_true, if_false, callDraw_eq, applySteps_eq, obj_setObj_self,
    setObj_enemyColor, callOutOfBoundaries_enemyColor]

theorem renderSlot_slot_other (w : World) (i j : Nat) (h : i ≠ j) :
    slot (renderSlot w i).gameObjects j = slot w.gameObjects j := by
  rcases hs : slot w.gameObjects i with _ | r
  · rw [renderSlot_empty w i hs]
  · cases hr : (callOutOfBoundaries w r).2
    · rw [renderSlot_kept w i r hs hr]
      simp [callOutOfBoundaries_gameObjects]
    · rw [renderSlot_removed w i r hs hr]
      exact slot_set_other _ i j none h

theorem renderSlot_length (w : World) (i : Nat) :
    (renderSlot w i).gameObjects.length = w.gameObjects.length := by
  rcases hs : slot w.gameObjects i with _ | r
  · rw [renderSlot_empty w i hs]
  · cases hr : (callOutOfBoundaries w r).2
    · rw [renderSlot_kept w i r hs hr]
      simp [callOutOfBoundaries_gameObjects]
    · rw [renderSlot_removed w i r hs hr]
      simp

theorem renderSlot_enemyColor (w : World) (i : Nat) :
    (renderSlot w i).enemyColor = w.enemyColor := by
  rcases hs : slot w.gameObjects i with _ | r
  · rw [renderSlot_empty w i hs]
  · cases hr : (callOutOfBoundaries w r).2
    · rw [renderSlot_kept w i r hs hr]
      simp [callOutOfBoundaries_enemyColor]
    · rw [renderSlot_removed w i r hs hr]
      exact callOutOfBoundaries_enemyColor w r

theorem renderSlot_obj_other (w : World) (i : Nat) (r' : ObjRef)
    (h : slot w.gameObjects i ≠ some r') : (renderSlot w i).obj r' = w.obj r' := by
  rcases hs : slot w.gameObjects i with _ | r
  · rw [renderSlot_empty w i hs]
  · have hne : r' ≠ r := fun e => h (e ▸ hs)
    cases hr : (callOutOfBoundaries w r).2
    · rw [renderSlot_kept w i r hs hr, emit_obj, obj_setObj_other _ _ _ _ hne]
      exact callOutOfBoundaries_obj_other w r r' hne
    · rw [renderSlot_removed w i r hs hr]
      have : ∀ (v : World) (g : List (Option ObjRef)),
          ({ v with gameObjects := g } : World).obj r' = v.obj r' := by
        intro v g; cases r' <;> rfl
      rw [this]
      exact callOutOfBoundaries_obj_other w r r' hne

theorem renderSlot_display (w : World) (i : Nat) :
    (renderSlot w i).display = w.display ++ slotDraws w i := by
  unfold slotDraws
  rcases hs : slot w.gameObjects i with _ | r
  · rw [renderSlot_empty w i hs]; simp
  · cases hr : (callOutOfBoundaries w r).2
    · rw [renderSlot_kept w i r hs hr]
      simp [callOutOfBoundaries_display, hr]
    · rw [renderSlot_removed w i r hs hr]
      simp [callOutOfBoundaries_display, hr]

/-! ## The render loop -/

theorem renderLoop_succ_last : ∀ (k i : Nat) (w : World),
    renderLoop i (k + 1) w = renderSlot (renderLoop i k w) (i + k) := by
  intro k
  induction k with
  | zero => intro i w; rfl
  | succ k ih =>
    intro i w
    show renderLoop (i + 1) (k + 1) (renderSlot w i) = _
    rw [ih (i + 1) (renderSlot w i)]
    have e : i + 1 + k = i + (k + 1) := by omega
    rw [e]
    rfl

theorem renderLoop_slot_outside : ∀ (k i : Nat) (w : World) (j : Nat),
    (j < i ∨ i + k ≤ j) → slot (renderLoop i k w).gameObjects j = slot w.gameObjects j := by
  intro k
  induction k with
  | zero => intro i w j _; rfl
  | succ k ih =>
    intro i w j h
    show slot (renderLoop (i + 1) k (renderSlot w i)).gameObjects j = _
    rw [ih (i + 1) (renderSlot w i) j (by omega)]
    exact renderSlot_slot_other w i j (by omega)

theorem renderLoop_length : ∀ (k i : Nat) (w : World),
    (renderLoop i k w).gameObjects.length = w.gameObjects.length := by
  intro k
  induction k with
  | zero => intro i w; rfl
  | succ k ih =>
    intro i w
    show (renderLoop (i + 1) k (renderSlot w i)).gameObjects.length = _
    rw [ih (i + 1) (renderSlot w i), renderSlot_length]

theorem renderLoop_enemyColor : ∀ (k i : Nat) (w : World),
    (renderLoop i k w).enemyColor = w.enemyColor := by
  intro k
  induction k with
  | zero => intro i w; rfl
  | succ k ih =>
    intro i w
    show (renderLoop (i + 1) k (renderSlot w i)).enemyColor = _
    rw [ih (i + 1) (renderSlot w i), renderSlot_enemyColor]

theorem renderLoop_obj_untouched : ∀ (k i : Nat) (w : World) (r : ObjRef),
    (∀ m, i ≤ m → m < i + k → slot w.gameObjects m ≠ some r) →
      (renderLoop i k w).obj r = w.obj r := by
  intro k
  induction k with
  | zero => intro i w r _; rfl
  | succ k ih =>
    intro i w r h
    show (renderLoop (i + 1) k (renderSlot w i)).obj r = _
    rw [ih (i + 1) (renderSlot w i) r, renderSlot_obj_other w i r (h i (Nat.le_refl i) (by omega))]
    intro m h1 h2
    rw [renderSlot_slot_other w i m (by omega)]
    exact h m (by omega) (by omega)

theorem renderLoop_display : ∀ (k i : Nat) (w : World),
    (renderLoop i k w).display =
      w.display ++ (List.range k).flatMap (fun m => slotDraws (renderLoop i m w) (i + m)) := by
  intro k
  induction k with
  | zero => intro i w; simp [renderLoop]
  | succ k ih =>
    intro i w
    rw [renderLoop_succ_last, renderSlot_display, ih i w, List.range_succ, List.flatMap_append,
      List.flatMap_singleton, List.append_assoc]

theorem renderLoop_add : ∀ (a b i : Nat) (w : World),
    renderLoop i (a + b) w = renderLoop (i + a) b (renderLoop i a w) := by
  intro a
  induction a with
  | zero => intro b i w; simp [renderLoop]
  | succ a ih =>
    intro b i w
    have e : a + 1 + b = (a + b) + 1 := by omega
    rw [e]
    show renderLoop (i + 1) (a + b) (renderSlot w i) = renderLoop (i + (a + 1)) b
      (renderLoop (i + 1) a (renderSlot w i))
    rw [ih b (i + 1) (renderSlot w i)]
    have e2 : i + 1 + a = i + (a + 1) := by omega
    rw [e2]

/-! ## One render tick -/

theorem callOutOfBoundaries_removed_obj (w : World) (r r' : ObjRef)
    (h : (callOutOfBoundaries w r).2 = true) : (callOutOfBoundaries w r).1.obj r' = w.obj r' := by
  revert h
  unfold callOutOfBoundaries cbBulletOutOfBoundaries cbPlayerOutOfBoundaries
    cbEnemyOutOfBoundaries
  cases (w.obj r).cbOutOfBoundaries
  · intro h; exact absurd h (by simp)
  · dsimp only
    split_ifs <;> intro _ <;> cases r' <;> rfl
  · intro h; exact absurd h (by simp)

theorem ThreadRenderer_running (w : World) (h : 0 < w.nEnemyLivesLeft) :
    ThreadRenderer w = (renderLoop 0 7 (frameStart w)).emit .ssd1306UpdateScreen := by
  unfold ThreadRenderer
  rw [if_neg (by omega)]
  rfl

theorem frameStart_gameObjects (w : World) : (frameStart w).gameObjects = w.gameObjects := rfl

theorem frameStart_obj (w : World) (r : ObjRef) : (frameStart w).obj r = w.obj r := by
  cases r <;> rfl

theorem beforeSlot_slot (w : World) (i m : Nat) (h : i ≤ m) :
    slot (beforeSlot w i).gameObjects m = slot w.gameObjects m := by
  unfold beforeSlot
  rw [renderLoop_slot_outside i 0 (frameStart w) m (by omega)]
  rfl

theorem beforeSlot_length (w : World) (i : Nat) :
    (beforeSlot w i).gameObjects.length = w.gameObjects.length := by
  unfold beforeSlot
  rw [renderLoop_length]
  rfl

theorem beforeSlot_enemyColor (w : World) (i : Nat) :
    (beforeSlot w i).enemyColor = w.enemyColor := by
  unfold beforeSlot
  rw [renderLoop_enemyColor]
  rfl

theorem beforeSlot_obj (w : World) (i : Nat) (r : ObjRef) (hone : OnlyIn w.gameObjects r i) :
    (beforeSlot w i).obj r = w.obj r := by
  unfold beforeSlot
  rw [renderLoop_obj_untouched i 0 (frameStart w) r, frameStart_obj]
  intro m _ h2 hm
  have : m = i := hone m hm
  omega

theorem onlyIn_of_singleSlot (g : List (Option ObjRef)) (r : ObjRef) (i : Nat)
    (hsingle : SingleSlot g) (hs : slot g i = some r) : OnlyIn g r i :=
  fun j hj => hsingle j i r hj hs

/-- After the tick, slot `i` and the object it held are as the loop body for `i` left
them. -/
theorem tick_after_slot (w : World) (i : Nat) (r : ObjRef) (hlives : 0 < w.nEnemyLivesLeft)
    (hi : i < 7) (hone : OnlyIn w.gameObjects r i) :
    slot (ThreadRenderer w).gameObjects i = slot (renderSlot (beforeSlot w i) i).gameObjects i ∧
    (ThreadRenderer w).obj r = (renderSlot (beforeSlot w i) i).obj r := by
  have hsplit : renderLoop 0 7 (frameStart w) =
      renderLoop (i + 1) (6 - i) (renderSlot (beforeSlot w i) i) := by
    have e : 7 = (i + 1) + (6 - i) := by omega
    rw [e, renderLoop_add (i + 1) (6 - i) 0 (frameStart w), renderLoop_succ_last]
    simp only [Nat.zero_add]
    rfl
  rw [ThreadRenderer_running w hlives, emit_gameObjects, emit_obj, hsplit]
  constructor
  · exact renderLoop_slot_outside (6 - i) (i + 1) _ i (by omega)
  · apply renderLoop_obj_untouched
    intro m h1 h2 hm
    rw [renderSlot_slot_other _ i m (by omega), beforeSlot_slot w i m (by omega)] at hm
    have : m = i := hone m hm
    omega

/-- Outcome of a tick for a slot holding an object that occupies no other slot. -/
theorem tick_slot_outcome (w : World) (hlives : 0 < w.nEnemyLivesLeft)
    (hlen : w.gameObjects.length = 7)
    (i : Nat) (r : ObjRef) (hi : i < 7) (hs : slot w.gameObjects i = some r)
    (hone : OnlyIn w.gameObjects r i) :
    (beforeSlot w i).obj r = w.obj r ∧
    ((callOutOfBoundaries (beforeSlot w i) r).2 = true →
      slot (ThreadRenderer w).gameObjects i = none ∧ (ThreadRenderer w).obj r = w.obj r) ∧
    ((callOutOfBoundaries (beforeSlot w i) r).2 = false →
      slot (ThreadRenderer w).gameObjects i = some r ∧
      (ThreadRenderer w).obj r = moved ((callOutOfBoundaries (beforeSlot w i) r).1.obj r)) := by
  have hpre : (beforeSlot w i).obj r = w.obj r := beforeSlot_obj w i r hone
  have hslot : slot (beforeSlot w i).gameObjects i = some r := by
    rw [beforeSlot_slot w i i (Nat.le_refl i)]; exact hs
  have hil : i < (beforeSlot w i).gameObjects.length := by
    rw [beforeSlot_length, hlen]; exact hi
  obtain ⟨h1, h2⟩ := tick_after_slot w i r hlives hi hone
  refine ⟨hpre, ?_, ?_⟩
  · intro hr
    rw [h1, h2, renderSlot_removed _ i r hslot hr]
    refine ⟨slot_set_self _ i none hil, ?_⟩
    rw [← hpre, ← callOutOfBoundaries_removed_obj (beforeSlot w i) r r hr]
    cases r <;> rfl
  · intro hr
    rw [h1, h2, renderSlot_kept _ i r hslot hr]
    refine ⟨?_, ?_⟩
    · rw [emit_gameObjects, setObj_gameObjects, callOutOfBoundaries_gameObjects]
      exact hslot
    · rw [emit_obj, obj_setObj_self]

/-- The display calls of a tick, slot by slot. -/
theorem tick_display (w : World) (hlives : 0 < w.nEnemyLivesLeft) :
    (ThreadRenderer w).display =
      w.display ++
        [.ssd1306FillScreen .SSD1306_COLOR_BLACK, .ssd1306GotoXy 0 25,
         .ssd1306Puts w.nEnemyLivesLeft .SSD1306_COLOR_WHITE] ++
        (List.range 7).flatMap (fun i => slotDraws (beforeSlot w i) i) ++
        [.ssd1306UpdateScreen] := by
  rw [ThreadRenderer_running w hlives, emit_display, renderLoop_display]
  have hstart : (frameStart w).display = w.display ++
      [.ssd1306FillScreen .SSD1306_COLOR_BLACK, .ssd1306GotoXy 0 25,
       .ssd1306Puts w.nEnemyLivesLeft .SSD1306_COLOR_WHITE] := by
    simp [frameStart]
  rw [hstart]
  congr 2

/-- C7, as stated, fails when a sum overflows `int32_t`: with the player at x = 100 and
`xStep = 2147483647` (one slot per object, three lives), the handler leaves the player as it
is, and the tick moves it to x = -2147483549, not to `100 + 2147483647`. -/
theorem tick_moves_with_wrap_around :
    0 < overflowWorld.nEnemyLivesLeft ∧
    overflowWorld.gameObjects = [some .player, some .enemy, none, none, none, none, none] ∧
    (callOutOfBoundaries (beforeSlot overflowWorld 0) .player).2 = false ∧
    ((callOutOfBoundaries (beforeSlot overflowWorld 0) .player).1.player.xCurrent = 100 ∧
      (callOutOfBoundaries (beforeSlot overflowWorld 0) .player).1.player.xStep = 2147483647 ∧
      (callOutOfBoundaries (beforeSlot overflowWorld 0) .player).1.player.horizontal = true) ∧
    (ThreadRenderer overflowWorld).player.xCurrent = -2147483549 ∧
    ¬ ((ThreadRenderer overflowWorld).player.xCurrent = 100 + 2147483647) := by
  decide

/-- C7 (amended): one render tick with a positive life counter, on a registry of 7 slots in
which each object occupies at most one slot. Every empty slot stays empty. For a slot `i`
holding `r`, the handler is called on the globals reached after slots `0 .. i - 1`, where
`r` is still as it was before the tick: if it reports removal the slot is cleared and the
object is left as it was; otherwise the slot keeps `r`, which is displaced from where the
handler left it with the `+=` of `int32_t`, so that, when the sums fit in `int32_t`, its
position is the one left by the handler plus `xStep` if `horizontal` and plus `yStep` if
`vertical`. The display calls of the tick are: clear, status line, then in increasing slot
order exactly one draw of each kept object at its new position and nothing for the other
slots, then one frame push. -/
theorem render_tick_per_slot (w : World) (hlives : 0 < w.nEnemyLivesLeft)
    (hlen : w.gameObjects.length = 7) (hsingle : SingleSlot w.gameObjects) :
    (∀ i, i < 7 → slot w.gameObjects i = none → slot (ThreadRenderer w).gameObjects i = none) ∧
    (∀ i r, i < 7 → slot w.gameObjects i = some r →
      (beforeSlot w i).obj r = w.obj r ∧
      ((callOutOfBoundaries (beforeSlot w i) r).2 = true →
        slot (ThreadRenderer w).gameObjects i = none ∧ (ThreadRenderer w).obj r = w.obj r) ∧
      ((callOutOfBoundaries (beforeSlot w i) r).2 = false →
        slot (ThreadRenderer w).gameObjects i = some r ∧
        (ThreadRenderer w).obj r = moved ((callOutOfBoundaries (beforeSlot w i) r).1.obj r) ∧
        (StepsFit ((callOutOfBoundaries (beforeSlot w i) r).1.obj r) →
          (ThreadRenderer w).obj r =
            shifted ((callOutOfBoundaries (beforeSlot w i) r).1.obj r)))) ∧
    (ThreadRenderer w).display =
      w.display ++
        [.ssd1306FillScreen .SSD1306_COLOR_BLACK, .ssd1306GotoXy 0 25,
         .ssd1306Puts w.nEnemyLivesLeft .SSD1306_COLOR_WHITE] ++
        (List.range 7).flatMap (fun i =>
          match slot w.gameObjects i with
          | none => []
          | some r =>
              if (callOutOfBoundaries (beforeSlot w i) r).2 then []
              else [drawCall w.enemyColor ((ThreadRenderer w).obj r)]) ++
        [.ssd1306UpdateScreen] := by
  have hocc := fun i r hi hs =>
    tick_slot_outcome w hlives hlen i r hi hs (onlyIn_of_singleSlot _ r i hsingle hs)
  refine ⟨?_, ?_, ?_⟩
  · intro i hi hs
    rw [ThreadRenderer_running w hlives, emit_gameObjects]
    have e : 7 = (i + 1) + (6 - i) := by omega
    rw [e, renderLoop_add (i + 1) (6 - i) 0 (frameStart w), renderLoop_succ_last]
    simp only [Nat.zero_add]
    rw [renderLoop_slot_outside (6 - i) (i + 1) _ i (by omega)]
    have hslot : slot (beforeSlot w i).gameObjects i = none := by
      rw [beforeSlot_slot w i i (Nat.le_refl i)]; exact hs
    have hb : renderLoop 0 i (frameStart w) = beforeSlot w i := rfl
    rw [hb, renderSlot_empty _ i hslot]
    exact hslot
  · intro i r hi hs
    obtain ⟨h1, h2, h3⟩ := hocc i r hi hs
    refine ⟨h1, h2, ?_⟩
    intro hr
    obtain ⟨k1, k2⟩ := h3 hr
    refine ⟨k1, k2, ?_⟩
    intro hfit
    rw [k2, moved_eq_shifted _ hfit]
  · rw [tick_display w hlives]
    congr 2
    apply List.flatMap_congr
    intro i hi
    have hi7 : i < 7 := List.mem_range.mp hi
    unfold slotDraws
    rw [beforeSlot_slot w i i (Nat.le_refl i), beforeSlot_enemyColor]
    rcases hs : slot w.gameObjects i with _ | r
    · rfl
    · dsimp only
      cases hr : (callOutOfBoundaries (beforeSlot w i) r).2
      · rw [((hocc i r hi7 hs).2.2 hr).2]
      · rfl

theorem singleSlot_tickWorld : SingleSlot tickWorld.gameObjects := by
  intro i j r hi hj
  have hi7 : i < 7 := by
    by_contra h
    rw [slot_of_length_le tickWorld.gameObjects i (by simpa [tickWorld] using h)] at hi
    exact absurd hi (by simp)
  have hj7 : j < 7 := by
    by_contra h
    rw [slot_of_length_le tickWorld.gameObjects j (by simpa [tickWorld] using h)] at hj
    exact absurd hj (by simp)
  revert r
  interval_cases i <;> interval_cases j <;> decide

/-- Witness for C7 (amended): player in slot 0, enemy in slot 2, an off-screen bullet in
slot 3. The bullet is removed without a draw; player and enemy are moved, the player from
x = 32 by its `xStep = 3`, and drawn, in this order. -/
theorem render_tick_per_slot_witness :
    0 < tickWorld.nEnemyLivesLeft ∧ tickWorld.gameObjects.length = 7 ∧
    SingleSlot tickWorld.gameObjects ∧
    (callOutOfBoundaries (beforeSlot tickWorld 0) .player).2 = false ∧
    StepsFit ((callOutOfBoundaries (beforeSlot tickWorld 0) .player).1.obj .player) ∧
    (ThreadRenderer tickWorld).obj .player =
      shifted ((callOutOfBoundaries (beforeSlot tickWorld 0) .player).1.obj .player) ∧
    (ThreadRenderer tickWorld).display =
      tickWorld.display ++
        [.ssd1306FillScreen .SSD1306_COLOR_BLACK, .ssd1306GotoXy 0 25,
         .ssd1306Puts tickWorld.nEnemyLivesLeft .SSD1306_COLOR_WHITE] ++
        (List.range 7).flatMap (fun i =>
          match slot tickWorld.gameObjects i with
          | none => []
          | some r =>
              if (callOutOfBoundaries (beforeSlot tickWorld i) r).2 then []
              else [drawCall tickWorld.enemyColor ((ThreadRenderer tickWorld).obj r)]) ++
        [.ssd1306UpdateScreen] ∧
    (ThreadRenderer tickWorld).display =
      [.ssd1306FillScreen .SSD1306_COLOR_BLACK, .ssd1306GotoXy 0 25,
       .ssd1306Puts 3 .SSD1306_COLOR_WHITE,
       .ssd1306DrawCircleFill 35 7 5 .SSD1306_COLOR_WHITE,
       .ssd1306DrawRectangleFill 36 40 20 20 .SSD1306_COLOR_WHITE,
       .ssd1306UpdateScreen] ∧
    (ThreadRenderer tickWorld).gameObjects =
      [some .player, none, some .enemy, none, none, none, none] :=
  have h := render_tick_per_slot tickWorld (by decide) rfl singleSlot_tickWorld
  have hr : (callOutOfBoundaries (beforeSlot tickWorld 0) .player).2 = false := by decide
  have hfit : StepsFit ((callOutOfBoundaries (beforeSlot tickWorld 0) .player).1.obj .player) := by
    decide
  ⟨by decide, rfl, singleSlot_tickWorld, hr, hfit,
    ((h.2.1 0 .player (by decide) (by decide)).2.2 hr).2.2 hfit, h.2.2, by decide, by decide⟩

/-! ## The terminal state -/

theorem hit_decrements (w : World) (b : GameObject) (h : overlapsWithEnemy w.enemy b = true) :
    (cbBulletOutOfBoundaries w b).1.nEnemyLivesLeft = (w.nEnemyLivesLeft + 255) % 256 := by
  simp [cbBulletOutOfBoundaries, h]

theorem ThreadRenderer_suspended (w : World) (h : w.nEnemyLivesLeft = 0) :
    ThreadRenderer w = w := by
  unfold ThreadRenderer
  rw [if_pos (by omega)]

theorem step_terminal (w : World) (s : Step) (h : w.nEnemyLivesLeft = 0) :
    (step w s).nEnemyLivesLeft = 0 ∧ (step w s).display = w.display ∧
    (step w s).player = w.player ∧ (step w s).enemy = w.enemy := by
  cases s
  · exact ⟨h, rfl, rfl, rfl⟩
  · exact ⟨h, rfl, rfl, rfl⟩
  · exact ⟨h, rfl, rfl, rfl⟩
  · have e : step w .render = w := ThreadRenderer_suspended w h
    rw [e]
    exact ⟨h, rfl, rfl, rfl⟩

theorem run_terminal : ∀ (steps : List Step) (w : World), w.nEnemyLivesLeft = 0 →
    (run w steps).nEnemyLivesLeft = 0 ∧ (run w steps).display = w.display ∧
    (run w steps).player = w.player ∧ (run w steps).enemy = w.enemy := by
  intro steps
  induction steps with
  | nil => intro w h; exact ⟨h, rfl, rfl, rfl⟩
  | cons s rest ih =>
    intro w h
    obtain ⟨h1, h2, h3, h4⟩ := step_terminal w s h
    obtain ⟨k1, k2, k3, k4⟩ := ih (step w s) h1
    exact ⟨k1, k2.trans h2, k3.trans h3, k4.trans h4⟩

/-- C8: from a life counter of 3, three calls of the bullet handler that each detect a hit
(whatever else happens in between, as long as it leaves the counter alone) bring the counter
to 0; and in every state whose counter is 0 a render tick changes nothing at all (no clear,
no draw, no frame push, no change to an object or to a registry slot), and this stays so
after any sequence of later spawner steps and render ticks: the counter stays 0 and the
display log is never extended. -/
theorem three_hits_then_terminal :
    (∀ (w1 w2 w3 : World) (b1 b2 b3 : GameObject),
      w1.nEnemyLivesLeft = 3 →
      overlapsWithEnemy w1.enemy b1 = true →
      w2.nEnemyLivesLeft = (cbBulletOutOfBoundaries w1 b1).1.nEnemyLivesLeft →
      overlapsWithEnemy w2.enemy b2 = true →
      w3.nEnemyLivesLeft = (cbBulletOutOfBoundaries w2 b2).1.nEnemyLivesLeft →
      overlapsWithEnemy w3.enemy b3 = true →
      (cbBulletOutOfBoundaries w3 b3).1.nEnemyLivesLeft = 0) ∧
    (∀ w : World, w.nEnemyLivesLeft = 0 → ThreadRenderer w = w) ∧
    (∀ (w : World) (steps : List Step), w.nEnemyLivesLeft = 0 →
      (run w steps).nEnemyLivesLeft = 0 ∧
      (run w steps).display = w.display ∧
      (run w steps).player = w.player ∧ (run w steps).enemy = w.enemy ∧
      ThreadRenderer (run w steps) = run w steps) := by
  refine ⟨?_, ThreadRenderer_suspended, ?_⟩
  · intro w1 w2 w3 b1 b2 b3 h1 o1 h2 o2 h3 o3
    rw [hit_decrements w1 b1 o1, h1] at h2
    rw [hit_decrements w2 b2 o2, h2] at h3
    rw [hit_decrements w3 b3 o3, h3]
  · intro w steps h
    obtain ⟨k1, k2, k3, k4⟩ := run_terminal steps w h
    exact ⟨k1, k2, k3, k4, ThreadRenderer_suspended _ k1⟩

/-- Witness for C8: three hits in a row on the starting enemy, then a spawner step and two
render ticks that add nothing to the display. -/
theorem three_hits_then_terminal_witness :
    ((cbBulletOutOfBoundaries
      (cbBulletOutOfBoundaries (cbBulletOutOfBoundaries startWorld bulletInside).1
        bulletInside).1 bulletInside).1.nEnemyLivesLeft = 0) ∧
    (run { startWorld with nEnemyLivesLeft := 0 } [.spawner, .render, .render]).display =
      startWorld.display :=
  ⟨three_hits_then_terminal.1 startWorld
      (cbBulletOutOfBoundaries startWorld bulletInside).1
      (cbBulletOutOfBoundaries (cbBulletOutOfBoundaries startWorld bulletInside).1
        bulletInside).1
      bulletInside bulletInside bulletInside rfl (by decide) rfl (by decide) rfl (by decide),
    (three_hits_then_terminal.2.2 { startWorld with nEnemyLivesLeft := 0 }
      [.spawner, .render, .render] rfl).2.1⟩

/-! ## The blinker -/

theorem blinkLoop_spec (env : Nat → World → World)
    (henv : ∀ n v, (env n v).enemyColor = v.enemyColor) :
    ∀ (k i : Nat) (s : World × List BlinkerEvent),
      (blinkLoop env i k s).2 =
        s.2 ++ (List.replicate k
          [.setEnemyColor .SSD1306_COLOR_BLACK, .sleepMilliseconds 100,
           .setEnemyColor .SSD1306_COLOR_WHITE, .sleepMilliseconds 70]).flatten ∧
      (0 < k → (blinkLoop env i k s).1.enemyColor = .SSD1306_COLOR_WHITE) := by
  intro k
  induction k with
  | zero => intro i s; simp [blinkLoop]
  | succ k ih =>
    intro i s
    obtain ⟨h1, h2⟩ := ih (i + 1)
      (env (2 * i + 2) { env (2 * i + 1) { s.1 with enemyColor := .SSD1306_COLOR_BLACK } with
          enemyColor := .SSD1306_COLOR_WHITE },
        s.2 ++ [.setEnemyColor .SSD1306_COLOR_BLACK, .sleepMilliseconds 100,
                .setEnemyColor .SSD1306_COLOR_WHITE, .sleepMilliseconds 70])
    constructor
    · show (blinkLoop env (i + 1) k _).2 = _
      rw [h1, List.replicate_succ, List.flatten_cons, List.append_assoc]
    · intro _
      show (blinkLoop env (i + 1) k _).1.enemyColor = _
      rcases Nat.eq_zero_or_pos k with hk | hk
      · subst hk
        show (env (2 * i + 2) _).enemyColor = _
        rw [henv]
      · exact h2 hk

/-- C10: a blinker pass that finds `enemyHit` set assigns `enemyColor` black then white
exactly 10 times, sleeping 100 ms after each black and 70 ms after each white, and ends with
the colour white and the flag cleared; this holds whatever the other threads do to the
globals during the sleeps short of writing `enemyColor` (which only the blinker writes), in
particular however often they set `enemyHit` again. A pass that finds the flag unset makes no
assignment and no sleep and leaves the globals as they were. -/
theorem blinker_pass (env : Nat → World → World)
    (henv : ∀ n v, (env n v).enemyColor = v.enemyColor) (w : World) :
    (w.enemyHit = true →
      (ThreadEnemyBlinker env w).2 = blinkPattern ∧
      (ThreadEnemyBlinker env w).2.length = 4 * 10 ∧
      (ThreadEnemyBlinker env w).1.enemyColor = .SSD1306_COLOR_WHITE ∧
      (ThreadEnemyBlinker env w).1.enemyHit = false ∧
      (ThreadEnemyBlinker env w).2 = (ThreadEnemyBlinker idle w).2 ∧
      (ThreadEnemyBlinker env w).1.enemyColor = (ThreadEnemyBlinker idle w).1.enemyColor ∧
      (ThreadEnemyBlinker env w).1.enemyHit = (ThreadEnemyBlinker idle w).1.enemyHit) ∧
    (w.enemyHit = false → ThreadEnemyBlinker env w = (w, [])) := by
  have key : ∀ (e : Nat → World → World), (∀ n v, (e n v).enemyColor = v.enemyColor) →
      w.enemyHit = true →
      (ThreadEnemyBlinker e w).2 = blinkPattern ∧
      (ThreadEnemyBlinker e w).1.enemyColor = .SSD1306_COLOR_WHITE ∧
      (ThreadEnemyBlinker e w).1.enemyHit = false := by
    intro e he hw
    obtain ⟨h1, h2⟩ := blinkLoop_spec e he 10 0 (e 0 w, [])
    unfold ThreadEnemyBlinker
    simp only [hw, Bool.not_true, Bool.false_eq_true, if_false]
    refine ⟨?_, h2 (by decide), trivial⟩
    rw [h1]
    rfl
  constructor
  · intro hw
    obtain ⟨a1, a2, a3⟩ := key env henv hw
    obtain ⟨b1, b2, b3⟩ := key idle (fun _ _ => rfl) hw
    refine ⟨a1, ?_, a2, a3, a1.trans b1.symm, a2.trans b2.symm, a3.trans b3.symm⟩
    rw [a1]
    rfl
  · intro hw
    unfold ThreadEnemyBlinker
    simp [hw]

/-- Witness for C10: the flag is raised again during every sleep of the pass. -/
theorem blinker_pass_witness :
    (∀ n v, (hitAgain n v).enemyColor = v.enemyColor) ∧
    ({ startWorld with enemyHit := true } : World).enemyHit = true ∧
    (ThreadEnemyBlinker hitAgain { startWorld with enemyHit := true }).2 = blinkPattern ∧
    (ThreadEnemyBlinker hitAgain { startWorld with enemyHit := true }).1.enemyHit = false :=
  have henv : ∀ n v, (hitAgain n v).enemyColor = v.enemyColor := fun _ _ => rfl
  have h := (blinker_pass hitAgain henv { startWorld with enemyHit := true }).1 rfl
  ⟨henv, rfl, h.1, h.2.2.2.1⟩

/-! ## Spawning and flight of the bullet -/

theorem callOutOfBoundaries_bullet_obj (w : World) (r r' : ObjRef)
    (h : (w.obj r).cbOutOfBoundaries = .cbBulletOutOfBoundaries) :
    (callOutOfBoundaries w r).1.obj r' = w.obj r' := by
  unfold callOutOfBoundaries cbBulletOutOfBoundaries
  rw [h]
  dsimp only
  split_ifs <;> cases r' <;> rfl

theorem moved_bullet (o : GameObject) (h : IsBullet o) :
    moved o = { o with yCurrent := add32 o.yCurrent 5 } := by
  obtain ⟨h1, h2, h3, _, _⟩ := h
  unfold moved
  rw [h1, h2, h3]
  rfl

theorem drawCall_bullet (c : ssd1306_color_t) (o : GameObject) (h : IsBullet o) :
    drawCall c o = .ssd1306DrawRectangleFill o.xCurrent o.yCurrent 1 4 .SSD1306_COLOR_WHITE := by
  obtain ⟨_, _, _, _, h5⟩ := h
  unfold drawCall
  rw [h5]
  rfl

theorem callOutOfBoundaries_bullet (w : World) (h : IsBullet w.bullet) :
    callOutOfBoundaries w .bullet = cbBulletOutOfBoundaries w w.bullet := by
  unfold callOutOfBoundaries
  have e : (w.obj .bullet).cbOutOfBoundaries = .cbBulletOutOfBoundaries := h.2.2.2.1
  rw [e]
  rfl

/-- A bullet with an `int32_t` y that its handler keeps advances by exactly 5. -/
theorem kept_bullet_advance (w : World) (hb : IsBullet w.bullet)
    (hlo : INT32_MIN ≤ w.bullet.yCurrent) (hhi : w.bullet.yCurrent ≤ INT32_MAX)
    (hr : (callOutOfBoundaries w .bullet).2 = false) :
    w.bullet.yCurrent ≤ 65 ∧ add32 w.bullet.yCurrent 5 = w.bullet.yCurrent + 5 := by
  rw [callOutOfBoundaries_bullet w hb] at hr
  have h65 := kept_bullet_below w w.bullet hlo hhi hr
  refine ⟨h65, add32_of_fits _ _ ?_ ?_⟩
  · unfold INT32_MIN at hlo ⊢; omega
  · unfold INT32_MAX; omega

/-- One tick seen from a bullet, with an `int32_t` y, that occupies slot `i` and no other
slot. -/
theorem bullet_tick (w : World) (i : Nat) (hb : IsBullet w.bullet)
    (hlo : INT32_MIN ≤ w.bullet.yCurrent) (hhi : w.bullet.yCurrent ≤ INT32_MAX)
    (hlives : 0 < w.nEnemyLivesLeft) (hlen : w.gameObjects.length = 7) (hi : i < 7)
    (hs : slot w.gameObjects i = some .bullet) (hone : OnlyIn w.gameObjects .bullet i) :
    ((callOutOfBoundaries (beforeSlot w i) .bullet).2 = false →
      w.bullet.yCurrent ≤ 65 ∧
      (ThreadRenderer w).bullet = { w.bullet with yCurrent := w.bullet.yCurrent + 5 } ∧
      slot (ThreadRenderer w).gameObjects i = some .bullet ∧
      (renderSlot (beforeSlot w i) i).display = (beforeSlot w i).display ++
        [.ssd1306DrawRectangleFill w.bullet.xCurrent (w.bullet.yCurrent + 5) 1 4
          .SSD1306_COLOR_WHITE]) ∧
    ((callOutOfBoundaries (beforeSlot w i) .bullet).2 = true →
      (ThreadRenderer w).bullet = w.bullet ∧
      slot (ThreadRenderer w).gameObjects i = none ∧
      (renderSlot (beforeSlot w i) i).display = (beforeSlot w i).display) := by
  obtain ⟨hpre, hrem, hkept⟩ := tick_slot_outcome w hlives hlen i .bullet hi hs hone
  have hpre' : (beforeSlot w i).bullet = w.bullet := hpre
  have hcb : ((beforeSlot w i).obj .bullet).cbOutOfBoundaries = .cbBulletOutOfBoundaries := by
    rw [hpre]; exact hb.2.2.2.1
  have hobj : (callOutOfBoundaries (beforeSlot w i) .bullet).1.obj .bullet = w.bullet := by
    rw [callOutOfBoundaries_bullet_obj _ _ _ hcb]; exact hpre'
  have hslot : slot (beforeSlot w i).gameObjects i = some .bullet := by
    rw [beforeSlot_slot w i i (Nat.le_refl i)]; exact hs
  constructor
  · intro hr
    obtain ⟨k1, k2⟩ := hkept hr
    have hadv := kept_bullet_advance (beforeSlot w i) (by rw [hpre']; exact hb)
      (by rw [hpre']; exact hlo) (by rw [hpre']; exact hhi) hr
    rw [hpre'] at hadv
    rw [hobj, moved_bullet _ hb, hadv.2] at k2
    refine ⟨hadv.1, k2, k1, ?_⟩
    rw [renderSlot_display]
    unfold slotDraws
    rw [hslot]
    simp only [hr, Bool.false_eq_true, if_false]
    rw [hobj, moved_bullet _ hb, hadv.2,
      drawCall_bullet _ { w.bullet with yCurrent := w.bullet.yCurrent + 5 } hb]
  · intro hr
    obtain ⟨k1, k2⟩ := hrem hr
    refine ⟨k2, k1, ?_⟩
    rw [renderSlot_display]
    unfold slotDraws
    rw [hslot]
    simp only [hr, if_true, List.append_nil]

theorem renderSlot_slot_sub (w : World) (i j : Nat) :
    slot (renderSlot w i).gameObjects j = none ∨
      slot (renderSlot w i).gameObjects j = slot w.gameObjects j := by
  by_cases hij : i = j
  · subst hij
    rcases hs : slot w.gameObjects i with _ | r
    · rw [renderSlot_empty w i hs]; exact Or.inl hs
    · cases hr : (callOutOfBoundaries w r).2
      · rw [renderSlot_kept w i r hs hr]
        right
        simp only [emit_gameObjects, setObj_gameObjects, callOutOfBoundaries_gameObjects]
        exact hs
      · rw [renderSlot_removed w i r hs hr]
        left
        by_cases hl : i < w.gameObjects.length
        · exact slot_set_self _ i none hl
        · exact slot_of_length_le _ i (by simpa using Nat.le_of_not_lt hl)
  · exact Or.inr (renderSlot_slot_other w i j hij)

theorem renderLoop_slot_sub : ∀ (k i : Nat) (w : World) (j : Nat),
    slot (renderLoop i k w).gameObjects j = none ∨
      slot (renderLoop i k w).gameObjects j = slot w.gameObjects j := by
  intro k
  induction k with
  | zero => intro i w j; exact Or.inr rfl
  | succ k ih =>
    intro i w j
    show slot (renderLoop (i + 1) k (renderSlot w i)).gameObjects j = none ∨ _
    rcases ih (i + 1) (renderSlot w i) j with h | h
    · exact Or.inl h
    · rcases renderSlot_slot_sub w i j with h' | h'
      · exact Or.inl (h.trans h')
      · exact Or.inr (h.trans h')

theorem ThreadRenderer_slot_sub (w : World) (j : Nat) :
    slot (ThreadRenderer w).gameObjects j = none ∨
      slot (ThreadRenderer w).gameObjects j = slot w.gameObjects j := by
  rcases Nat.eq_zero_or_pos w.nEnemyLivesLeft with h | h
  · rw [ThreadRenderer_suspended w h]
    exact Or.inr rfl
  · rw [ThreadRenderer_running w h, emit_gameObjects]
    exact renderLoop_slot_sub 7 0 (frameStart w) j

theorem ThreadRenderer_onlyIn (w : World) (r : ObjRef) (i : Nat)
    (h : OnlyIn w.gameObjects r i) : OnlyIn (ThreadRenderer w).gameObjects r i := by
  intro j hj
  rcases ThreadRenderer_slot_sub w j with h1 | h1
  · rw [h1] at hj; exact absurd hj (by simp)
  · exact h j (h1 ▸ hj)

theorem ThreadRenderer_length (w : World) :
    (ThreadRenderer w).gameObjects.length = w.gameObjects.length := by
  rcases Nat.eq_zero_or_pos w.nEnemyLivesLeft with h | h
  · rw [ThreadRenderer_suspended w h]
  · rw [ThreadRenderer_running w h, emit_gameObjects]
    exact renderLoop_length 7 0 (frameStart w)

theorem spawner_bullet_raw (w : World) :
    (ThreadBulletSpawner w).bullet =
      { w.bullet with
        xCurrent := sub32 (add32 w.player.xCurrent 2) 0,
        yCurrent := add32 (add32 w.player.yCurrent 2) 2 } := rfl

theorem spawner_bullet (w : World)
    (hpx : INT32_MIN ≤ w.player.xCurrent ∧ w.player.xCurrent + 2 ≤ INT32_MAX)
    (hpy : INT32_MIN ≤ w.player.yCurrent ∧ w.player.yCurrent + 4 ≤ INT32_MAX) :
    (ThreadBulletSpawner w).bullet =
      { w.bullet with xCurrent := w.player.xCurrent + 2, yCurrent := w.player.yCurrent + 4 } := by
  obtain ⟨x1, x2⟩ := hpx
  obtain ⟨y1, y2⟩ := hpy
  unfold INT32_MIN at x1 y1
  unfold INT32_MAX at x2 y2
  have e1 : sub32 (add32 w.player.xCurrent 2) 0 = w.player.xCurrent + 2 := by
    simp only [add32, sub32, wrap32]; omega
  have e2 : add32 (add32 w.player.yCurrent 2) 2 = w.player.yCurrent + 4 := by
    simp only [add32, wrap32]; omega
  rw [spawner_bullet_raw, e1, e2]

theorem slot_startWorld_cases (i : Nat) (r : ObjRef)
    (h : slot startWorld.gameObjects i = some r) :
    (i = 0 ∧ r = .player) ∨ (i = 1 ∧ r = .enemy) := by
  have hi7 : i < 7 := by
    by_contra hge
    rw [slot_of_length_le startWorld.gameObjects i (Nat.le_of_not_lt hge)] at h
    exact absurd h (by simp)
  revert r
  interval_cases i <;> decide

theorem bulletFree_startWorld : ∀ i, slot startWorld.gameObjects i ≠ some .bullet := by
  intro i h
  rcases slot_startWorld_cases i .bullet h with ⟨_, b⟩ | ⟨_, b⟩ <;> exact absurd b (by decide)

theorem restore_eq_tests (o : GameObject) (xMin xMax width : Int) :
    restoreOnHorizontalBounds o xMin xMax width =
      if upperEdgeFires o xMin xMax width = true then
        { afterLowerEdge o xMin with
          xCurrent := sub32 (sub32 xMax width) 1,
          xStep := STEP_TOWARDS_MIN (afterLowerEdge o xMin).xStep }
      else afterLowerEdge o xMin := by
  simp only [restoreOnHorizontalBounds, upperEdgeFires, afterLowerEdge, decide_eq_true_eq]

theorem restore_player_inside (o : GameObject) (h1 : 8 < o.xCurrent)
    (h2 : o.xCurrent + 10 ≤ 127) : restoreOnHorizontalBounds o 8 127 10 = o := by
  have e1 : ¬ (o.xCurrent ≤ 8) := by omega
  have e2 : ¬ (add32 o.xCurrent 10 > 127) := by
    rw [add32_of_fits _ _ (by unfold INT32_MIN; omega) (by unfold INT32_MAX; omega)]
    omega
  rw [restore_player, if_neg e1, if_neg e2]

theorem restore_enemy_inside (o : GameObject) (h1 : 15 < o.xCurrent)
    (h2 : o.xCurrent + 20 ≤ 116) : restoreOnHorizontalBounds o 15 116 20 = o := by
  have e1 : ¬ (o.xCurrent ≤ 15) := by omega
  have e2 : ¬ (add32 o.xCurrent 20 > 116) := by
    rw [add32_of_fits _ _ (by unfold INT32_MIN; omega) (by unfold INT32_MAX; omega)]
    omega
  rw [restore_enemy, if_neg e1, if_neg e2]

theorem restore_player_idem (o : GameObject) :
    restoreOnHorizontalBounds (restoreOnHorizontalBounds o 8 127 10) 8 127 10 =
      restoreOnHorizontalBounds o 8 127 10 := by
  rw [restore_player o]
  split_ifs with h1 h2
  · exact restore_player_inside _ (show (8 : Int) < 9 by decide)
      (show (9 : Int) + 10 ≤ 127 by decide)
  · exact restore_player_inside _ (show (8 : Int) < 116 by decide)
      (show (116 : Int) + 10 ≤ 127 by decide)
  · rw [restore_player, if_neg h1, if_neg h2]

theorem restore_enemy_idem (o : GameObject) :
    restoreOnHorizontalBounds (restoreOnHorizontalBounds o 15 116 20) 15 116 20 =
      restoreOnHorizontalBounds o 15 116 20 := by
  rw [restore_enemy o]
  split_ifs with h1 h2
  · exact restore_enemy_inside _ (show (15 : Int) < 16 by decide)
      (show (16 : Int) + 20 ≤ 116 by decide)
  · exact restore_enemy_inside _ (show (15 : Int) < 95 by decide)
      (show (95 : Int) + 20 ≤ 116 by decide)
  · rw [restore_enemy, if_neg h1, if_neg h2]

/-- C14: applying the player handler twice gives the same object as applying it once, and
likewise for the enemy handler; an object with `xMin < x` and `x + width ≤ xMax` is returned
unchanged by its handler. -/
theorem reflection_idempotent (o : GameObject) :
    (cbPlayerOutOfBoundaries (cbPlayerOutOfBoundaries o).1).1 = (cbPlayerOutOfBoundaries o).1 ∧
    (cbEnemyOutOfBoundaries (cbEnemyOutOfBoundaries o).1).1 = (cbEnemyOutOfBoundaries o).1 ∧
    (8 < o.xCurrent → o.xCurrent + 10 ≤ 127 → (cbPlayerOutOfBoundaries o).1 = o) ∧
    (15 < o.xCurrent → o.xCurrent + 20 ≤ 116 → (cbEnemyOutOfBoundaries o).1 = o) := by
  exact ⟨restore_player_idem o, restore_enemy_idem o, restore_player_inside o,
    restore_enemy_inside o⟩

/-- Witness for C14: the starting player, inside its band, is returned unchanged. -/
theorem reflection_idempotent_witness :
    8 < playerInit.xCurrent ∧ playerInit.xCurrent + 10 ≤ 127 ∧
    (cbPlayerOutOfBoundaries playerInit).1 = playerInit :=
  ⟨by decide, by decide, (reflection_idempotent playerInit).2.2.1 (by decide) (by decide)⟩

/-- C15: with the player bounds (8, 127, width 10) and with the enemy bounds
(15, 116, width 20), the two tests of `restoreOnHorizontalBounds` never both succeed in one
call: when the lower-edge branch has repositioned the object, the upper-edge test, made on
the repositioned object, fails. -/
theorem reflection_branches_exclusive (o : GameObject) :
    ¬ (lowerEdgeFires o 8 = true ∧ upperEdgeFires o 8 127 10 = true) ∧
    ¬ (lowerEdgeFires o 15 = true ∧ upperEdgeFires o 15 116 20 = true) ∧
    restoreOnHorizontalBounds o 8 127 10 =
      (if upperEdgeFires o 8 127 10 = true then
        { afterLowerEdge o 8 with
          xCurrent := 127 - 10 - 1, xStep := STEP_TOWARDS_MIN (afterLowerEdge o 8).xStep }
      else afterLowerEdge o 8) ∧
    restoreOnHorizontalBounds o 15 116 20 =
      (if upperEdgeFires o 15 116 20 = true then
        { afterLowerEdge o 15 with
          xCurrent := 116 - 20 - 1, xStep := STEP_TOWARDS_MIN (afterLowerEdge o 15).xStep }
      else afterLowerEdge o 15) := by
  have e1 : sub32 (sub32 127 10) 1 = (127 - 10 - 1 : Int) := by decide
  have e2 : sub32 (sub32 116 20) 1 = (116 - 20 - 1 : Int) := by decide
  have r1 := restore_eq_tests o 8 127 10
  have r2 := restore_eq_tests o 15 116 20
  rw [e1] at r1
  rw [e2] at r2
  refine ⟨?_, ?_, r1, r2⟩
  · rintro ⟨h1, h2⟩
    simp only [lowerEdgeFires, decide_eq_true_eq] at h1
    simp only [upperEdgeFires, afterLowerEdge, h1, if_true, decide_eq_true_eq] at h2
    exact absurd h2 (by decide)
  · rintro ⟨h1, h2⟩
    simp only [lowerEdgeFires, decide_eq_true_eq] at h1
    simp only [upperEdgeFires, afterLowerEdge, h1, if_true, decide_eq_true_eq] at h2
    exact absurd h2 (by decide)

/-! ## The hit test and the drawn enemy -/

set_option maxRecDepth 100000

/-- C16, as stated, fails. A bullet at `(ex + 3, ey - 1)` of the starting enemy, at (35, 39)
with the enemy at (32, 40), is a hit, and row 39 is not among the rows 40 to 59 of the
rectangle `fnDrawEnemy` fills. So it is in a run: the first hit of `winningRun` is detected
with the bullet at (82, 31) and the enemy at (79, 40), which `fnDrawEnemy` draws in the same
tick as the rectangle (79, 40, 20, 20). -/
theorem first_hit_outside_drawn_enemy :
    (overlapsWithEnemy startWorld.enemy bulletInside = true ∧
      startWorld.enemy.yCurrent = 40 ∧ bulletInside.yCurrent = 39 ∧
      ¬ (startWorld.enemy.yCurrent ≤ bulletInside.yCurrent ∧
        bulletInside.yCurrent < startWorld.enemy.yCurrent + 20)) ∧
    slot firstHitWorld.gameObjects 2 = some .bullet ∧
    (beforeSlot firstHitWorld 2).enemy.xCurrent = 79 ∧
    (beforeSlot firstHitWorld 2).enemy.yCurrent = 40 ∧
    (beforeSlot firstHitWorld 2).bullet.xCurrent = 82 ∧
    (beforeSlot firstHitWorld 2).bullet.yCurrent = 31 ∧
    overlapsWithEnemy (beforeSlot firstHitWorld 2).enemy (beforeSlot firstHitWorld 2).bullet
      = true ∧
    (ThreadRenderer firstHitWorld).nEnemyLivesLeft + 1 = firstHitWorld.nEnemyLivesLeft ∧
    DisplayCall.ssd1306DrawRectangleFill 79 40 20 20 .SSD1306_COLOR_WHITE ∈
      (ThreadRenderer firstHitWorld).display.drop firstHitWorld.display.length ∧
    ¬ ((beforeSlot firstHitWorld 2).enemy.yCurrent ≤ (beforeSlot firstHitWorld 2).bullet.yCurrent ∧
      (beforeSlot firstHitWorld 2).bullet.yCurrent <
        (beforeSlot firstHitWorld 2).enemy.yCurrent + 20) := by
  decide

/-- C16 (amended): for every bullet position `(bx, by)` and enemy position `(ex, ey)`,
whenever `cbBulletOutOfBoundaries` detects a hit, `by < ey`: the point `(bx, by)` never
satisfies `ey ≤ by < ey + 20`, the rows of the rectangle `(ex, ey, 20, 20)` that
`fnDrawEnemy` passes to the driver. When the sums of the test fit in `int32_t`
(`INT32_MIN ≤ ex`, `ex + 20 ≤ INT32_MAX`, `INT32_MIN ≤ ey - 20`, `ey ≤ INT32_MAX`) the point
lies in the box of the same size with corner `(ex, ey - 20)`, shrunk by the 2 px horizontal
margin: `ex + 2 < bx < ex + 18` and `ey - 20 < by < ey`. -/
theorem hit_test_is_above_drawn_enemy (e b : GameObject)
    (h : overlapsWithEnemy e b = true) :
    b.yCurrent < e.yCurrent ∧
    ¬ (e.yCurrent ≤ b.yCurrent ∧ b.yCurrent < e.yCurrent + 20) ∧
    (HitTestFits e →
      e.xCurrent + 2 < b.xCurrent ∧ b.xCurrent < e.xCurrent + 18 ∧
      e.yCurrent - 20 < b.yCurrent ∧ b.yCurrent < e.yCurrent) := by
  have habove := overlapsWithEnemy_above e b h
  refine ⟨habove, by omega, ?_⟩
  intro hf
  rw [overlapsWithEnemy_iff e b hf] at h
  refine ⟨h.1.1, ?_, h.2.1, h.2.2⟩
  have := h.1.2
  omega

/-- Witness for C16 (amended): the bullet at `(ex + 3, ey - 1)` of the starting enemy, at
(35, 39) with the enemy drawn on rows 40 to 59. -/
theorem hit_test_is_above_drawn_enemy_witness :
    overlapsWithEnemy startWorld.enemy bulletInside = true ∧
    HitTestFits startWorld.enemy ∧
    bulletInside.yCurrent < startWorld.enemy.yCurrent ∧
    (startWorld.enemy.xCurrent + 2 < bulletInside.xCurrent ∧
      bulletInside.xCurrent < startWorld.enemy.xCurrent + 18 ∧
      startWorld.enemy.yCurrent - 20 < bulletInside.yCurrent ∧
      bulletInside.yCurrent < startWorld.enemy.yCurrent) :=
  have hit : overlapsWithEnemy startWorld.enemy bulletInside = true := by decide
  have hf : HitTestFits startWorld.enemy := by decide
  have h := hit_test_is_above_drawn_enemy startWorld.enemy bulletInside hit
  ⟨hit, hf, h.1, h.2.2 hf⟩

/-! ## The invariant of runs -/

theorem inv_initWorld : Inv initWorld where
  playerY := rfl
  playerStep := Or.inl rfl
  playerH := rfl
  playerV := rfl
  playerCb := rfl
  playerDraw := rfl
  enemyY := rfl
  enemyStep := Or.inl rfl
  enemyH := rfl
  enemyV := rfl
  enemyCb := rfl
  enemyDraw := rfl
  bulletShape := ⟨rfl, rfl, rfl, rfl, rfl⟩
  bulletY := Or.inl (by
    intro i
    by_cases hi : i < 7
    · interval_cases i <;> decide
    · rw [slot_of_length_le initWorld.gameObjects i (Nat.le_of_not_lt hi)]
      simp)
  slots := rfl
  draws := by intro c hc; cases hc
  playerX := by decide
  enemyX := by decide

theorem inv_emit (w : World) (c : DisplayCall) (h : Inv w) (hc : GoodDraw c) :
    Inv (w.emit c) :=
  ⟨h.playerY, h.playerStep, h.playerH, h.playerV, h.playerCb, h.playerDraw,
    h.enemyY, h.enemyStep, h.enemyH, h.enemyV, h.enemyCb, h.enemyDraw,
    h.bulletShape, h.bulletY, h.slots, by
      intro d hd
      rcases List.mem_append.mp hd with hd | hd
      · exact h.draws d hd
      · rw [List.mem_singleton.mp hd]; exact hc,
    h.playerX, h.enemyX⟩

theorem inv_setPlayer (w : World) (p : GameObject) (h : Inv w)
    (h1 : p.yCurrent = 7) (h2 : p.xStep = 3 ∨ p.xStep = -3) (h3 : p.horizontal = true)
    (h4 : p.vertical = false) (h5 : p.cbOutOfBoundaries = .cbPlayerOutOfBoundaries)
    (h6 : p.fnDraw = .fnDrawPlayer) (h7 : 6 ≤ p.xCurrent ∧ p.xCurrent ≤ 120) :
    Inv (w.setObj .player p) :=
  ⟨h1, h2, h3, h4, h5, h6,
    h.enemyY, h.enemyStep, h.enemyH, h.enemyV, h.enemyCb, h.enemyDraw,
    h.bulletShape, h.bulletY, h.slots, h.draws, h7, h.enemyX⟩

theorem inv_setEnemy (w : World) (e : GameObject) (h : Inv w)
    (h1 : e.yCurrent = 40) (h2 : e.xStep = 4 ∨ e.xStep = -4) (h3 : e.horizontal = true)
    (h4 : e.vertical = false) (h5 : e.cbOutOfBoundaries = .cbEnemyOutOfBoundaries)
    (h6 : e.fnDraw = .fnDrawEnemy) (h7 : 12 ≤ e.xCurrent ∧ e.xCurrent ≤ 100) :
    Inv (w.setObj .enemy e) :=
  ⟨h.playerY, h.playerStep, h.playerH, h.playerV, h.playerCb, h.playerDraw,
    h1, h2, h3, h4, h5, h6,
    h.bulletShape, h.bulletY, h.slots, h.draws, h.playerX, h7⟩

theorem inv_setBullet (w : World) (b : GameObject) (h : Inv w) (h1 : IsBullet b)
    (h2 : 11 ≤ b.yCurrent ∧ b.yCurrent ≤ 66 ∧ b.yCurrent % 5 = 1) :
    Inv (w.setObj .bullet b) :=
  ⟨h.playerY, h.playerStep, h.playerH, h.playerV, h.playerCb, h.playerDraw,
    h.enemyY, h.enemyStep, h.enemyH, h.enemyV, h.enemyCb, h.enemyDraw,
    h1, Or.inr h2, h.slots, h.draws, h.playerX, h.enemyX⟩

theorem inv_setRegistry (w : World) (g : List (Option ObjRef)) (h : Inv w)
    (h1 : g.length = 7)
    (h2 : (∀ i, slot g i ≠ some .bullet) ∨
      (11 ≤ w.bullet.yCurrent ∧ w.bullet.yCurrent ≤ 66 ∧ w.bullet.yCurrent % 5 = 1)) :
    Inv { w with gameObjects := g } :=
  ⟨h.playerY, h.playerStep, h.playerH, h.playerV, h.playerCb, h.playerDraw,
    h.enemyY, h.enemyStep, h.enemyH, h.enemyV, h.enemyCb, h.enemyDraw,
    h.bulletShape, h2, h1, h.draws, h.playerX, h.enemyX⟩

theorem inv_setCounters (w : World) (b : Bool) (n : Nat) (h : Inv w) :
    Inv { w with enemyHit := b, nEnemyLivesLeft := n } :=
  ⟨h.playerY, h.playerStep, h.playerH, h.playerV, h.playerCb, h.playerDraw,
    h.enemyY, h.enemyStep, h.enemyH, h.enemyV, h.enemyCb, h.enemyDraw,
    h.bulletShape, h.bulletY, h.slots, h.draws, h.playerX, h.enemyX⟩

theorem restore_fields (o : GameObject) (xMin xMax width : Int) :
    (restoreOnHorizontalBounds o xMin xMax width).yCurrent = o.yCurrent ∧
    ((restoreOnHorizontalBounds o xMin xMax width).xStep = o.xStep ∨
      (restoreOnHorizontalBounds o xMin xMax width).xStep = neg32 o.xStep ∨
      (restoreOnHorizontalBounds o xMin xMax width).xStep = neg32 (neg32 o.xStep)) ∧
    (restoreOnHorizontalBounds o xMin xMax width).horizontal = o.horizontal ∧
    (restoreOnHorizontalBounds o xMin xMax width).vertical = o.vertical ∧
    (restoreOnHorizontalBounds o xMin xMax width).cbOutOfBoundaries = o.cbOutOfBoundaries ∧
    (restoreOnHorizontalBounds o xMin xMax width).fnDraw = o.fnDraw := by
  unfold restoreOnHorizontalBounds STEP_TOWARDS_MAX STEP_TOWARDS_MIN
  dsimp only
  split_ifs <;> simp

/-- An object moving along x only, displaced by a step that fits. -/
theorem moved_horizontal (o : GameObject) (hh : o.horizontal = true) (hv : o.vertical = false)
    (h1 : INT32_MIN ≤ o.xCurrent + o.xStep) (h2 : o.xCurrent + o.xStep ≤ INT32_MAX) :
    moved o = { o with xCurrent := o.xCurrent + o.xStep } := by
  unfold moved
  rw [hh, hv, add32_of_fits _ _ h1 h2]
  rfl

theorem callOutOfBoundaries_player (w : World) (h : Inv w) :
    callOutOfBoundaries w .player =
      (w.setObj .player (restoreOnHorizontalBounds w.player 8 127 10), false) := by
  unfold callOutOfBoundaries
  have e : (w.obj .player).cbOutOfBoundaries = .cbPlayerOutOfBoundaries := h.playerCb
  rw [e]
  rfl

theorem callOutOfBoundaries_enemy (w : World) (h : Inv w) :
    callOutOfBoundaries w .enemy =
      (w.setObj .enemy (restoreOnHorizontalBounds w.enemy 15 116 20), false) := by
  unfold callOutOfBoundaries
  have e : (w.obj .enemy).cbOutOfBoundaries = .cbEnemyOutOfBoundaries := h.enemyCb
  rw [e]
  rfl

theorem inv_renderSlot (w : World) (i : Nat) (h : Inv w) : Inv (renderSlot w i) := by
  rcases hs : slot w.gameObjects i with _ | r
  · rw [renderSlot_empty w i hs]; exact h
  · cases r
    · -- the player: reflected, moved, drawn
      have hc := callOutOfBoundaries_player w h
      have hr : (callOutOfBoundaries w .player).2 = false := by rw [hc]
      rw [renderSlot_kept w i .player hs hr, hc]
      obtain ⟨f1, f2, f3, f4, f5, f6⟩ := restore_fields w.player 8 127 10
      have hx : 8 < (restoreOnHorizontalBounds w.player 8 127 10).xCurrent ∧
          (restoreOnHorizontalBounds w.player 8 127 10).xCurrent + 10 ≤ 127 :=
        cbPlayer_within w.player (by have := h.playerX.2; unfold INT32_MAX; omega)
      have hstep : (restoreOnHorizontalBounds w.player 8 127 10).xStep = 3 ∨
          (restoreOnHorizontalBounds w.player 8 127 10).xStep = -3 := by
        rcases h.playerStep with e | e <;> rcases f2 with g | g | g <;> rw [e] at g <;>
          (try simp only [neg32, wrap32] at g) <;> omega
      simp only [obj_setObj_self, setObj_setObj]
      generalize restoreOnHorizontalBounds w.player 8 127 10 = p at f1 f3 f4 f5 f6 hx hstep
      have hm : moved p = { p with xCurrent := p.xCurrent + p.xStep } :=
        moved_horizontal p (f3.trans h.playerH) (f4.trans h.playerV)
          (by unfold INT32_MIN; omega) (by unfold INT32_MAX; omega)
      rw [hm]
      apply inv_emit
      · apply inv_setPlayer w _ h
        · exact f1.trans h.playerY
        · exact hstep
        · exact f3.trans h.playerH
        · exact f4.trans h.playerV
        · exact f5.trans h.playerCb
        · exact f6.trans h.playerDraw
        · constructor <;> simp only <;> omega
      · have hd : drawCall w.enemyColor { p with xCurrent := p.xCurrent + p.xStep } =
            .ssd1306DrawCircleFill (p.xCurrent + p.xStep) p.yCurrent PLAYER_RADIUS
              .SSD1306_COLOR_WHITE := by
          unfold drawCall
          simp only [f6, h.playerDraw]
        rw [hd, f1, h.playerY]
        refine ⟨rfl, ?_, ?_, by decide, by decide⟩ <;> omega
    · -- the bullet: dropped, or moved and drawn
      have hc := callOutOfBoundaries_bullet w h.bulletShape
      have hy : 11 ≤ w.bullet.yCurrent ∧ w.bullet.yCurrent ≤ 66 ∧
          w.bullet.yCurrent % 5 = 1 := by
        rcases h.bulletY with e | e
        · exact absurd hs (e i)
        · exact e
      cases hr : (callOutOfBoundaries w .bullet).2
      · have hadv := kept_bullet_advance w h.bulletShape (by unfold INT32_MIN; omega)
          (by unfold INT32_MAX; omega) hr
        rw [renderSlot_kept w i .bullet hs hr, hc]
        have hw : (cbBulletOutOfBoundaries w w.bullet).1 = w := by
          rw [hc] at hr
          unfold cbBulletOutOfBoundaries at hr ⊢
          by_cases ho : overlapsWithEnemy w.enemy w.bullet = true
          · rw [if_pos ho] at hr; exact absurd hr (by simp)
          · rw [if_neg ho]
        rw [hw]
        have hm : moved (w.obj .bullet) = { w.bullet with yCurrent := w.bullet.yCurrent + 5 } := by
          have e := moved_bullet w.bullet h.bulletShape
          rw [hadv.2] at e
          exact e
        rw [hm]
        have hb' : IsBullet { w.bullet with yCurrent := w.bullet.yCurrent + 5 } :=
          h.bulletShape
        have h65 := hadv.1
        apply inv_emit
        · refine inv_setBullet w _ h hb' ?_
          refine ⟨?_, ?_, ?_⟩ <;> simp only <;> omega
        · rw [drawCall_bullet _ _ hb']
          right
          refine ⟨rfl, rfl, ?_, ?_⟩ <;> simp only <;> omega
      · rw [renderSlot_removed w i .bullet hs hr, hc]
        have hobj : ∀ r, (cbBulletOutOfBoundaries w w.bullet).1.obj r = w.obj r := by
          intro r
          rw [← hc]
          exact callOutOfBoundaries_removed_obj w .bullet r hr
        have hg : (cbBulletOutOfBoundaries w w.bullet).1.display = w.display := by
          rw [← hc]; exact callOutOfBoundaries_display w .bullet
        have hP : (cbBulletOutOfBoundaries w w.bullet).1.player = w.player := hobj .player
        have hB : (cbBulletOutOfBoundaries w w.bullet).1.bullet = w.bullet := hobj .bullet
        have hE : (cbBulletOutOfBoundaries w w.bullet).1.enemy = w.enemy := hobj .enemy
        refine ⟨?_, ?_, ?_, ?_, ?_, ?_, ?_, ?_, ?_, ?_, ?_, ?_, ?_, ?_, ?_, ?_, ?_, ?_⟩
        · show (cbBulletOutOfBoundaries w w.bullet).1.player.yCurrent = 7
          rw [hP]; exact h.playerY
        · show (cbBulletOutOfBoundaries w w.bullet).1.player.xStep = 3 ∨ _ = -3
          rw [hP]; exact h.playerStep
        · show (cbBulletOutOfBoundaries w w.bullet).1.player.horizontal = true
          rw [hP]; exact h.playerH
        · show (cbBulletOutOfBoundaries w w.bullet).1.player.vertical = false
          rw [hP]; exact h.playerV
        · show (cbBulletOutOfBoundaries w w.bullet).1.player.cbOutOfBoundaries = _
          rw [hP]; exact h.playerCb
        · show (cbBulletOutOfBoundaries w w.bullet).1.player.fnDraw = _
          rw [hP]; exact h.playerDraw
        · show (cbBulletOutOfBoundaries w w.bullet).1.enemy.yCurrent = 40
          rw [hE]; exact h.enemyY
        · show (cbBulletOutOfBoundaries w w.bullet).1.enemy.xStep = 4 ∨ _ = -4
          rw [hE]; exact h.enemyStep
        · show (cbBulletOutOfBoundaries w w.bullet).1.enemy.horizontal = true
          rw [hE]; exact h.enemyH
        · show (cbBulletOutOfBoundaries w w.bullet).1.enemy.vertical = false
          rw [hE]; exact h.enemyV
        · show (cbBulletOutOfBoundaries w w.bullet).1.enemy.cbOutOfBoundaries = _
          rw [hE]; exact h.enemyCb
        · show (cbBulletOutOfBoundaries w w.bullet).1.enemy.fnDraw = _
          rw [hE]; exact h.enemyDraw
        · show IsBullet (cbBulletOutOfBoundaries w w.bullet).1.bullet
          rw [hB]; exact h.bulletShape
        · right
          show 11 ≤ (cbBulletOutOfBoundaries w w.bullet).1.bullet.yCurrent ∧ _
          rw [hB]; exact hy
        · show (w.gameObjects.set i none).length = 7
          rw [List.length_set]; exact h.slots
        · show ∀ c ∈ (cbBulletOutOfBoundaries w w.bullet).1.display, GoodDraw c
          rw [hg]; exact h.draws
        · show 6 ≤ (cbBulletOutOfBoundaries w w.bullet).1.player.xCurrent ∧ _
          rw [hP]; exact h.playerX
        · show 12 ≤ (cbBulletOutOfBoundaries w w.bullet).1.enemy.xCurrent ∧ _
          rw [hE]; exact h.enemyX
    · -- the enemy: reflected, moved, drawn
      have hc := callOutOfBoundaries_enemy w h
      have hr : (callOutOfBoundaries w .enemy).2 = false := by rw [hc]
      rw [renderSlot_kept w i .enemy hs hr, hc]
      obtain ⟨f1, f2, f3, f4, f5, f6⟩ := restore_fields w.enemy 15 116 20
      have hx : 15 < (restoreOnHorizontalBounds w.enemy 15 116 20).xCurrent ∧
          (restoreOnHorizontalBounds w.enemy 15 116 20).xCurrent + 20 ≤ 116 :=
        cbEnemy_within w.enemy (by have := h.enemyX.2; unfold INT32_MAX; omega)
      have hstep : (restoreOnHorizontalBounds w.enemy 15 116 20).xStep = 4 ∨
          (restoreOnHorizontalBounds w.enemy 15 116 20).xStep = -4 := by
        rcases h.enemyStep with e | e <;> rcases f2 with g | g | g <;> rw [e] at g <;>
          (try simp only [neg32, wrap32] at g) <;> omega
      simp only [obj_setObj_self, setObj_setObj]
      generalize restoreOnHorizontalBounds w.enemy 15 116 20 = p at f1 f3 f4 f5 f6 hx hstep
      have hm : moved p = { p with xCurrent := p.xCurrent + p.xStep } :=
        moved_horizontal p (f3.trans h.enemyH) (f4.trans h.enemyV)
          (by unfold INT32_MIN; omega) (by unfold INT32_MAX; omega)
      rw [hm]
      apply inv_emit
      · apply inv_setEnemy w _ h
        · exact f1.trans h.enemyY
        · exact hstep
        · exact f3.trans h.enemyH
        · exact f4.trans h.enemyV
        · exact f5.trans h.enemyCb
        · exact f6.trans h.enemyDraw
        · constructor <;> simp only <;> omega
      · have hd : drawCall w.enemyColor { p with xCurrent := p.xCurrent + p.xStep } =
            .ssd1306DrawRectangleFill (p.xCurrent + p.xStep) p.yCurrent ENEMY_WIDTH ENEMY_HEIGHT
              w.enemyColor := by
          unfold drawCall
          simp only [f6, h.enemyDraw]
        rw [hd, f1, h.enemyY]
        left
        refine ⟨rfl, rfl, ?_, ?_, by decide, by decide⟩ <;> omega

theorem inv_renderLoop : ∀ (k i : Nat) (w : World), Inv w → Inv (renderLoop i k w) := by
  intro k
  induction k with
  | zero => intro i w h; exact h
  | succ k ih =>
    intro i w h
    exact ih (i + 1) (renderSlot w i) (inv_renderSlot w i h)

theorem inv_ThreadRenderer (w : World) (h : Inv w) : Inv (ThreadRenderer w) := by
  rcases Nat.eq_zero_or_pos w.nEnemyLivesLeft with h0 | h0
  · rw [ThreadRenderer_suspended w h0]; exact h
  · rw [ThreadRenderer_running w h0]
    have h1 : Inv (w.emit (.ssd1306FillScreen .SSD1306_COLOR_BLACK)) :=
      inv_emit w _ h (by simp [GoodDraw])
    have h2 : Inv ((w.emit (.ssd1306FillScreen .SSD1306_COLOR_BLACK)).emit
        (.ssd1306GotoXy 0 25)) := inv_emit _ _ h1 (by simp [GoodDraw])
    have h3 : Inv (frameStart w) := inv_emit _ _ h2 (by simp [GoodDraw])
    exact inv_emit _ .ssd1306UpdateScreen (inv_renderLoop 7 0 _ h3) (by simp [GoodDraw])

theorem addToRenderable_slot (g : List (Option ObjRef)) (obj : ObjRef) (i : Nat) :
    slot (addToRenderable g obj).1 i = slot g i ∨
      (slot g i = none ∧ slot (addToRenderable g obj).1 i = some obj) := by
  by_cases hex : ∃ j, 0 ≤ j ∧ j < 0 + N_MAX_GAME_OBJECTS ∧ slot g j = none
  · obtain ⟨m, _, _, m3, _, m5⟩ := addToRenderableLoop_first obj g N_MAX_GAME_OBJECTS 0 hex
    have h : addToRenderable g obj = (g.set m (some obj), true) := m5
    rw [h]
    by_cases him : m = i
    · subst him
      by_cases hl : m < g.length
      · exact Or.inr ⟨m3, slot_set_self g m (some obj) hl⟩
      · left
        rw [slot_of_length_le _ m (by simpa using Nat.le_of_not_lt hl),
          slot_of_length_le _ m (Nat.le_of_not_lt hl)]
    · exact Or.inl (slot_set_other g m i (some obj) him)
  · have h : addToRenderable g obj = (g, false) :=
      addToRenderableLoop_full obj g N_MAX_GAME_OBJECTS 0
        (fun j h1 h2 hj => hex ⟨j, h1, h2, hj⟩)
    rw [h]
    exact Or.inl rfl

theorem inv_register (w : World) (r : ObjRef) (hr : r ≠ .bullet) (h : Inv w) :
    Inv { w with gameObjects := (addToRenderable w.gameObjects r).1 } := by
  apply inv_setRegistry w _ h
  · rw [addToRenderable_length]; exact h.slots
  · rcases h.bulletY with e | e
    · left
      intro i hi
      rcases addToRenderable_slot w.gameObjects r i with k | ⟨_, k⟩
      · rw [k] at hi; exact e i hi
      · rw [k] at hi; exact hr (Option.some.inj hi)
    · exact Or.inr e

theorem inv_spawner (w : World) (h : Inv w) : Inv (ThreadBulletSpawner w) := by
  have hb := spawner_bullet_raw w
  refine ⟨h.playerY, h.playerStep, h.playerH, h.playerV, h.playerCb, h.playerDraw,
    h.enemyY, h.enemyStep, h.enemyH, h.enemyV, h.enemyCb, h.enemyDraw, ?_, ?_, ?_, h.draws,
    h.playerX, h.enemyX⟩
  · rw [hb]; exact h.bulletShape
  · right
    rw [hb]
    simp only [h.playerY]
    decide
  · show (addToRenderable w.gameObjects .bullet).1.length = 7
    rw [addToRenderable_length]; exact h.slots

theorem inv_step (w : World) (s : Step) (h : Inv w) : Inv (step w s) := by
  cases s
  · exact inv_register w .player (by decide) h
  · exact inv_register w .enemy (by decide) h
  · exact inv_spawner w h
  · exact inv_ThreadRenderer w h

theorem inv_run : ∀ (steps : List Step) (w : World), Inv w → Inv (run w steps) := by
  intro steps
  induction steps with
  | nil => intro w h; exact h
  | cons s rest ih => intro w h; exact ih (step w s) (inv_step w s h)

theorem run_append (w : World) (a b : List Step) : run w (a ++ b) = run (run w a) b := by
  unfold run
  rw [List.foldl_append]

theorem inv_startWorld : Inv startWorld := inv_run _ _ inv_initWorld

/-! ## Drawing stays on the screen -/

/-- C17: in every state reachable from the start state (player at (32, 7) with xStep 3,
enemy at (32, 40) with xStep 4, each registered once) by spawner steps and render ticks
(further registrations change nothing to it), every circle drawn, which is what
`fnDrawPlayer` draws, has radius 5 and `0 ≤ x - 5`, `x + 5 ≤ 127`, `0 ≤ y - 5`,
`y + 5 ≤ 63`, and every 20 x 20 rectangle drawn, which is what `fnDrawEnemy` draws, has
`0 ≤ x`, `x + 20 ≤ 128`, `0 ≤ y`, `y + 20 ≤ 64`. -/
theorem player_and_enemy_drawn_on_screen (steps : List Step) :
    (startWorld.player.xCurrent = 32 ∧ startWorld.player.yCurrent = 7 ∧
      startWorld.player.xStep = 3 ∧ startWorld.enemy.xCurrent = 32 ∧
      startWorld.enemy.yCurrent = 40 ∧ startWorld.enemy.xStep = 4 ∧
      startWorld.gameObjects = [some .player, some .enemy, none, none, none, none, none]) ∧
    (∀ (w : World) (o : GameObject),
      (fnDrawPlayer w o).display =
        w.display ++ [.ssd1306DrawCircleFill o.xCurrent o.yCurrent 5 .SSD1306_COLOR_WHITE] ∧
      (fnDrawEnemy w o).display =
        w.display ++ [.ssd1306DrawRectangleFill o.xCurrent o.yCurrent 20 20 w.enemyColor]) ∧
    (∀ x y r col, DisplayCall.ssd1306DrawCircleFill x y r col ∈ (run startWorld steps).display →
      r = 5 ∧ 0 ≤ x - 5 ∧ x + 5 ≤ 127 ∧ 0 ≤ y - 5 ∧ y + 5 ≤ 63) ∧
    (∀ x y col,
      DisplayCall.ssd1306DrawRectangleFill x y 20 20 col ∈ (run startWorld steps).display →
      0 ≤ x ∧ x + 20 ≤ 128 ∧ 0 ≤ y ∧ y + 20 ≤ 64) := by
  have h := inv_run steps startWorld inv_startWorld
  refine ⟨by decide, fun w o => ⟨rfl, rfl⟩, ?_, ?_⟩
  · intro x y r col hc
    exact h.draws _ hc
  · intro x y col hc
    rcases h.draws _ hc with k | k
    · exact ⟨k.2.2.1, k.2.2.2.1, k.2.2.2.2.1, k.2.2.2.2.2⟩
    · exact absurd k.1 (by decide)

/-- C18, as stated, fails from the start state: eleven ticks after a spawner step the bullet
is drawn with its top row at y = 66, so that `y + BULLET_HEIGHT - 1 = 69` is past
`SCREEN_Y_MAX = 63`; the handler removes it only in the tick after. -/
theorem bullet_drawn_below_last_row :
    DisplayCall.ssd1306DrawRectangleFill 34 66 1 4 .SSD1306_COLOR_WHITE ∈
      (run startWorld (.spawner :: List.replicate 11 .render)).display ∧
    ¬ (66 + BULLET_HEIGHT - 1 ≤ SCREEN_Y_MAX) ∧
    slot (run startWorld (.spawner :: List.replicate 11 .render)).gameObjects 2 =
      some .bullet ∧
    slot (run startWorld (.spawner :: List.replicate 12 .render)).gameObjects 2 = none := by
  decide

/-- C18 (amended): in every state reachable from the start state by spawner steps and
render ticks, every 1 x 4 rectangle drawn, which is what `fnDrawBullet` draws, has
`16 ≤ y ≤ 66`: the bullet is never drawn above the screen, and it is drawn with its top row
at most at 66, that is at most `BULLET_Y_STEP` rows past the last top row, 61, at which the
handler still keeps it. -/
theorem bullet_drawn_between_16_and_66 (steps : List Step) :
    (∀ (w : World) (o : GameObject),
      (fnDrawBullet w o).display =
        w.display ++
          [.ssd1306DrawRectangleFill o.xCurrent o.yCurrent 1 4 .SSD1306_COLOR_WHITE]) ∧
    (∀ x y col,
      DisplayCall.ssd1306DrawRectangleFill x y 1 4 col ∈ (run startWorld steps).display →
      0 ≤ y ∧ 16 ≤ y ∧ y ≤ 66 ∧ y + BULLET_HEIGHT - 1 ≤ SCREEN_Y_MAX + 1 + BULLET_Y_STEP) := by
  have h := inv_run steps startWorld inv_startWorld
  refine ⟨fun w o => rfl, ?_⟩
  intro x y col hc
  rcases h.draws _ hc with k | k
  · exact absurd k.1 (by decide)
  · have h1 := k.2.2.1
    have h2 := k.2.2.2
    simp only [BULLET_HEIGHT, SCREEN_Y_MAX, BULLET_Y_STEP]
    refine ⟨?_, h1, h2, ?_⟩ <;> omega

/-! ## Who leaves the registry -/

theorem renderSlot_slot_cases (w : World) (i j : Nat) (h : Inv w) :
    slot (renderSlot w i).gameObjects j = slot w.gameObjects j ∨
      (slot w.gameObjects j = some .bullet ∧ slot (renderSlot w i).gameObjects j = none) := by
  by_cases hij : i = j
  · subst hij
    rcases hs : slot w.gameObjects i with _ | r
    · rw [renderSlot_empty w i hs]; exact Or.inl hs
    · have hkept : (callOutOfBoundaries w r).2 = false →
          slot (renderSlot w i).gameObjects i = some r := by
        intro hr
        rw [renderSlot_kept w i r hs hr]
        simp only [emit_gameObjects, setObj_gameObjects, callOutOfBoundaries_gameObjects]
        exact hs
      cases r
      · exact Or.inl (hkept (by rw [callOutOfBoundaries_player w h]))
      · cases hr : (callOutOfBoundaries w .bullet).2
        · exact Or.inl (hkept hr)
        · right
          rw [renderSlot_removed w i .bullet hs hr]
          refine ⟨rfl, slot_set_self _ i none ?_⟩
          by_contra hl
          rw [slot_of_length_le _ i (Nat.le_of_not_lt hl)] at hs
          exact absurd hs (by simp)
      · exact Or.inl (hkept (by rw [callOutOfBoundaries_enemy w h]))
  · exact Or.inl (renderSlot_slot_other w i j hij)

theorem renderLoop_slot_cases : ∀ (k i : Nat) (w : World) (j : Nat), Inv w →
    slot (renderLoop i k w).gameObjects j = slot w.gameObjects j ∨
      (slot w.gameObjects j = some .bullet ∧ slot (renderLoop i k w).gameObjects j = none) := by
  intro k
  induction k with
  | zero => intro i w j _; exact Or.inl rfl
  | succ k ih =>
    intro i w j h
    show slot (renderLoop (i + 1) k (renderSlot w i)).gameObjects j = _ ∨ _
    rcases ih (i + 1) (renderSlot w i) j (inv_renderSlot w i h) with a | ⟨a1, a2⟩
    · rcases renderSlot_slot_cases w i j h with b | ⟨b1, b2⟩
      · exact Or.inl (a.trans b)
      · exact Or.inr ⟨b1, a.trans b2⟩
    · rcases renderSlot_slot_cases w i j h with b | ⟨_, b2⟩
      · exact Or.inr ⟨b ▸ a1, a2⟩
      · rw [b2] at a1; exact absurd a1 (by simp)

theorem step_slot_cases (w : World) (s : Step) (j : Nat) (h : Inv w) :
    slot (step w s).gameObjects j = slot w.gameObjects j ∨
      (slot w.gameObjects j = some .bullet ∧ slot (step w s).gameObjects j = none) ∨
      (slot w.gameObjects j = none ∧ ∃ r, slot (step w s).gameObjects j = some r) := by
  cases s
  · rcases addToRenderable_slot w.gameObjects .player j with a | ⟨a1, a2⟩
    · exact Or.inl a
    · exact Or.inr (Or.inr ⟨a1, _, a2⟩)
  · rcases addToRenderable_slot w.gameObjects .enemy j with a | ⟨a1, a2⟩
    · exact Or.inl a
    · exact Or.inr (Or.inr ⟨a1, _, a2⟩)
  · rcases addToRenderable_slot w.gameObjects .bullet j with a | ⟨a1, a2⟩
    · exact Or.inl a
    · exact Or.inr (Or.inr ⟨a1, _, a2⟩)
  · have e : step w .render = ThreadRenderer w := rfl
    rw [e]
    rcases Nat.eq_zero_or_pos w.nEnemyLivesLeft with h0 | h0
    · rw [ThreadRenderer_suspended w h0]; exact Or.inl rfl
    · rw [ThreadRenderer_running w h0, emit_gameObjects]
      have h3 : Inv (frameStart w) :=
        inv_emit _ _ (inv_emit _ _ (inv_emit _ _ h (by simp [GoodDraw]))
          (by simp [GoodDraw])) (by simp [GoodDraw])
      rcases renderLoop_slot_cases 7 0 (frameStart w) j h3 with a | a
      · exact Or.inl a
      · exact Or.inr (Or.inl a)

theorem run_keeps_slot : ∀ (steps : List Step) (w : World) (j : Nat) (r : ObjRef), Inv w →
    r ≠ .bullet → slot w.gameObjects j = some r →
    slot (run w steps).gameObjects j = some r := by
  intro steps
  induction steps with
  | nil => intro w j r _ _ hs; exact hs
  | cons s rest ih =>
    intro w j r h hr hs
    apply ih (step w s) j r (inv_step w s h) hr
    rcases step_slot_cases w s j h with a | ⟨a1, _⟩ | ⟨a1, _⟩
    · rw [a]; exact hs
    · rw [hs] at a1; exact absurd (Option.some.inj a1) hr
    · rw [hs] at a1; exact absurd a1 (by simp)

/-- C13: the player and the enemy handlers return false for every object; hence in a run
from the initial state a slot that holds the player or the enemy holds it for ever after,
whatever steps follow, and a step that takes an object out of a slot takes out the bullet,
leaving the slot empty. -/
theorem player_and_enemy_never_removed :
    (∀ o : GameObject,
      (cbPlayerOutOfBoundaries o).2 = false ∧ (cbEnemyOutOfBoundaries o).2 = false) ∧
    (∀ (before after : List Step) (j : Nat),
      (slot (run initWorld before).gameObjects j = some .player →
        slot (run initWorld (before ++ after)).gameObjects j = some .player) ∧
      (slot (run initWorld before).gameObjects j = some .enemy →
        slot (run initWorld (before ++ after)).gameObjects j = some .enemy)) ∧
    (∀ (before : List Step) (s : Step) (j : Nat) (r : ObjRef),
      slot (run initWorld before).gameObjects j = some r →
      slot (run initWorld (before ++ [s])).gameObjects j ≠ some r →
      r = .bullet ∧ slot (run initWorld (before ++ [s])).gameObjects j = none) ∧
    (slot startWorld.gameObjects 0 = some .player ∧ slot startWorld.gameObjects 1 = some .enemy) := by
  refine ⟨fun o => ⟨rfl, rfl⟩, ?_, ?_, by decide⟩
  · intro before after j
    have h := inv_run before initWorld inv_initWorld
    rw [run_append]
    exact ⟨run_keeps_slot after _ j .player h (by decide),
      run_keeps_slot after _ j .enemy h (by decide)⟩
  · intro before s j r hs hne
    have h := inv_run before initWorld inv_initWorld
    rw [run_append] at hne ⊢
    have e : run (run initWorld before) [s] = step (run initWorld before) s := rfl
    rw [e] at hne ⊢
    rcases step_slot_cases (run initWorld before) s j h with a | ⟨a1, a2⟩ | ⟨a1, _⟩
    · rw [a] at hne; exact absurd hs hne
    · rw [hs] at a1; exact ⟨Option.some.inj a1, a2⟩
    · rw [hs] at a1; exact absurd a1 (by simp)

/-- Witness for C13: the player registered by `main` in slot 0 is still there after a
spawner step and thirteen render ticks, in which the bullet comes and goes. -/
theorem player_and_enemy_never_removed_witness :
    slot (run initWorld [.registerPlayer, .registerEnemy]).gameObjects 0 = some .player ∧
    slot (run initWorld ([.registerPlayer, .registerEnemy] ++
      (.spawner :: List.replicate 13 .render))).gameObjects 0 = some .player :=
  have h0 : slot (run initWorld [.registerPlayer, .registerEnemy]).gameObjects 0 =
      some .player := by decide
  ⟨h0, (player_and_enemy_never_removed.2.1 [.registerPlayer, .registerEnemy]
    (.spawner :: List.replicate 13 .render) 0).1 h0⟩

/-! ## Every bullet expires -/

theorem renderSlot_bullet_mono (w : World) (i : Nat) (hb : IsBullet w.bullet)
    (hlo : INT32_MIN ≤ w.bullet.yCurrent) (hhi : w.bullet.yCurrent ≤ INT32_MAX) :
    IsBullet (renderSlot w i).bullet ∧ w.bullet.yCurrent ≤ (renderSlot w i).bullet.yCurrent ∧
      (renderSlot w i).bullet.yCurrent ≤ INT32_MAX := by
  by_cases hs : slot w.gameObjects i = some .bullet
  · have hcb : (w.obj .bullet).cbOutOfBoundaries = .cbBulletOutOfBoundaries := hb.2.2.2.1
    have hobj : (callOutOfBoundaries w .bullet).1.obj .bullet = w.bullet :=
      callOutOfBoundaries_bullet_obj w .bullet .bullet hcb
    cases hr : (callOutOfBoundaries w .bullet).2
    · have hadv := kept_bullet_advance w hb hlo hhi hr
      have e : (renderSlot w i).bullet = { w.bullet with yCurrent := w.bullet.yCurrent + 5 } := by
        rw [renderSlot_kept w i .bullet hs hr, hobj, moved_bullet _ hb, hadv.2]
        rfl
      rw [e]
      have h65 := hadv.1
      exact ⟨hb, by simp only; omega, by simp only; unfold INT32_MAX; omega⟩
    · have e : (renderSlot w i).bullet = w.bullet := by
        rw [renderSlot_removed w i .bullet hs hr]
        exact hobj
      rw [e]
      exact ⟨hb, Int.le_refl _, hhi⟩
  · have e : (renderSlot w i).bullet = w.bullet := renderSlot_obj_other w i .bullet hs
    rw [e]
    exact ⟨hb, Int.le_refl _, hhi⟩

theorem renderLoop_bullet_mono : ∀ (k i : Nat) (w : World), IsBullet w.bullet →
    INT32_MIN ≤ w.bullet.yCurrent → w.bullet.yCurrent ≤ INT32_MAX →
    IsBullet (renderLoop i k w).bullet ∧
      w.bullet.yCurrent ≤ (renderLoop i k w).bullet.yCurrent ∧
      (renderLoop i k w).bullet.yCurrent ≤ INT32_MAX := by
  intro k
  induction k with
  | zero => intro i w hb _ hhi; exact ⟨hb, Int.le_refl _, hhi⟩
  | succ k ih =>
    intro i w hb hlo hhi
    obtain ⟨a1, a2, a3⟩ := renderSlot_bullet_mono w i hb hlo hhi
    obtain ⟨b1, b2, b3⟩ := ih (i + 1) (renderSlot w i) a1 (Int.le_trans hlo a2) a3
    exact ⟨b1, Int.le_trans a2 b2, b3⟩

theorem ThreadRenderer_bullet_mono (w : World) (hb : IsBullet w.bullet)
    (hlo : INT32_MIN ≤ w.bullet.yCurrent) (hhi : w.bullet.yCurrent ≤ INT32_MAX) :
    IsBullet (ThreadRenderer w).bullet ∧
      w.bullet.yCurrent ≤ (ThreadRenderer w).bullet.yCurrent ∧
      (ThreadRenderer w).bullet.yCurrent ≤ INT32_MAX := by
  rcases Nat.eq_zero_or_pos w.nEnemyLivesLeft with h0 | h0
  · rw [ThreadRenderer_suspended w h0]; exact ⟨hb, Int.le_refl _, hhi⟩
  · rw [ThreadRenderer_running w h0]
    have hf : IsBullet (frameStart w).bullet := hb
    have h := renderLoop_bullet_mono 7 0 (frameStart w) hf hlo hhi
    generalize renderLoop 0 7 (frameStart w) = u at h ⊢
    exact h

/-- One tick seen from a slot `m` that holds the bullet, whatever else the registry holds:
the slot is emptied, or the bullet has advanced by at least 5 from a position with
`y ≤ 65`. -/
theorem tick_bullet_slot (w : World) (m : Nat) (hb : IsBullet w.bullet)
    (hlo : INT32_MIN ≤ w.bullet.yCurrent) (hhi : w.bullet.yCurrent ≤ INT32_MAX)
    (hlives : 0 < w.nEnemyLivesLeft) (hlen : w.gameObjects.length = 7) (hm : m < 7)
    (hs : slot w.gameObjects m = some .bullet) :
    slot (ThreadRenderer w).gameObjects m = none ∨
      (slot (ThreadRenderer w).gameObjects m = some .bullet ∧
        w.bullet.yCurrent + 5 ≤ (ThreadRenderer w).bullet.yCurrent ∧
        w.bullet.yCurrent ≤ 65) := by
  have hsplit : renderLoop 0 7 (frameStart w) =
      renderLoop (m + 1) (6 - m) (renderSlot (beforeSlot w m) m) := by
    have e : 7 = (m + 1) + (6 - m) := by omega
    rw [e, renderLoop_add (m + 1) (6 - m) 0 (frameStart w), renderLoop_succ_last]
    simp only [Nat.zero_add]
    rfl
  have hv : IsBullet (beforeSlot w m).bullet ∧
      w.bullet.yCurrent ≤ (beforeSlot w m).bullet.yCurrent ∧
      (beforeSlot w m).bullet.yCurrent ≤ INT32_MAX :=
    renderLoop_bullet_mono m 0 (frameStart w) hb hlo hhi
  have hvlo : INT32_MIN ≤ (beforeSlot w m).bullet.yCurrent := Int.le_trans hlo hv.2.1
  have hvs : slot (beforeSlot w m).gameObjects m = some .bullet := by
    rw [beforeSlot_slot w m m (Nat.le_refl m)]; exact hs
  have hvl : m < (beforeSlot w m).gameObjects.length := by
    rw [beforeSlot_length, hlen]; exact hm
  obtain ⟨u1, u2, u3⟩ := renderSlot_bullet_mono (beforeSlot w m) m hv.1 hvlo hv.2.2
  obtain ⟨_, f2, _⟩ := renderLoop_bullet_mono (6 - m) (m + 1) _ u1 (Int.le_trans hvlo u2) u3
  have hfin : (ThreadRenderer w).bullet =
      (renderLoop (m + 1) (6 - m) (renderSlot (beforeSlot w m) m)).bullet := by
    rw [ThreadRenderer_running w hlives, hsplit]
    rfl
  have hfs : slot (ThreadRenderer w).gameObjects m =
      slot (renderSlot (beforeSlot w m) m).gameObjects m := by
    rw [ThreadRenderer_running w hlives, emit_gameObjects, hsplit]
    exact renderLoop_slot_outside (6 - m) (m + 1) _ m (by omega)
  rw [hfin, hfs]
  cases hr : (callOutOfBoundaries (beforeSlot w m) .bullet).2
  · right
    have hadv := kept_bullet_advance (beforeSlot w m) hv.1 hvlo hv.2.2 hr
    have hy := hadv.1
    have hub : (renderSlot (beforeSlot w m) m).bullet.yCurrent =
        (beforeSlot w m).bullet.yCurrent + 5 := by
      have hobj : (callOutOfBoundaries (beforeSlot w m) .bullet).1.obj .bullet =
          (beforeSlot w m).bullet :=
        callOutOfBoundaries_bullet_obj _ .bullet .bullet hv.1.2.2.2.1
      rw [renderSlot_kept _ m .bullet hvs hr, hobj, moved_bullet _ hv.1, hadv.2]
      rfl
    refine ⟨?_, ?_, ?_⟩
    · rw [renderSlot_kept _ m .bullet hvs hr]
      simp only [emit_gameObjects, setObj_gameObjects, callOutOfBoundaries_gameObjects]
      exact hvs
    · have := hv.2.1
      omega
    · have := hv.2.1
      omega
  · left
    rw [renderSlot_removed _ m .bullet hvs hr]
    exact slot_set_self _ m none hvl

theorem run_render_succ (w : World) (k : Nat) :
    run w (List.replicate (k + 1) .render) = ThreadRenderer (run w (List.replicate k .render)) := by
  rw [List.replicate_succ', run_append]
  rfl

theorem first_drop (f : Nat → Option ObjRef) (b : ObjRef) : ∀ n, f 0 = some b → f n = none →
    (∀ k, k < n → f k = none ∨ f k = some b) →
    ∃ k, k < n ∧ f k = some b ∧ f (k + 1) = none := by
  intro n
  induction n with
  | zero => intro h0 hn _; rw [h0] at hn; exact absurd hn (by simp)
  | succ n ih =>
    intro h0 hn hall
    rcases hall n (Nat.lt_succ_self n) with h | h
    · obtain ⟨k, k1, k2, k3⟩ := ih h0 h (fun k hk => hall k (Nat.lt_succ_of_lt hk))
      exact ⟨k, Nat.lt_succ_of_lt k1, k2, k3⟩
    · exact ⟨n, Nat.lt_succ_self n, h, hn⟩

/-- Flight of a bullet registered in slot `m`, tick after tick, while the counter is
positive: after `k` ticks the slot is empty or the bullet has reached `y ≥ y₀ + 5 k`. -/
theorem flight_progress (s : World) (m : Nat) (hb : IsBullet s.bullet)
    (hlo : INT32_MIN ≤ s.bullet.yCurrent) (hhi : s.bullet.yCurrent ≤ INT32_MAX)
    (hlen : s.gameObjects.length = 7) (hm : m < 7) (hs : slot s.gameObjects m = some .bullet)
    (n : Nat)
    (hpos : ∀ k, k < n → slot (run s (List.replicate k .render)).gameObjects m = some .bullet →
      0 < (run s (List.replicate k .render)).nEnemyLivesLeft) :
    ∀ k, k ≤ n →
      IsBullet (run s (List.replicate k .render)).bullet ∧
      (run s (List.replicate k .render)).gameObjects.length = 7 ∧
      (s.bullet.yCurrent ≤ (run s (List.replicate k .render)).bullet.yCurrent ∧
        (run s (List.replicate k .render)).bullet.yCurrent ≤ INT32_MAX) ∧
      (slot (run s (List.replicate k .render)).gameObjects m = none ∨
        (slot (run s (List.replicate k .render)).gameObjects m = some .bullet ∧
          s.bullet.yCurrent + 5 * k ≤ (run s (List.replicate k .render)).bullet.yCurrent ∧
          (0 < k → s.bullet.yCurrent + 5 * k ≤ 70))) := by
  intro k
  induction k with
  | zero =>
    intro _
    exact ⟨hb, hlen, ⟨Int.le_refl _, hhi⟩,
      Or.inr ⟨hs, by simp [run], fun h => absurd h (by decide)⟩⟩
  | succ k ih =>
    intro hk
    obtain ⟨a1, a2, ⟨r1, r2⟩, a3⟩ := ih (Nat.le_of_succ_le hk)
    have hl := hpos k (by omega)
    rw [run_render_succ]
    generalize run s (List.replicate k .render) = v at a1 a2 a3 hl r1 r2
    have hvlo : INT32_MIN ≤ v.bullet.yCurrent := Int.le_trans hlo r1
    obtain ⟨t1, t5, t6⟩ := ThreadRenderer_bullet_mono v a1 hvlo r2
    refine ⟨t1, by rw [ThreadRenderer_length]; exact a2, ⟨Int.le_trans r1 t5, t6⟩, ?_⟩
    rcases a3 with a3 | ⟨a3, a4, _⟩
    · left
      rcases ThreadRenderer_slot_sub v m with h | h
      · exact h
      · rw [h]; exact a3
    · rcases tick_bullet_slot v m a1 hvlo r2 (hl a3) a2 hm a3 with t2 | ⟨t2, t3, t4⟩
      · exact Or.inl t2
      · refine Or.inr ⟨t2, ?_, fun _ => ?_⟩
        · push_cast; omega
        · push_cast; omega

/-- C19: a spawner step made with the player at y = 7 and a free slot in the registry
registers the bullet, at y = 11 with yStep 5, in a slot `m`. If only render ticks follow and
the life counter is positive before each of the next 12 of them that finds the bullet still
in slot `m`, the slot is emptied during one of these 12 ticks and is empty after the
twelfth; as long as it holds the bullet after `k` ticks, the bullet is at `y ≥ 11 + 5 k`,
so that the twelfth tick would find it at `y ≥ 66`. -/
theorem bullet_expires_within_12_ticks (w : World) (hb : IsBullet w.bullet)
    (hpy : w.player.yCurrent = 7) (hlen : w.gameObjects.length = 7)
    (hroom : ∃ i, i < 7 ∧ slot w.gameObjects i = none) :
    ∃ m, m < 7 ∧ slot w.gameObjects m = none ∧
      slot (ThreadBulletSpawner w).gameObjects m = some .bullet ∧
      (ThreadBulletSpawner w).bullet.yCurrent = 11 ∧
      (ThreadBulletSpawner w).bullet.yStep = 5 ∧
      ((∀ k, k < 12 →
          slot (run (ThreadBulletSpawner w) (List.replicate k .render)).gameObjects m =
            some .bullet →
          0 < (run (ThreadBulletSpawner w) (List.replicate k .render)).nEnemyLivesLeft) →
        slot (run (ThreadBulletSpawner w) (List.replicate 12 .render)).gameObjects m = none ∧
        (∃ k, k < 12 ∧
          slot (run (ThreadBulletSpawner w) (List.replicate k .render)).gameObjects m =
            some .bullet ∧
          slot (run (ThreadBulletSpawner w) (List.replicate (k + 1) .render)).gameObjects m =
            none) ∧
        (∀ k, k ≤ 12 →
          slot (run (ThreadBulletSpawner w) (List.replicate k .render)).gameObjects m =
            some .bullet →
          11 + 5 * (k : Int) ≤
            (run (ThreadBulletSpawner w) (List.replicate k .render)).bullet.yCurrent)) := by
  obtain ⟨m, hm, m1, _, _, _, m5, _⟩ :=
    addToRenderable_first_slot w.gameObjects .bullet hlen hroom
  have hsb := spawner_bullet_raw w
  have hsm : slot (ThreadBulletSpawner w).gameObjects m = some .bullet := m5
  have hsy : (ThreadBulletSpawner w).bullet.yCurrent = 11 := by
    rw [hsb]; simp only [hpy]; decide
  have hsB : IsBullet (ThreadBulletSpawner w).bullet := by rw [hsb]; exact hb
  have hsl : (ThreadBulletSpawner w).gameObjects.length = 7 := by
    show (addToRenderable w.gameObjects .bullet).1.length = 7
    rw [addToRenderable_length]; exact hlen
  refine ⟨m, hm, m1, hsm, hsy, hsB.1, ?_⟩
  intro hpos
  have hprog := flight_progress (ThreadBulletSpawner w) m hsB
    (by rw [hsy]; decide) (by rw [hsy]; decide) hsl hm hsm 12 hpos
  have h12 : slot (run (ThreadBulletSpawner w) (List.replicate 12 .render)).gameObjects m =
      none := by
    rcases (hprog 12 (Nat.le_refl 12)).2.2.2 with h | ⟨_, _, h⟩
    · exact h
    · have := h (by decide)
      rw [hsy] at this
      omega
  refine ⟨h12, ?_, ?_⟩
  · apply first_drop
      (fun k => slot (run (ThreadBulletSpawner w) (List.replicate k .render)).gameObjects m)
      .bullet 12 hsm h12
    intro k hk
    rcases (hprog k (Nat.le_of_lt hk)).2.2.2 with h | ⟨h, _⟩
    · exact Or.inl h
    · exact Or.inr h
  · intro k hk hs
    rcases (hprog k hk).2.2.2 with h | ⟨_, h, _⟩
    · rw [h] at hs; exact absurd hs (by simp)
    · rw [hsy] at h; exact h

/-- Witness for C19: the first spawner step of a run; the enemy is not hit, the counter
stays at 3 and the bullet's slot 2 is empty after the twelfth tick. -/
theorem bullet_expires_within_12_ticks_witness :
    IsBullet startWorld.bullet ∧ startWorld.player.yCurrent = 7 ∧
    startWorld.gameObjects.length = 7 ∧ (∃ i, i < 7 ∧ slot startWorld.gameObjects i = none) ∧
    (∀ k, k < 12 →
      0 < (run (ThreadBulletSpawner startWorld) (List.replicate k .render)).nEnemyLivesLeft) ∧
    ∃ m, m < 7 ∧
      slot (run (ThreadBulletSpawner startWorld) (List.replicate 12 .render)).gameObjects m =
        none :=
  have hb : IsBullet startWorld.bullet := ⟨rfl, rfl, rfl, rfl, rfl⟩
  have hroom : ∃ i, i < 7 ∧ slot startWorld.gameObjects i = none := ⟨2, by decide, by decide⟩
  have hpos : ∀ k, k < 12 →
      0 < (run (ThreadBulletSpawner startWorld) (List.replicate k .render)).nEnemyLivesLeft := by
    decide
  have h := bullet_expires_within_12_ticks startWorld hb rfl rfl hroom
  ⟨hb, rfl, rfl, hroom, hpos,
    h.elim fun m hm => ⟨m, hm.1, (hm.2.2.2.2.2 (fun k hk _ => hpos k hk)).1⟩⟩

/-! ## The game can be won -/

theorem count_two_of_two_slots (g : List (Option ObjRef)) (r : ObjRef) :
    ∀ i j, i ≠ j → slot g i = some r → slot g j = some r → 2 ≤ g.count (some r) := by
  induction g with
  | nil => intro i j _ h _; simp [slot] at h
  | cons a t ih =>
    intro i j hij hi hj
    have hmem : ∀ k, slot t k = some r → 1 ≤ t.count (some r) := by
      intro k hk
      apply List.count_pos_iff.mpr
      unfold slot at hk
      rw [List.getD_eq_getElem?_getD] at hk
      cases hk' : t[k]? with
      | none => rw [hk'] at hk; simp at hk
      | some v =>
        rw [hk'] at hk
        simp only [Option.getD_some] at hk
        rw [← hk]
        exact List.getElem?_mem hk'
    have hz : ∀ k, slot (a :: t) (k + 1) = slot t k := fun _ => rfl
    have h0 : slot (a :: t) 0 = a := rfl
    rw [List.count_cons]
    cases i with
    | zero =>
      cases j with
      | zero => exact absurd rfl hij
      | succ j =>
        rw [h0] at hi
        rw [hz] at hj
        have := hmem j hj
        rw [hi]
        simp only [beq_self_eq_true, if_true]
        omega
    | succ i =>
      cases j with
      | zero =>
        rw [h0] at hj
        rw [hz] at hi
        have := hmem i hi
        rw [hj]
        simp only [beq_self_eq_true, if_true]
        omega
      | succ j =>
        rw [hz] at hi hj
        have := ih i j (by omega) hi hj
        omega

theorem singleSlot_of_atMostOnce (g : List (Option ObjRef)) (h : AtMostOnce g) :
    SingleSlot g := by
  intro i j r hi hj
  by_contra hij
  have h2 := count_two_of_two_slots g r i j hij hi hj
  have h1 : g.count (some r) ≤ 1 := h r (by cases r <;> simp)
  omega

theorem run_take_mem_states : ∀ (steps : List Step) (w : World) (n : Nat),
    run w (steps.take n) ∈ states w steps := by
  intro steps
  induction steps with
  | nil => intro w n; simp [run, states]
  | cons s rest ih =>
    intro w n
    cases n with
    | zero => simp [run, states]
    | succ n =>
      have e : run w ((s :: rest).take (n + 1)) = run (step w s) (rest.take n) := rfl
      rw [e]
      exact List.mem_cons_of_mem _ (ih (step w s) n)

/-- C20: there is a finite sequence of spawner steps and render ticks from the start state
(player at (32, 7), enemy at (32, 40), both registered, life counter 3) along which each
object occupies at most one slot at all times and the counter goes from 3 to 2, from 2 to 1
and from 1 to 0 in three different ticks; at the end the counter is 0 and a render tick
changes nothing any more. -/
theorem game_can_be_won :
    ∃ steps : List Step,
      (∀ s ∈ steps, s = .spawner ∨ s = .render) ∧
      (startWorld.player.xCurrent = 32 ∧ startWorld.player.yCurrent = 7 ∧
        startWorld.enemy.xCurrent = 32 ∧ startWorld.enemy.yCurrent = 40 ∧
        startWorld.gameObjects = [some .player, some .enemy, none, none, none, none, none] ∧
        startWorld.nEnemyLivesLeft = 3) ∧
      (∀ n, SingleSlot (run startWorld (steps.take n)).gameObjects) ∧
      (∃ n1 n2 n3, n1 < n2 ∧ n2 < n3 ∧ n3 < steps.length ∧
        (run startWorld (steps.take n1)).nEnemyLivesLeft = 3 ∧
        (run startWorld (steps.take (n1 + 1))).nEnemyLivesLeft = 2 ∧
        (run startWorld (steps.take n2)).nEnemyLivesLeft = 2 ∧
        (run startWorld (steps.take (n2 + 1))).nEnemyLivesLeft = 1 ∧
        (run startWorld (steps.take n3)).nEnemyLivesLeft = 1 ∧
        (run startWorld (steps.take (n3 + 1))).nEnemyLivesLeft = 0) ∧
      (run startWorld steps).nEnemyLivesLeft = 0 ∧
      ThreadRenderer (run startWorld steps) = run startWorld steps := by
  have hall : ∀ v ∈ states startWorld winningRun, AtMostOnce v.gameObjects := by decide
  refine ⟨winningRun, by decide, by decide, ?_, ⟨21, 49, 78, by decide⟩, by decide, ?_⟩
  · intro n
    exact singleSlot_of_atMostOnce _ (hall _ (run_take_mem_states winningRun startWorld n))
  · exact ThreadRenderer_suspended _ (by decide)

/-! ## After a removal, within the same tick -/

theorem cbBullet_result (w : World) (b : GameObject) :
    (cbBulletOutOfBoundaries w b).2 =
      (overlapsWithEnemy w.enemy b ||
        decide (SCREEN_Y_MAX < sub32 b.yCurrent (BULLET_HEIGHT / 2))) := by
  unfold cbBulletOutOfBoundaries
  cases h : overlapsWithEnemy w.enemy b <;> simp

theorem mainLayout_startWorld : MainLayout startWorld.gameObjects := by
  refine ⟨by decide, by decide, ?_⟩
  intro j hj
  by_cases h7 : j < 7
  · interval_cases j <;> decide
  · exact Or.inl (slot_of_length_le _ j (Nat.le_of_not_lt h7))

theorem mainLayout_step (w : World) (s : Step) (hs : s = .spawner ∨ s = .render)
    (h : Inv w) (hl : MainLayout w.gameObjects) : MainLayout (step w s).gameObjects := by
  obtain ⟨l0, l1, l2⟩ := hl
  have keep : ∀ j r, r ≠ .bullet → slot w.gameObjects j = some r →
      slot (step w s).gameObjects j = some r := by
    intro j r hr hj
    rcases step_slot_cases w s j h with a | ⟨a1, _⟩ | ⟨a1, _⟩
    · rw [a]; exact hj
    · rw [hj] at a1; exact absurd (Option.some.inj a1) hr
    · rw [hj] at a1; exact absurd a1 (by simp)
  refine ⟨keep 0 .player (by decide) l0, keep 1 .enemy (by decide) l1, ?_⟩
  intro j hj
  rcases hs with e | e
  · subst e
    rcases addToRenderable_slot w.gameObjects .bullet j with a | ⟨_, a⟩
    · have : slot (step w .spawner).gameObjects j = slot w.gameObjects j := a
      rw [this]; exact l2 j hj
    · exact Or.inr a
  · subst e
    rcases step_slot_cases w .render j h with a | ⟨_, a⟩ | ⟨a1, r, a2⟩
    · rw [a]; exact l2 j hj
    · exact Or.inl a
    · have e : step w .render = ThreadRenderer w := rfl
      rw [e] at a2
      rcases ThreadRenderer_slot_sub w j with b | b
      · rw [b] at a2; exact absurd a2 (by simp)
      · rw [b, a1] at a2; exact absurd a2 (by simp)

theorem mainLayout_run : ∀ (steps : List Step) (w : World),
    (∀ s ∈ steps, s = .spawner ∨ s = .render) → Inv w → MainLayout w.gameObjects →
    MainLayout (run w steps).gameObjects := by
  intro steps
  induction steps with
  | nil => intro w _ _ hl; exact hl
  | cons s rest ih =>
    intro w hs h hl
    exact ih (step w s) (fun t ht => hs t (List.mem_cons_of_mem _ ht)) (inv_step w s h)
      (mainLayout_step w s (hs s (List.mem_cons_self _ _)) h hl)

theorem inv_beforeSlot (w : World) (i : Nat) (h : Inv w) : Inv (beforeSlot w i) :=
  inv_renderLoop i 0 (frameStart w)
    (inv_emit _ _ (inv_emit _ _ (inv_emit _ _ h (by simp [GoodDraw])) (by simp [GoodDraw]))
      (by simp [GoodDraw]))

theorem beforeSlot_succ (w : World) (j : Nat) :
    beforeSlot w (j + 1) = renderSlot (beforeSlot w j) j := by
  unfold beforeSlot
  rw [renderLoop_succ_last, Nat.zero_add]

/-- With the registry laid out as by `main`, once the bullet's handler has reported removal
for slot `i`, the rest of the loop changes neither the bullet nor the enemy and makes no
display call. -/
theorem rest_of_tick_after_removal (w : World) (h : Inv w) (hl : MainLayout w.gameObjects)
    (i : Nat) (hi2 : 2 ≤ i) (hs : slot w.gameObjects i = some .bullet)
    (hrem : (callOutOfBoundaries (beforeSlot w i) .bullet).2 = true) :
    ∀ d, (beforeSlot w (i + 1 + d)).bullet = (beforeSlot w i).bullet ∧
      (beforeSlot w (i + 1 + d)).enemy = (beforeSlot w i).enemy ∧
      (beforeSlot w (i + 1 + d)).display = (beforeSlot w i).display := by
  have removedStep : ∀ (v : World) (j : Nat), slot v.gameObjects j = some .bullet →
      (callOutOfBoundaries v .bullet).2 = true →
      (renderSlot v j).bullet = v.bullet ∧ (renderSlot v j).enemy = v.enemy ∧
      (renderSlot v j).display = v.display := by
    intro v j hj hr
    rw [renderSlot_removed v j .bullet hj hr]
    exact ⟨callOutOfBoundaries_removed_obj v .bullet .bullet hr,
      callOutOfBoundaries_removed_obj v .bullet .enemy hr,
      callOutOfBoundaries_display v .bullet⟩
  have hvi : slot (beforeSlot w i).gameObjects i = some .bullet := by
    rw [beforeSlot_slot w i i (Nat.le_refl i)]; exact hs
  intro d
  induction d with
  | zero =>
    rw [Nat.add_zero, beforeSlot_succ]
    exact removedStep _ i hvi hrem
  | succ d ih =>
    obtain ⟨a1, a2, a3⟩ := ih
    have e : i + 1 + (d + 1) = (i + 1 + d) + 1 := by omega
    rw [e, beforeSlot_succ]
    have hslot : slot (beforeSlot w (i + 1 + d)).gameObjects (i + 1 + d) =
        slot w.gameObjects (i + 1 + d) := beforeSlot_slot w _ _ (Nat.le_refl _)
    rcases hl.2.2 (i + 1 + d) (by omega) with hn | hb
    · rw [renderSlot_empty _ _ (hslot.trans hn)]
      exact ⟨a1, a2, a3⟩
    · have hinv := inv_beforeSlot w (i + 1 + d) h
      have hinvi := inv_beforeSlot w i h
      have hr : (callOutOfBoundaries (beforeSlot w (i + 1 + d)) .bullet).2 = true := by
        rw [callOutOfBoundaries_bullet _ hinv.bulletShape, cbBullet_result, a1, a2,
          ← cbBullet_result, ← callOutOfBoundaries_bullet _ hinvi.bulletShape]
        exact hrem
      obtain ⟨b1, b2, b3⟩ := removedStep _ (i + 1 + d) (hslot.trans hb) hr
      exact ⟨b1.trans a1, b2.trans a2, b3.trans a3⟩

theorem tick_slot_eq (w : World) (i : Nat) (hlives : 0 < w.nEnemyLivesLeft) (hi : i < 7) :
    slot (ThreadRenderer w).gameObjects i =
      slot (renderSlot (beforeSlot w i) i).gameObjects i := by
  have hsplit : renderLoop 0 7 (frameStart w) =
      renderLoop (i + 1) (6 - i) (renderSlot (beforeSlot w i) i) := by
    have e : 7 = (i + 1) + (6 - i) := by omega
    rw [e, renderLoop_add (i + 1) (6 - i) 0 (frameStart w), renderLoop_succ_last]
    simp only [Nat.zero_add]
    rfl
  rw [ThreadRenderer_running w hlives, emit_gameObjects, hsplit]
  exact renderLoop_slot_outside (6 - i) (i + 1) _ i (by omega)

theorem ThreadRenderer_eq_beforeSlot (w : World) (hlives : 0 < w.nEnemyLivesLeft) :
    ThreadRenderer w = (beforeSlot w 7).emit .ssd1306UpdateScreen :=
  ThreadRenderer_running w hlives

theorem renderSlot_lives_other (w : World) (i : Nat) (h : Inv w)
    (hs : slot w.gameObjects i ≠ some .bullet) :
    (renderSlot w i).nEnemyLivesLeft = w.nEnemyLivesLeft := by
  rcases hr : slot w.gameObjects i with _ | r
  · rw [renderSlot_empty w i hr]
  · cases r
    · have hc := callOutOfBoundaries_player w h
      rw [renderSlot_kept w i .player hr (by rw [hc]), hc]
      simp only [emit_nEnemyLivesLeft, setObj_nEnemyLivesLeft]
    · exact absurd hr hs
    · have hc := callOutOfBoundaries_enemy w h
      rw [renderSlot_kept w i .enemy hr (by rw [hc]), hc]
      simp only [emit_nEnemyLivesLeft, setObj_nEnemyLivesLeft]

theorem renderSlot_lives_bullet (w : World) (i : Nat) (h : Inv w)
    (hs : slot w.gameObjects i = some .bullet) :
    (renderSlot w i).nEnemyLivesLeft = w.nEnemyLivesLeft ∨
      (renderSlot w i).nEnemyLivesLeft = (w.nEnemyLivesLeft + 255) % 256 := by
  have hc := callOutOfBoundaries_bullet w h.bulletShape
  have hlives : (cbBulletOutOfBoundaries w w.bullet).1.nEnemyLivesLeft = w.nEnemyLivesLeft ∨
      (cbBulletOutOfBoundaries w w.bullet).1.nEnemyLivesLeft =
        (w.nEnemyLivesLeft + 255) % 256 := by
    unfold cbBulletOutOfBoundaries
    split_ifs
    · exact Or.inr rfl
    · exact Or.inl rfl
  cases hr : (callOutOfBoundaries w .bullet).2
  · rw [renderSlot_kept w i .bullet hs hr, hc]
    simp only [emit_nEnemyLivesLeft, setObj_nEnemyLivesLeft]
    exact hlives
  · rw [renderSlot_removed w i .bullet hs hr, hc]
    exact hlives

theorem renderLoop_lives_noBullet : ∀ (k i : Nat) (w : World), Inv w →
    (∀ j, i ≤ j → j < i + k → slot w.gameObjects j ≠ some .bullet) →
    (renderLoop i k w).nEnemyLivesLeft = w.nEnemyLivesLeft := by
  intro k
  induction k with
  | zero => intro i w _ _; rfl
  | succ k ih =>
    intro i w h hno
    show (renderLoop (i + 1) k (renderSlot w i)).nEnemyLivesLeft = _
    rw [ih (i + 1) (renderSlot w i) (inv_renderSlot w i h),
      renderSlot_lives_other w i h (hno i (Nat.le_refl i) (by omega))]
    intro j h1 h2
    rw [renderSlot_slot_other w i j (by omega)]
    exact hno j (by omega) (by omega)

/-- A tick on a registry in which the bullet occupies at most one slot detects at most one
hit. -/
theorem tick_lives_once (w : World) (h : Inv w) (honce : BulletOnce w.gameObjects)
    (hlives : 0 < w.nEnemyLivesLeft) :
    (ThreadRenderer w).nEnemyLivesLeft = w.nEnemyLivesLeft ∨
      (ThreadRenderer w).nEnemyLivesLeft = (w.nEnemyLivesLeft + 255) % 256 := by
  have hf : Inv (frameStart w) := inv_beforeSlot w 0 h
  rw [ThreadRenderer_running w hlives, emit_nEnemyLivesLeft]
  by_cases hex : ∃ m, m < 7 ∧ slot w.gameObjects m = some .bullet
  · obtain ⟨m, hm, hs⟩ := hex
    have hsplit : renderLoop 0 7 (frameStart w) =
        renderLoop (m + 1) (6 - m) (renderSlot (beforeSlot w m) m) := by
      have e : 7 = (m + 1) + (6 - m) := by omega
      rw [e, renderLoop_add (m + 1) (6 - m) 0 (frameStart w), renderLoop_succ_last]
      simp only [Nat.zero_add]
      rfl
    have hv : (beforeSlot w m).nEnemyLivesLeft = w.nEnemyLivesLeft := by
      unfold beforeSlot
      rw [renderLoop_lives_noBullet m 0 (frameStart w) hf]
      · rfl
      · intro j _ hj hb
        have : j = m := honce j m hb hs
        omega
    have hvs : slot (beforeSlot w m).gameObjects m = some .bullet := by
      rw [beforeSlot_slot w m m (Nat.le_refl m)]; exact hs
    have hvi := inv_beforeSlot w m h
    have hrest : (renderLoop (m + 1) (6 - m) (renderSlot (beforeSlot w m) m)).nEnemyLivesLeft =
        (renderSlot (beforeSlot w m) m).nEnemyLivesLeft := by
      apply renderLoop_lives_noBullet _ _ _ (inv_renderSlot _ m hvi)
      intro j h1 _ hb
      rw [renderSlot_slot_other _ m j (by omega), beforeSlot_slot w m j (by omega)] at hb
      have : j = m := honce j m hb hs
      omega
    rw [hsplit, hrest, ← hv]
    exact renderSlot_lives_bullet _ m hvi hvs
  · left
    rw [renderLoop_lives_noBullet 7 0 (frameStart w) hf]
    · rfl
    · intro j _ hj hb
      exact hex ⟨j, by omega, hb⟩

theorem slot_lt_of_some (g : List (Option ObjRef)) (i : Nat) (r : ObjRef) (hlen : g.length = 7)
    (h : slot g i = some r) : i < 7 := by
  by_contra hge
  rw [slot_of_length_le g i (by omega)] at h
  exact absurd h (by simp)

/-- A render tick keeps the flight invariant, one tick further, and does not increase the
life counter. -/
theorem flight_tick (c : Nat) (w : World) (h : Inv w) (hf : Flight c w) :
    Flight (c + 1) (ThreadRenderer w) ∧
      (ThreadRenderer w).nEnemyLivesLeft ≤ w.nEnemyLivesLeft := by
  obtain ⟨h3, hrest⟩ := hf
  rcases Nat.eq_zero_or_pos w.nEnemyLivesLeft with h0 | h0
  · rw [ThreadRenderer_suspended w h0]
    exact ⟨⟨h3, Or.inl h0⟩, Nat.le_refl _⟩
  · rcases hrest with hz | ⟨honce, hy⟩
    · omega
    · have hle : (ThreadRenderer w).nEnemyLivesLeft ≤ w.nEnemyLivesLeft := by
        rcases tick_lives_once w h honce h0 with k | k
        · rw [k]
        · rw [k]; omega
      refine ⟨⟨Nat.le_trans hle h3, Or.inr ⟨?_, ?_⟩⟩, hle⟩
      · intro i j hi hj
        rcases ThreadRenderer_slot_sub w i with a | a
        · rw [a] at hi; exact absurd hi (by simp)
        · rcases ThreadRenderer_slot_sub w j with b | b
          · rw [b] at hj; exact absurd hj (by simp)
          · exact honce i j (a ▸ hi) (b ▸ hj)
      · intro i hi
        have hsi : slot w.gameObjects i = some .bullet := by
          rcases ThreadRenderer_slot_sub w i with a | a
          · rw [a] at hi; exact absurd hi (by simp)
          · exact a ▸ hi
        have hi7 : i < 7 := slot_lt_of_some _ i .bullet h.slots hsi
        have hby : 11 ≤ w.bullet.yCurrent ∧ w.bullet.yCurrent ≤ 66 ∧
            w.bullet.yCurrent % 5 = 1 := by
          rcases h.bulletY with e | e
          · exact absurd hsi (e i)
          · exact e
        obtain ⟨t1, t2⟩ := bullet_tick w i h.bulletShape (by unfold INT32_MIN; omega)
          (by unfold INT32_MAX; omega) h0 h.slots hi7 hsi (fun j hj => honce j i hj hsi)
        cases hr : (callOutOfBoundaries (beforeSlot w i) .bullet).2
        · obtain ⟨_, k, _, _⟩ := t1 hr
          rw [k]
          have := hy i hsi
          show 11 + 5 * ((c + 1 : Nat) : Int) ≤ w.bullet.yCurrent + 5
          push_cast
          omega
        · obtain ⟨_, k, _⟩ := t2 hr
          rw [k] at hi
          exact absurd hi (by simp)

/-- A spawner iteration made at least twelve ticks after the one before it finds the
bullet in no slot (unless the counter is 0) and starts a new flight. -/
theorem flight_spawn (c : Nat) (w : World) (h : Inv w) (hf : Flight c w) (hc : 12 ≤ c) :
    Flight 0 (ThreadBulletSpawner w) := by
  obtain ⟨h3, hrest⟩ := hf
  have hl : (ThreadBulletSpawner w).nEnemyLivesLeft = w.nEnemyLivesLeft := rfl
  refine ⟨by rw [hl]; exact h3, ?_⟩
  rcases hrest with hz | ⟨_, hy⟩
  · exact Or.inl (by rw [hl]; exact hz)
  · right
    have hfree : ∀ i, slot w.gameObjects i ≠ some .bullet := by
      intro i hi
      have h1 := hy i hi
      rcases h.bulletY with e | e
      · exact e i hi
      · have : (12 : Int) ≤ (c : Int) := by exact_mod_cast hc
        omega
    have hsg : (ThreadBulletSpawner w).gameObjects =
        (addToRenderable w.gameObjects .bullet).1 := rfl
    constructor
    · by_cases hroom : ∃ i, i < 7 ∧ slot w.gameObjects i = none
      · obtain ⟨m, _, _, _, _, _, _, m6⟩ :=
          addToRenderable_first_slot w.gameObjects .bullet h.slots hroom
        have key : ∀ j, slot (ThreadBulletSpawner w).gameObjects j = some .bullet → j = m := by
          intro j hj
          by_contra hne
          rw [hsg, m6 j hne] at hj
          exact hfree j hj
        intro i j hi hj
        rw [key i hi, key j hj]
      · have hfull : addToRenderable w.gameObjects .bullet = (w.gameObjects, false) :=
          addToRenderableLoop_full .bullet w.gameObjects N_MAX_GAME_OBJECTS 0
            (fun j _ h2 hj => hroom ⟨j, by simpa [N_MAX_GAME_OBJECTS] using h2, hj⟩)
        intro i j hi _
        rw [hsg, hfull] at hi
        exact absurd hi (hfree i)
    · intro i _
      rw [spawner_bullet_raw]
      simp only [h.playerY]
      decide

/-- Along a run in which two spawner iterations are at least twelve ticks apart, the life
counter stays at most 3 and no step increases it. -/
theorem spaced_run_lives : ∀ (steps : List Step) (c : Nat) (w : World), Inv w → Flight c w →
    spacedFrom 12 c steps = true →
    ∀ n, (run w (steps.take n)).nEnemyLivesLeft ≤ 3 ∧
      (run w (steps.take (n + 1))).nEnemyLivesLeft ≤ (run w (steps.take n)).nEnemyLivesLeft := by
  intro steps
  induction steps with
  | nil =>
    intro c w _ hf _ n
    simp only [List.take_nil]
    exact ⟨hf.1, Nat.le_refl _⟩
  | cons s rest ih =>
    intro c w h hf hsp n
    have hcons : ∀ k, run w ((s :: rest).take (k + 1)) = run (step w s) (rest.take k) :=
      fun _ => rfl
    cases s with
    | registerPlayer => exact absurd hsp (by simp [spacedFrom])
    | registerEnemy => exact absurd hsp (by simp [spacedFrom])
    | spawner =>
      simp only [spacedFrom, Bool.and_eq_true, decide_eq_true_eq] at hsp
      have hf' := flight_spawn c w h hf hsp.1
      have hrec := ih 0 (step w .spawner) (inv_step w .spawner h) hf' hsp.2
      cases n with
      | zero =>
        have e := hcons 0
        rw [Nat.zero_add] at e
        rw [Nat.zero_add, e]
        exact ⟨hf.1, Nat.le_refl _⟩
      | succ n =>
        rw [hcons (n + 1), hcons n]
        exact hrec n
    | render =>
      simp only [spacedFrom] at hsp
      obtain ⟨hf', hle⟩ := flight_tick c w h hf
      have hrec := ih (c + 1) (step w .render) (inv_step w .render h) hf' hsp
      cases n with
      | zero =>
        have e := hcons 0
        rw [Nat.zero_add] at e
        rw [Nat.zero_add, e]
        exact ⟨hf.1, hle⟩
      | succ n =>
        rw [hcons (n + 1), hcons n]
        exact hrec n

theorem flight_startWorld : Flight 12 startWorld :=
  ⟨by decide, Or.inr ⟨fun i _ hi _ => absurd hi (bulletFree_startWorld i),
    fun i hi => absurd hi (bulletFree_startWorld i)⟩⟩

end Oled
